import Mathlib

/-!
# PulseView capture session: a shallow embedding of `pv/sigsession.cpp`

The session object `pv::SigSession` is embedded as a record of its member
variables together with

* two stores holding the snapshot objects that the C++ code shares through
  `shared_ptr` (a reference is an index into the store),
* the trace `log` of every externally observable effect (Qt signals emitted,
  the error callback, `qDebug` output, calls on the libsigrok session, thread
  creation and join), in program order,
* the flag `aborted`, set when an `assert` fails, a null handle is
  dereferenced or an integer is divided by zero.  The process ends there, so
  every operation leaves an aborted session exactly as it is.

The sampling worker (`std::thread` running `sample_thread_proc`) is embedded as
the field `sampling_thread`, which records how far the worker body has got:
`worker_step` advances it by one step between two foreground operations, and
joining the thread runs what is left of the body.  The behaviour of the
libsigrok acquisition (does `start()` throw, is a trigger configured, which
packets does the blocking `run()` deliver, a stop request included) is the
parameter `Acquisition`.

Behind the session follow smaller embeddings: the device manager
(`pv/devicemanager.cpp`), the option map of a decoder
(`pv/data/decode/decoder.cpp`), the trigger and cap-line code of the logic
signal view (`pv/view/logicsignal.cpp`), the order in which the session takes
its mutexes, and the device option bindings
(`pv/prop/binding/deviceoptions.cpp`).
-/

namespace pv

/-! ## Data model -/

/-- The enum `SigSession::capture_state` (sigsession.h, line 63). -/
inductive capture_state
  | Stopped
  | AwaitingTrigger
  | Running
  deriving DecidableEq, Repr

/-- The two values of `sigrok::ChannelType`. -/
inductive ChannelType
  | LOGIC
  | ANALOG
  deriving DecidableEq, Repr

/-- A `sigrok::Channel`.  The field `id` is the identity of the shared object:
two handles are the same `shared_ptr` exactly when their `id` agrees. -/
structure Channel where
  id : Nat
  name : String
  type : ChannelType
  enabled : Bool
  deriving DecidableEq, Repr

/-- A `sigrok::Device`: identity, channels in device order, and the two
configuration values the session reads with `config_get`. -/
structure Device where
  id : Nat
  channels : List Channel
  samplerate : Nat
  limit_samples : Nat
  deriving DecidableEq, Repr

/-- Payload of a `sigrok::Logic` packet: the unit size and one entry per sample. -/
structure LogicPayload where
  unit_size : Nat
  samples : List Nat
  deriving DecidableEq, Repr

/-- Payload of a `sigrok::Analog` packet: its channels and the interleaved
sample buffer; `get_num_samples()` is the length of `data`. -/
structure AnalogPayload where
  channels : List Channel
  data : List Int
  deriving DecidableEq, Repr

/-- A `sigrok::Packet`, by its type id.  `other` stands for every type id that
`data_feed_in` sends to its `default` branch. -/
inductive Packet
  | HEADER
  | META (config : List (Nat × Nat))
  | FRAME_BEGIN
  | LOGIC (logic : LogicPayload)
  | ANALOG (analog : AnalogPayload)
  | END
  | other (type_id : Nat)
  deriving DecidableEq, Repr

/-- Modelled from the spec: `data::LogicSnapshot` (pv/data/logicsnapshot.cpp is
not among the sources).  A capacity-bounded, append-only sample buffer. -/
structure LogicSnapshot where
  unit_size : Nat
  capacity : Nat
  samples : List Nat
  deriving DecidableEq, Repr

/-- Modelled from the spec: `LogicSnapshot::append_payload`.  Appends the
samples of the payload; a no-op when they would exceed the capacity. -/
def LogicSnapshot.append_payload (snap : LogicSnapshot) (logic : LogicPayload) :
    LogicSnapshot :=
  if snap.samples.length + logic.samples.length ≤ snap.capacity then
    { snap with samples := snap.samples ++ logic.samples }
  else snap

/-- Modelled from the spec: the constructor `LogicSnapshot(logic, sample_limit)`,
a snapshot sized to the sample limit that receives the first payload. -/
def LogicSnapshot.create (logic : LogicPayload) (sample_limit : Nat) : LogicSnapshot :=
  LogicSnapshot.append_payload
    { unit_size := logic.unit_size, capacity := sample_limit, samples := [] } logic

/-- Modelled from the spec: `data::AnalogSnapshot` (pv/data/analogsnapshot.cpp is
not among the sources). -/
structure AnalogSnapshot where
  capacity : Nat
  samples : List Int
  deriving DecidableEq, Repr

/-- The samples `data[offset + j * stride]` for `j < sample_count`, which is what
`append_interleaved_samples(data + offset, sample_count, stride)` reads. -/
def deinterleave (data : List Int) (offset sample_count stride : Nat) : List Int :=
  (List.range sample_count).map (fun j => data.getD (offset + j * stride) 0)

/-- Modelled from the spec: `AnalogSnapshot::append_interleaved_samples`. -/
def AnalogSnapshot.append_interleaved_samples (snap : AnalogSnapshot)
    (data : List Int) (offset sample_count stride : Nat) : AnalogSnapshot :=
  if snap.samples.length + sample_count ≤ snap.capacity then
    { snap with samples := snap.samples ++ deinterleave data offset sample_count stride }
  else snap

/-- Modelled from the spec: `data::Logic` (pv/data/logic.cpp is not among the
sources): channel count, sample rate and the ordered snapshot references. -/
structure Logic where
  num_channels : Nat
  samplerate : Nat
  snapshots : List Nat
  deriving DecidableEq, Repr

/-- Modelled from the spec: `data::Analog`: sample rate and the ordered snapshot
references. -/
structure Analog where
  samplerate : Nat
  snapshots : List Nat
  deriving DecidableEq, Repr

/-- Modelled from the spec: `Logic::push_snapshot` appends. -/
def Logic.push_snapshot (d : Logic) (ref : Nat) : Logic :=
  { d with snapshots := d.snapshots ++ [ref] }

/-- Modelled from the spec: `Analog::push_snapshot` appends. -/
def Analog.push_snapshot (d : Analog) (ref : Nat) : Analog :=
  { d with snapshots := d.snapshots ++ [ref] }

/-- A `view::Signal` of the session.  A `LogicSignal` holds the session's
`_logic_data` handle (both are replaced together in `update_signals`), an
`AnalogSignal` owns its own `data::Analog`. -/
inductive Signal
  | logic (channel : Channel)
  | analog (channel : Channel) (data : Analog)
  deriving DecidableEq, Repr

/-- The channel handle of a signal, `Signal::channel()`. -/
def Signal.channel : Signal → Channel
  | .logic c => c
  | .analog c _ => c

/-- Whether the signal is a `view::LogicSignal`. -/
def Signal.is_logic : Signal → Bool
  | .logic _ => true
  | .analog _ _ => false

/-- The name a signal shows, `Trace::get_name`: the constructor of `Signal`
passes the channel's name to `Trace` (view/signal.cpp, line 62).  Renaming a
trace afterwards is outside the session and is not modelled. -/
def Signal.get_name (sig : Signal) : String :=
  sig.channel.name

/-- The struct `srd_channel` of libsigrokdecode.  The field `ptr` is the address
of the struct, which is what the channel maps are keyed by. -/
structure srd_channel where
  ptr : Nat
  id : String
  name : String
  deriving DecidableEq, Repr

/-- The struct `srd_decoder` of libsigrokdecode: its id and the two lists
`channels` (required) and `opt_channels` (optional). -/
structure srd_decoder where
  id : String
  channels : List srd_channel
  opt_channels : List srd_channel
  deriving DecidableEq, Repr

/-- The class `data::decode::Decoder` (data/decode/decoder.cpp): the decoder
definition, the flag `_shown`, the map `_channels` from `srd_channel` address to
the bound logic signal (named by its position in the session's signal list) and
the map `_options` from option id to the address of the `GVariant`. -/
structure Decoder where
  decoder : srd_decoder
  shown : Bool
  channels : List (Nat × Nat)
  options : List (String × Nat)
  deriving DecidableEq, Repr

/-- A `view::DecodeTrace` held by the session: its identity, the index it
was given on creation and the decoder stack it shows. -/
structure DecodeTrace where
  id : Nat
  index : Nat
  decoder_stack : List Decoder
  deriving DecidableEq, Repr

/-- What the libsigrok session does during one capture: the message thrown by
`start()` if it fails, whether `get_trigger()` is non-null, and the packets the
blocking `run()` hands to the datafeed callback before it returns. -/
structure Acquisition where
  start_error : Option String
  trigger : Bool
  packets : List Packet
  deriving DecidableEq, Repr

/-- Progress of the joinable `_sampling_thread`:
`spawned` the thread exists and `sample_thread_proc` has not begun;
`in_run` the body is blocked in `run()`, `pending` lists the packets still to
be delivered before `run()` returns; `returned` the body has returned and the
thread has not been joined yet. -/
inductive Thread
  | spawned (device : Device) (error_handler : Nat) (acq : Acquisition)
  | in_run (device : Device) (pending : List Packet)
  | returned
  deriving DecidableEq, Repr

/-- Observable effects, in the order the program performs them. -/
inductive Event
  | error_handler (handler : Nat) (msg : String)
  | qDebug (msg : String)
  | capture_state_changed (state : capture_state)
  | signals_changed
  | frame_began
  | data_received
  | frame_ended
  | sr_session_start
  | sr_session_run
  | sr_session_stop
  | sr_session_remove_devices
  | sr_session_remove_datafeed_callbacks
  | sr_session_add_device (device : Nat)
  | sr_session_add_datafeed_callback
  | device_close (device : Nat)
  | thread_spawn
  | thread_join
  | begin_decode (trace : Nat)
  | load_session
  | assert_failed (msg : String)
  deriving DecidableEq, Repr

/-- The member variables of `pv::SigSession` (sigsession.h, lines 151-172), the
two snapshot stores, the effect trace and the abort flag. -/
structure SigSession where
  device : Option Device
  decode_traces : List DecodeTrace
  capture_state : capture_state
  signals : List Signal
  logic_data : Option Logic
  cur_logic_snapshot : Option Nat
  cur_analog_snapshots : List (Nat × Nat)
  sampling_thread : Option Thread
  logic_snapshots : List LogicSnapshot
  analog_snapshots : List AnalogSnapshot
  log : List Event
  aborted : Bool
  deriving DecidableEq, Repr

/-- The session as the constructor's member initialisers leave it
(sigsession.cpp, lines 84-86), before `set_default_device`. -/
def SigSession.create : SigSession :=
  { device := none, decode_traces := [], capture_state := .Stopped, signals := [],
    logic_data := none, cur_logic_snapshot := none, cur_analog_snapshots := [],
    sampling_thread := none, logic_snapshots := [], analog_snapshots := [],
    log := [], aborted := false }

/-- Record one observable effect. -/
def SigSession.emit (s : SigSession) (e : Event) : SigSession :=
  { s with log := s.log ++ [e] }

/-- A failed `assert` or a null dereference: the failure is recorded and the
process ends. -/
def SigSession.abort (s : SigSession) (msg : String) : SigSession :=
  { s with log := s.log ++ [Event.assert_failed msg], aborted := true }

/-- Replace the element at index `ref` of a store by its image under `f`. -/
def store_update {α : Type} (f : α → α) : List α → Nat → List α
  | [], _ => []
  | x :: xs, 0 => f x :: xs
  | x :: xs, n + 1 => x :: store_update f xs n

/-! ## Capture state -/

/-- `SigSession::get_capture_state` (sigsession.cpp, lines 165-169). -/
def get_capture_state (s : SigSession) : capture_state :=
  s.capture_state

/-- `SigSession::set_capture_state` (sigsession.cpp, lines 304-311). -/
def set_capture_state (s : SigSession) (state : capture_state) : SigSession :=
  if s.aborted then s else
  let changed : Bool := decide (s.capture_state ≠ state)
  let s1 : SigSession := { s with capture_state := state }
  if changed then s1.emit (Event.capture_state_changed state) else s1

/-! ## Sample rate -/

/-- `SignalData::set_samplerate` applied to the data object of a signal; the
shared logic data object is handled by `read_sample_rate` itself. -/
def Signal.set_samplerate (sample_rate : Nat) : Signal → Signal
  | .logic c => .logic c
  | .analog c d => .analog c { d with samplerate := sample_rate }

/-- `SigSession::read_sample_rate` (sigsession.cpp, lines 390-401).  `get_data()`
collects the data handle of every signal: the session's `_logic_data` as soon as
one logic signal exists, and the own data object of each analog signal.  A null
handle in that set fails `assert(data)`. -/
def read_sample_rate (s : SigSession) (device : Device) : SigSession :=
  if s.aborted then s else
  let sample_rate : Nat := device.samplerate
  if s.signals.any Signal.is_logic && s.logic_data.isNone then s.abort "data" else
  { s with
    logic_data :=
      if s.signals.any Signal.is_logic then
        s.logic_data.map (fun d => { d with samplerate := sample_rate })
      else s.logic_data
    signals := s.signals.map (Signal.set_samplerate sample_rate) }

/-! ## Packet dispatch -/

/-- `SigSession::feed_in_header` (sigsession.cpp, lines 432-435). -/
def feed_in_header (s : SigSession) (device : Device) : SigSession :=
  read_sample_rate s device

/-- `SigSession::feed_in_meta` (sigsession.cpp, lines 437-454): both branches of
the switch over the entries are empty, then `signals_changed` is emitted. -/
def feed_in_meta (s : SigSession) (_device : Device) (_config : List (Nat × Nat)) :
    SigSession :=
  if s.aborted then s else s.emit Event.signals_changed

/-- `SigSession::feed_in_frame_begin` (sigsession.cpp, lines 456-460). -/
def feed_in_frame_begin (s : SigSession) : SigSession :=
  if s.aborted then s else
  if s.cur_logic_snapshot.isSome || !s.cur_analog_snapshots.isEmpty then
    s.emit Event.frame_began
  else s

/-- `SigSession::feed_in_logic` (sigsession.cpp, lines 462-499). -/
def feed_in_logic (s : SigSession) (logic : LogicPayload) : SigSession :=
  if s.aborted then s else
  match s.logic_data with
  | none => s.emit (Event.qDebug "Unexpected logic packet")
  | some logic_data =>
    match s.cur_logic_snapshot with
    | none =>
      -- This could be the first packet after a trigger
      let s1 := set_capture_state s .Running
      match s1.device with
      | none => s1.abort "_device"
      | some device =>
        let sample_limit : Nat := device.limit_samples
        let ref : Nat := s1.logic_snapshots.length
        let s2 : SigSession :=
          { s1 with
            logic_snapshots := s1.logic_snapshots ++ [LogicSnapshot.create logic sample_limit]
            cur_logic_snapshot := some ref
            logic_data := some (logic_data.push_snapshot ref) }
        (s2.emit Event.frame_began).emit Event.data_received
    | some ref =>
      let s1 : SigSession :=
        { s with
          logic_snapshots :=
            store_update (fun snap => snap.append_payload logic) s.logic_snapshots ref }
      s1.emit Event.data_received

/-- `SigSession::signal_from_channel` (sigsession.cpp, lines 378-388): the first
signal whose channel handle is the given one. -/
def signal_from_channel (s : SigSession) (channel : Channel) : Option Signal :=
  s.signals.find? (fun sig => sig.channel.id == channel.id)

/-- The effect of `data->push_snapshot(snapshot)` on the data object owned by the
signal that `signal_from_channel` returns. -/
def push_analog_snapshot (ref : Nat) (channel_id : Nat) : List Signal → List Signal
  | [] => []
  | sig :: rest =>
    if sig.channel.id == channel_id then
      (match sig with
        | .analog c d => Signal.analog c (d.push_snapshot ref)
        | .logic c => Signal.logic c) :: rest
    else sig :: push_analog_snapshot ref channel_id rest

/-- The loop over the channels of an analog packet (sigsession.cpp, lines
511-554).  `offset` is how far `data++` has advanced; the Boolean is the local
`sweep_beginning`. -/
def feed_in_analog_channels (data : List Int) (sample_count probe_count : Nat) :
    List Channel → Nat → SigSession × Bool → SigSession × Bool
  | [], _, acc => acc
  | channel :: rest, offset, (s, sweep_beginning) =>
    if s.aborted then (s, sweep_beginning) else
    match s.cur_analog_snapshots.find? (fun e => e.1 == channel.id) with
    | some (_, ref) =>
      let s1 : SigSession :=
        { s with
          analog_snapshots :=
            store_update
              (fun snap => snap.append_interleaved_samples data offset sample_count probe_count)
              s.analog_snapshots ref }
      feed_in_analog_channels data sample_count probe_count rest (offset + 1)
        (s1, sweep_beginning)
    | none =>
      match s.device with
      | none => (s.abort "_device", true)
      | some device =>
        let sample_limit : Nat := device.limit_samples
        let ref : Nat := s.analog_snapshots.length
        let s1 : SigSession :=
          { s with
            analog_snapshots :=
              s.analog_snapshots ++ [{ capacity := sample_limit, samples := [] }]
            cur_analog_snapshots := s.cur_analog_snapshots ++ [(channel.id, ref)] }
        match signal_from_channel s1 channel with
        | some (Signal.analog _ _) =>
          let s2 : SigSession :=
            { s1 with signals := push_analog_snapshot ref channel.id s1.signals }
          let s3 : SigSession :=
            { s2 with
              analog_snapshots :=
                store_update
                  (fun snap =>
                    snap.append_interleaved_samples data offset sample_count probe_count)
                  s2.analog_snapshots ref }
          feed_in_analog_channels data sample_count probe_count rest (offset + 1) (s3, true)
        | _ => (s1.abort "sig", true)

/-- `SigSession::feed_in_analog` (sigsession.cpp, lines 501-562).  A packet
without channels divides by zero at line 507. -/
def feed_in_analog (s : SigSession) (analog : AnalogPayload) : SigSession :=
  if s.aborted then s else
  let probe_count : Nat := analog.channels.length
  if probe_count = 0 then s.abort "probe_count" else
  let sample_count : Nat := analog.data.length / probe_count
  let r : SigSession × Bool :=
    feed_in_analog_channels analog.data sample_count probe_count analog.channels 0 (s, false)
  if r.1.aborted then r.1 else
  let s1 : SigSession := if r.2 then set_capture_state r.1 .Running else r.1
  s1.emit Event.data_received

/-- `SigSession::data_feed_in` (sigsession.cpp, lines 564-605).  The asserts on
`device` and `packet` hold because both are values here. -/
def data_feed_in (s : SigSession) (device : Device) (packet : Packet) : SigSession :=
  if s.aborted then s else
  match packet with
  | .HEADER => feed_in_header s device
  | .META config => feed_in_meta s device config
  | .FRAME_BEGIN => feed_in_frame_begin s
  | .LOGIC logic => feed_in_logic s logic
  | .ANALOG analog => feed_in_analog s analog
  | .END =>
    let s1 : SigSession := { s with cur_logic_snapshot := none, cur_analog_snapshots := [] }
    s1.emit Event.frame_ended
  | .other _ => s

/-- The packets of one sweep of logic data: FRAME_BEGIN, one or more LOGIC
packets, END. -/
def sweep_packets (first : LogicPayload) (more : List LogicPayload) : List Packet :=
  [Packet.FRAME_BEGIN] ++ (first :: more).map Packet.LOGIC ++ [Packet.END]

/-- A snapshot after `append_payload` with each payload of the list, in order. -/
def LogicSnapshot.append_payloads (snap : LogicSnapshot) (logics : List LogicPayload) :
    LogicSnapshot :=
  logics.foldl LogicSnapshot.append_payload snap

/-! ## The sampling worker -/

/-- The packets that `_sr_session->run()` hands to the datafeed callback, one
`data_feed_in` call each, in order. -/
def sr_session_deliver (s : SigSession) (device : Device) : List Packet → SigSession
  | [] => s
  | p :: ps => sr_session_deliver (data_feed_in s device p) device ps

/-- `SigSession::sample_thread_proc`, lines 406-419: everything before the call
of `run()`.  The Boolean tells whether `run()` is entered next. -/
def sample_thread_proc_begin (s : SigSession) (device : Device) (error_handler : Nat)
    (acq : Acquisition) : SigSession × Bool :=
  let s1 := read_sample_rate s device
  if s1.aborted then (s1, false) else
  let s2 := s1.emit Event.sr_session_start
  match acq.start_error with
  | some e => (s2.emit (Event.error_handler error_handler e), false)
  | none =>
    (set_capture_state s2 (if acq.trigger then .AwaitingTrigger else .Running), true)

/-- `SigSession::sample_thread_proc`, lines 422-429: everything after `run()` has
returned. -/
def sample_thread_proc_end (s : SigSession) : SigSession :=
  if s.aborted then s else
  let s1 := set_capture_state s .Stopped
  -- Confirm that SR_DF_END was received
  if s1.cur_logic_snapshot.isSome then
    (s1.emit (Event.qDebug "SR_DF_END was not received.")).abort "0"
  else s1

/-- `SigSession::sample_thread_proc` (sigsession.cpp, lines 403-430).  The two
leading asserts hold by construction: the device is a value and the callback is
named by a number. -/
def sample_thread_proc (s : SigSession) (device : Device) (error_handler : Nat)
    (acq : Acquisition) : SigSession :=
  let r := sample_thread_proc_begin s device error_handler acq
  if r.2 then
    sample_thread_proc_end
      (sr_session_deliver (r.1.emit Event.sr_session_run) device acq.packets)
  else r.1

/-- What is left of the worker body from the given point of progress. -/
def Thread.finish (s : SigSession) : Thread → SigSession
  | .spawned device error_handler acq => sample_thread_proc s device error_handler acq
  | .in_run device pending => sample_thread_proc_end (sr_session_deliver s device pending)
  | .returned => s

/-- One scheduling step of the worker while the foreground is not inside a
session operation: the part before `run()`, the delivery of one packet, or the
part after `run()`. -/
def worker_step (s : SigSession) : SigSession :=
  if s.aborted then s else
  match s.sampling_thread with
  | some (.spawned device error_handler acq) =>
    let r := sample_thread_proc_begin s device error_handler acq
    if r.1.aborted then r.1
    else if r.2 then
      { r.1.emit Event.sr_session_run with
        sampling_thread := some (Thread.in_run device acq.packets) }
    else { r.1 with sampling_thread := some Thread.returned }
  | some (.in_run device (p :: ps)) =>
    let s1 := data_feed_in s device p
    if s1.aborted then s1 else { s1 with sampling_thread := some (Thread.in_run device ps) }
  | some (.in_run _ []) =>
    let s1 := sample_thread_proc_end s
    if s1.aborted then s1 else { s1 with sampling_thread := some Thread.returned }
  | some .returned => s
  | none => s

/-! ## Capture control -/

/-- The first statement of `stop_capture` (sigsession.cpp, lines 203-204): the
acquisition is asked to stop unless the capture state is `Stopped`. -/
def stop_request (s : SigSession) : SigSession :=
  if get_capture_state s ≠ .Stopped then s.emit Event.sr_session_stop else s

/-- The second statement of `stop_capture` (sigsession.cpp, lines 207-208): a
joinable worker is joined.  Joining blocks until the worker body has returned;
afterwards the thread is not joinable. -/
def thread_join (s : SigSession) : SigSession :=
  match s.sampling_thread with
  | none => s
  | some t =>
    let s1 := t.finish s
    if s1.aborted then s1
    else { s1 with sampling_thread := none, log := s1.log ++ [Event.thread_join] }

/-- `SigSession::stop_capture` (sigsession.cpp, lines 201-209). -/
def stop_capture (s : SigSession) : SigSession :=
  if s.aborted then s else thread_join (stop_request s)

/-- `SigSession::start_capture` (sigsession.cpp, lines 171-199).  The extra
argument `acq` is how the libsigrok session will behave if a worker is spawned. -/
def start_capture (s : SigSession) (error_handler : Nat) (acq : Acquisition) :
    SigSession :=
  if s.aborted then s else
  let s1 := stop_capture s
  if s1.aborted then s1 else
  -- Check that a device instance has been selected.
  match s1.device with
  | none => s1.emit (Event.qDebug "No device selected")
  | some device =>
    -- Check that at least one probe is enabled
    let enabled : Bool := device.channels.any (fun channel => channel.enabled)
    if !enabled then
      s1.emit (Event.error_handler error_handler "No channels enabled.")
    else
      -- Begin the session
      { s1 with
        sampling_thread := some (Thread.spawned device error_handler acq)
        log := s1.log ++ [Event.thread_spawn] }

/-! ## Device selection -/

/-- `SigSession::update_signals` (sigsession.cpp, lines 313-376). -/
def update_signals (s : SigSession) (device : Device) : SigSession :=
  if s.aborted then s else
  if s.capture_state ≠ .Stopped then s.abort "_capture_state == Stopped" else
  -- Detect what data types we will receive
  let logic_probe_count : Nat :=
    (device.channels.filter (fun c => c.enabled && c.type == ChannelType.LOGIC)).length
  let s1 : SigSession :=
    { s with
      -- Clear the decode traces
      decode_traces := []
      -- Create data containers for the logic data snapshots
      logic_data :=
        if logic_probe_count ≠ 0 then
          some { num_channels := logic_probe_count, samplerate := 0, snapshots := [] }
        else none
      -- Make the Signals list
      signals :=
        device.channels.map (fun channel =>
          match channel.type with
          | .LOGIC => Signal.logic channel
          | .ANALOG => Signal.analog channel { samplerate := 0, snapshots := [] }) }
  s1.emit Event.signals_changed

/-- `SigSession::set_device` (sigsession.cpp, lines 109-131). -/
def set_device (s : SigSession) (device : Option Device) : SigSession :=
  if s.aborted then s else
  -- Ensure we are not capturing before setting the device
  let s1 := stop_capture s
  if s1.aborted then s1 else
  let s2 : SigSession :=
    match s1.device with
    | some old =>
      ((s1.emit (Event.device_close old.id)).emit
        Event.sr_session_remove_devices).emit Event.sr_session_remove_datafeed_callbacks
    | none => s1
  let s3 : SigSession := { s2 with device := device, decode_traces := [] }
  match device with
  | some d =>
    update_signals
      ((s3.emit (Event.sr_session_add_device d.id)).emit
        Event.sr_session_add_datafeed_callback) d
  | none => s3

/-- `SigSession::set_file` (sigsession.cpp, lines 133-142).  `loaded` is what
`load_session(name)` gives: `none` when it throws, which leaves the session as
it is, otherwise the devices of the loaded session.  Taking element 0 of an
empty device vector is recorded as a failure. -/
def set_file (s : SigSession) (loaded : Option (List Device)) : SigSession :=
  if s.aborted then s else
  match loaded with
  | none => s
  | some devices =>
    let s1 := s.emit Event.load_session
    match devices with
    | [] => s1.abort "get_devices()[0]"
    | device :: _ =>
      let s2 : SigSession := { s1 with device := some device, decode_traces := [] }
      update_signals (s2.emit Event.sr_session_add_datafeed_callback) device

/-- `view::Signal::enable` (view/signal.cpp, lines 83-87) seen from the session:
the enabled flag of the shared channel object changes, for the device and for
every signal holding the handle.  The signal `visibility_changed` belongs to the
view, not to the session, and is not recorded. -/
def signal_enable (s : SigSession) (channel_id : Nat) (enable : Bool) : SigSession :=
  if s.aborted then s else
  let upd : Channel → Channel := fun c =>
    if c.id == channel_id then { c with enabled := enable } else c
  { s with
    device := s.device.map (fun d => { d with channels := d.channels.map upd })
    signals := s.signals.map (fun sig =>
      match sig with
      | .logic c => Signal.logic (upd c)
      | .analog c d => Signal.analog (upd c) d) }

/-! ## Decoders -/

/-- `std::map::find` on a map kept as an association list. -/
def map_find {β : Type} (m : List (Nat × β)) (key : Nat) : Option β :=
  (m.find? (fun e => e.1 == key)).map (fun e => e.2)

/-- `m[key] = value` on a map kept as an association list: the entry of the
key is overwritten, or a new entry is added. -/
def map_set {β : Type} : List (Nat × β) → Nat → β → List (Nat × β)
  | [], key, value => [(key, value)]
  | e :: rest, key, value =>
    if e.1 == key then (key, value) :: rest else e :: map_set rest key value

/-- `QString::toLower`, on the letters A to Z. -/
def qstring_toLower (s : String) : String :=
  String.mk (s.data.map Char.toLower)

/-- Whether the first list of characters starts the second. -/
def starts_with : List Char → List Char → Bool
  | [], _ => true
  | _ :: _, [] => false
  | a :: as, b :: bs => a == b && starts_with as bs

/-- Whether `needle` occurs in the list of characters as a contiguous run. -/
def contains_chars (needle : List Char) : List Char → Bool
  | [] => needle.isEmpty
  | c :: cs => starts_with needle (c :: cs) || contains_chars needle cs

/-- `QString::contains(needle)`, case sensitive. -/
def qstring_contains (s needle : String) : Bool :=
  contains_chars needle.data s.data

/-- The constructor `Decoder::Decoder` (decoder.cpp, lines 38-42). -/
def Decoder.create (dec : srd_decoder) : Decoder :=
  { decoder := dec, shown := true, channels := [], options := [] }

/-- `Decoder::set_channels` (decoder.cpp, lines 73-77). -/
def Decoder.set_channels (d : Decoder) (channels : List (Nat × Nat)) : Decoder :=
  { d with channels := channels }

/-- The loop of `Decoder::have_required_channels` (decoder.cpp, lines 93-98). -/
def have_required_channels_from (channels : List (Nat × Nat)) : List srd_channel → Bool
  | [] => true
  | pdch :: rest =>
    if (map_find channels pdch.ptr).isNone then false
    else have_required_channels_from channels rest

/-- `Decoder::have_required_channels` (decoder.cpp, lines 91-101). -/
def Decoder.have_required_channels (d : Decoder) : Bool :=
  have_required_channels_from d.channels d.decoder.channels

/-- The test of `add_decoder` (sigsession.cpp, lines 254-258): the signal is a
logic signal and the lower-cased name of the decoder channel contains the
lower-cased name of the signal. -/
def probe_matches (pdch : srd_channel) (sig : Signal) : Bool :=
  sig.is_logic &&
    qstring_contains (qstring_toLower pdch.name) (qstring_toLower sig.get_name)

/-- The inner loop of `add_decoder` (sigsession.cpp, lines 252-260) for one
decoder channel; `index` is the position of the next signal in `_signals`. -/
def auto_select_probe (pdch : srd_channel) :
    List Signal → Nat → List (Nat × Nat) → List (Nat × Nat)
  | [], _, probes => probes
  | sig :: rest, index, probes =>
    auto_select_probe pdch rest (index + 1)
      (if probe_matches pdch sig then map_set probes pdch.ptr index else probes)

/-- The outer loop of `add_decoder` (sigsession.cpp, lines 251-260). -/
def auto_select_probes (signals : List Signal) :
    List srd_channel → List (Nat × Nat) → List (Nat × Nat)
  | [], probes => probes
  | pdch :: rest, probes =>
    auto_select_probes signals rest (auto_select_probe pdch signals 0 probes)

/-- `SigSession::add_decoder` (sigsession.cpp, lines 230-284).  `trace_ptr` is
the address of the new `DecodeTrace`; `throws` tells whether a constructor in
the `try` block throws `std::runtime_error`.  Modelled from the spec: the
constructor of `DecoderStack` (data/decoderstack.cpp is not among the sources)
builds a stack holding one `Decoder` for `dec`; the setter called at line 265 is
`Decoder::set_channels`. -/
def add_decoder (s : SigSession) (dec : srd_decoder) (trace_ptr : Nat) (throws : Bool) :
    SigSession × Bool :=
  if s.aborted then (s, false) else
  if throws then (s, false) else
  -- Make a list of all the probes
  let all_probes : List srd_channel := dec.channels ++ dec.opt_channels
  -- Auto select the initial probes
  let probes : List (Nat × Nat) := auto_select_probes s.signals all_probes []
  let decoder_stack : List Decoder := [(Decoder.create dec).set_channels probes]
  -- Create the decode signal
  let d : DecodeTrace :=
    { id := trace_ptr, index := s.decode_traces.length, decoder_stack := decoder_stack }
  let s1 : SigSession := { s with decode_traces := s.decode_traces ++ [d] }
  let s2 := s1.emit Event.signals_changed
  -- Do an initial decode
  (s2.emit (Event.begin_decode trace_ptr), true)

/-- A sequence of successful `add_decoder` calls, each given with the address
of the trace it creates. -/
def add_decoders (s : SigSession) : List (srd_decoder × Nat) → SigSession
  | [] => s
  | call :: rest => add_decoders (add_decoder s call.1 call.2 false).1 rest

/-- `SigSession::get_decode_signals` (sigsession.cpp, lines 286-290). -/
def get_decode_signals (s : SigSession) : List DecodeTrace :=
  s.decode_traces

/-- The list without the first trace whose address is `signal`, or `none` when
no trace has that address: the loop of `remove_decode_signal`. -/
def erase_trace (signal : Nat) : List DecodeTrace → Option (List DecodeTrace)
  | [] => none
  | t :: rest =>
    if t.id == signal then some rest
    else (erase_trace signal rest).map (fun l => t :: l)

/-- `SigSession::remove_decode_signal` (sigsession.cpp, lines 292-301). -/
def remove_decode_signal (s : SigSession) (signal : Nat) : SigSession :=
  if s.aborted then s else
  match erase_trace signal s.decode_traces with
  | some traces =>
    ({ s with decode_traces := traces } : SigSession).emit Event.signals_changed
  | none => s

/-- The Analog data object reached from a channel in `feed_in_analog`
(sigsession.cpp, lines 537-543): the data of the signal that
`signal_from_channel` returns, when that signal is an `AnalogSignal`. -/
def analog_data_of (signals : List Signal) (channel_id : Nat) : Option Analog :=
  match signals.find? (fun sig => sig.channel.id == channel_id) with
  | some (Signal.analog _ data) => some data
  | _ => none

/-- Every reference in the channel-to-analog-snapshot map names a snapshot of
the store, and two keys never share a snapshot.  The map starts empty and each
new snapshot is entered under a fresh reference, which keeps this relation. -/
def SigSession.analog_map_valid (s : SigSession) : Prop :=
  (∀ e ∈ s.cur_analog_snapshots, e.2 < s.analog_snapshots.length) ∧
  (∀ e1 ∈ s.cur_analog_snapshots, ∀ e2 ∈ s.cur_analog_snapshots, e1.2 = e2.2 → e1.1 = e2.1)

/-- Whether an effect is an invocation of an error callback. -/
def Event.is_error_handler : Event → Bool
  | .error_handler _ _ => true
  | _ => false

/-- The condition that `assert(data)` of `read_sample_rate` checks: no logic
signal holds a null data handle. -/
def SigSession.data_present (s : SigSession) : Bool :=
  !(s.signals.any Signal.is_logic && s.logic_data.isNone)

/-- The relation between capture state and worker that every reachable session
satisfies: in a live process the state differs from `Stopped` only while the
worker is inside `run()`. -/
def SigSession.consistent (s : SigSession) : Prop :=
  s.aborted = false → s.capture_state ≠ .Stopped →
    ∃ device pending, s.sampling_thread = some (Thread.in_run device pending)

/-! ## Example devices, acquisitions and sessions -/

/-- A device with one enabled logic channel. -/
def logic_device : Device :=
  { id := 1, channels := [{ id := 0, name := "D0", type := .LOGIC, enabled := true }],
    samplerate := 1000000, limit_samples := 1000 }

/-- A device with one enabled analog channel. -/
def analog_device : Device :=
  { id := 2, channels := [{ id := 0, name := "A0", type := .ANALOG, enabled := true }],
    samplerate := 1000000, limit_samples := 1000 }

/-- A device whose only channel is disabled. -/
def disabled_device : Device :=
  { id := 3, channels := [{ id := 0, name := "D0", type := .LOGIC, enabled := false }],
    samplerate := 1000000, limit_samples := 1000 }

/-- A fresh session on which `set_device` selected `logic_device`. -/
def logic_session : SigSession :=
  set_device SigSession.create (some logic_device)

/-- A fresh session on which `set_device` selected `analog_device`. -/
def analog_session : SigSession :=
  set_device SigSession.create (some analog_device)

/-- A fresh session on which `set_device` selected `disabled_device`. -/
def disabled_session : SigSession :=
  set_device SigSession.create (some disabled_device)

/-- An acquisition without trigger that delivers one logic packet of three
samples and then the end packet. -/
def logic_sweep : Acquisition :=
  { start_error := none, trigger := false,
    packets := [Packet.LOGIC { unit_size := 1, samples := [1, 0, 1] }, Packet.END] }

/-- An acquisition whose `start()` throws. -/
def failing_start : Acquisition :=
  { start_error := some "device busy", trigger := false, packets := [] }

/-- An acquisition that delivers one analog packet and ends without an end
packet. -/
def analog_no_end : Acquisition :=
  { start_error := none, trigger := false,
    packets := [Packet.ANALOG { channels := analog_device.channels, data := [5, 6, 7] }] }

/-- A capture on `logic_device` whose worker has reached `run()`. -/
def capturing_session : SigSession :=
  worker_step (start_capture logic_session 1 logic_sweep)

/-- The session `capturing_session` after the user disabled the only channel
while the capture is in progress. -/
def capturing_session_disabled : SigSession :=
  signal_enable capturing_session 0 false

/-- An acquisition with a trigger that delivers one analog packet and ends
without an end packet. -/
def analog_triggered : Acquisition :=
  { start_error := none, trigger := true,
    packets := [Packet.ANALOG { channels := analog_device.channels, data := [5, 6, 7] }] }

/-- A capture on `analog_device` with a trigger configured whose worker has
reached `run()`: the capture state is `AwaitingTrigger`. -/
def awaiting_analog_session : SigSession :=
  worker_step (start_capture analog_session 1 analog_triggered)

/-- The session after a capture on `analog_device` whose run ended without an
end packet and was joined by `stop_capture`. -/
def analog_unended_session : SigSession :=
  stop_capture (start_capture analog_session 1 analog_no_end)

/-- A device with the logic channels "SDA" and "A" and the analog channel "DA". -/
def bus_device : Device :=
  { id := 4,
    channels :=
      [{ id := 0, name := "SDA", type := .LOGIC, enabled := true },
        { id := 1, name := "A", type := .LOGIC, enabled := true },
        { id := 2, name := "DA", type := .ANALOG, enabled := true }],
    samplerate := 1000000, limit_samples := 1000 }

/-- A fresh session on which `set_device` selected `bus_device`. -/
def bus_session : SigSession :=
  set_device SigSession.create (some bus_device)

/-- The required clock channel of `i2c_decoder`. -/
def scl_channel : srd_channel :=
  { ptr := 100, id := "scl", name := "SCL" }

/-- The required data channel of `i2c_decoder`. -/
def sda_channel : srd_channel :=
  { ptr := 101, id := "sda", name := "SDA" }

/-- A decoder definition with the required channels "SCL" and "SDA" and no
optional channel. -/
def i2c_decoder : srd_decoder :=
  { id := "i2c", channels := [scl_channel, sda_channel], opt_channels := [] }

/-- The session `bus_session` after two decoders were attached. -/
def decoding_session : SigSession :=
  (add_decoder (add_decoder bus_session i2c_decoder 500 false).1 i2c_decoder 501 false).1

/-- A device with the two enabled analog channels "A0" and "A1". -/
def two_analog_device : Device :=
  { id := 5,
    channels :=
      [{ id := 0, name := "A0", type := .ANALOG, enabled := true },
        { id := 1, name := "A1", type := .ANALOG, enabled := true }],
    samplerate := 1000000, limit_samples := 1000 }

/-- A capture on `two_analog_device` in which one analog packet for the channel
"A0" alone has been dispatched: "A0" has an open snapshot, "A1" has none. -/
def half_open_session : SigSession :=
  data_feed_in
    (worker_step
      (start_capture (set_device SigSession.create (some two_analog_device)) 1
        { start_error := none, trigger := false, packets := [] }))
    two_analog_device
    (Packet.ANALOG
      { channels := [{ id := 0, name := "A0", type := .ANALOG, enabled := true }],
        data := [1, 2] })

/-- The session `bus_session` after two decoders were attached, the first
trace was removed and a third decoder was attached. -/
def reattached_session : SigSession :=
  (add_decoder (remove_decode_signal decoding_session 500) i2c_decoder 502 false).1

/-! ## The device manager (devicemanager.cpp) -/

/-- A `sigrok::HardwareDevice` as the device manager sees it: the identity of
the object, the identity of its driver and its description. -/
structure HardwareDevice where
  id : Nat
  driver : Nat
  description : String
  deriving DecidableEq, Repr

/-- The test `std::string::compare(...) < 0`: lexicographic order of the
characters, a proper prefix being smaller. -/
def string_compare_lt : List Char → List Char → Bool
  | [], [] => false
  | [], _ :: _ => true
  | _ :: _, [] => false
  | a :: l, b :: m =>
    if a.toNat < b.toNat then true
    else if b.toNat < a.toNat then false
    else string_compare_lt l m

/-- `DeviceManager::compare_devices` (devicemanager.cpp, lines 100-107). -/
def compare_devices (a b : HardwareDevice) : Bool :=
  string_compare_lt a.description.data b.description.data

/-- Insertion of one element into a sorted list behind every element that
does not compare greater, as a stable sort places it. -/
def list_sort_insert {α : Type} (comp : α → α → Bool) (a : α) : List α → List α
  | [] => [a]
  | b :: l => if comp a b then a :: b :: l else b :: list_sort_insert comp a l

/-- `std::list::sort(comp)`: a stable sort by the comparison `comp`.  The
elements are inserted from the back of the list, each in front of the
elements it does not compare greater than, so equal elements keep their
order. -/
def list_sort {α : Type} (comp : α → α → Bool) : List α → List α
  | [] => []
  | a :: l => list_sort_insert (fun x y => !comp y x) a (list_sort comp l)

/-- The erase loop of `driver_scan` (devicemanager.cpp, lines 79-85): every
device of `driver` is removed from the list. -/
def erase_driver_devices (driver : Nat) : List HardwareDevice → List HardwareDevice
  | [] => []
  | d :: l =>
    if d.driver = driver then erase_driver_devices driver l
    else d :: erase_driver_devices driver l

/-- The `DeviceManager` object: its device list. -/
structure DeviceManager where
  devices : List HardwareDevice
  deriving DecidableEq, Repr

/-- `DeviceManager::driver_scan` (devicemanager.cpp, lines 70-98).  `scanned`
is what `driver->scan(drvopts)` returns.  The result is the manager after the
call and the returned list. -/
def driver_scan (m : DeviceManager) (driver : Nat) (scanned : List HardwareDevice) :
    DeviceManager × List HardwareDevice :=
  let devices := erase_driver_devices driver m.devices
  let driver_devices := list_sort compare_devices scanned
  ({ devices := list_sort compare_devices (devices ++ driver_devices) }, driver_devices)

/-- A manager that lists two devices of driver 1 and one of driver 2. -/
def three_device_manager : DeviceManager :=
  { devices := [{ id := 1, driver := 1, description := "fx2 a" },
                { id := 2, driver := 2, description := "ols" },
                { id := 3, driver := 1, description := "saleae" }] }

/-- What a scan of driver 1 finds: one device already listed, one new. -/
def rescan_result : List HardwareDevice :=
  [{ id := 3, driver := 1, description := "saleae" },
   { id := 4, driver := 1, description := "demo" }]

/-! ## Decoder options (data/decode/decoder.cpp) -/

/-- A reference-count operation on a `GVariant`, which is named by its
address. -/
inductive RefEvent where
  | g_variant_ref (value : Nat)
  | g_variant_unref (value : Nat)
  deriving DecidableEq, Repr

/-- `_options[id] = value` on the option map: the entry of the id is
overwritten, or a new entry is added. -/
def options_set : List (String × Nat) → String → Nat → List (String × Nat)
  | [], id, value => [(id, value)]
  | e :: rest, id, value =>
    if e.1 = id then (id, value) :: rest else e :: options_set rest id value

/-- `Decoder::set_option` (decoder.cpp, lines 84-89).  Address 0 is the null
pointer, on which the assertion fails (`none`).  Otherwise the result is the
decoder and the reference operations performed. -/
def Decoder.set_option (d : Decoder) (id : String) (value : Nat) :
    Option (Decoder × List RefEvent) :=
  if value = 0 then none
  else some ({ d with options := options_set d.options id value },
    [RefEvent.g_variant_ref value])

/-- `Decoder::~Decoder` (decoder.cpp, lines 45-49): the reference operations
of the destructor. -/
def Decoder.destroy (d : Decoder) : List RefEvent :=
  d.options.map (fun e => RefEvent.g_variant_unref e.2)

/-- A decoder's life: the `set_option` calls in order, then its destruction.
The result is every reference operation performed, or `none` when an
assertion failed. -/
def decoder_lifetime (d : Decoder) : List (String × Nat) → Option (List RefEvent)
  | [] => some d.destroy
  | call :: rest =>
    match d.set_option call.1 call.2 with
    | none => none
    | some r => (decoder_lifetime r.1 rest).map (fun events => r.2 ++ events)

/-- Number of references taken on a value. -/
def refs_taken (value : Nat) (events : List RefEvent) : Nat :=
  events.count (RefEvent.g_variant_ref value)

/-- Number of references released on a value. -/
def refs_released (value : Nat) (events : List RefEvent) : Nat :=
  events.count (RefEvent.g_variant_unref value)

/-! ## The logic signal view (view/logicsignal.cpp) -/

/-- A `sr_probe` of the device: its index and its trigger string (`none` is
the null pointer). -/
structure sr_probe where
  index : Nat
  enabled : Bool
  trigger : Option String
  deriving DecidableEq, Repr

/-- The library call `sr_dev_trigger_set(sdi, probenum, trigger)`: the first
probe of the device whose index is `probenum` gets a copy of the trigger
string. -/
def sr_dev_trigger_set : List sr_probe → Nat → Option String → List sr_probe
  | [], _, _ => []
  | p :: rest, probenum, trigger =>
    if p.index = probenum then { p with trigger := trigger } :: rest
    else p :: sr_dev_trigger_set rest probenum trigger

/-- The loop of `LogicSignal::set_trigger` (logicsignal.cpp, lines 311-314)
over the probe numbers still to visit. -/
def set_trigger_loop (probe_index : Nat) (trigger_string : Option String) :
    List Nat → List sr_probe → List sr_probe
  | [], probes => probes
  | i :: rest, probes =>
    set_trigger_loop probe_index trigger_string rest
      (sr_dev_trigger_set probes i (if i = probe_index then trigger_string else none))

/-- `LogicSignal::set_trigger` (logicsignal.cpp, lines 299-317) on the probes
of the session's device, for the signal whose probe has index `probe_index`.
The character with code 0 stands for no trigger.  `none` is a failed
assertion. -/
def set_trigger (probes : List sr_probe) (probe_index : Nat) (type : Char) :
    Option (List sr_probe) :=
  let trigger_string : Option String :=
    if type.toNat ≠ 0 then some (String.singleton type) else none
  let probe_count := probes.length
  if ¬ (probe_count > 0) then none
  else if ¬ (probe_index < probe_count) then none
  else some (set_trigger_loop probe_index trigger_string (List.range probe_count) probes)

/-- A `QLineF` with coordinates of type `R`. -/
structure QLineF (R : Type) where
  x1 : R
  y1 : R
  x2 : R
  y2 : R
  deriving DecidableEq, Repr

/-- The loop of `LogicSignal::paint_caps` (logicsignal.cpp, lines 183-201):
the lines written to the buffer, in order.  `to_x` is the floating-point map
`(first / samples_per_pixel - pixels_offset) + x_offset` from a sample
position to a pixel column.  The iteration runs over every entry but the
last.  An empty edge list, for which `edges.end() - 1` is not defined, is
ruled out by the assertion of `paint_mid`; no line is written for it here. -/
def paint_caps {R : Type} (to_x : Int → R) (y_offset : R) (level : Bool) :
    List (Int × Bool) → List (QLineF R)
  | [] => []
  | [_] => []
  | a :: b :: rest =>
    if a.2 = level then
      { x1 := to_x a.1, y1 := y_offset, x2 := to_x b.1, y2 := y_offset } ::
        paint_caps to_x y_offset level (b :: rest)
    else paint_caps to_x y_offset level (b :: rest)

/-- The size `max_cap_line_count` of the buffer `paint_mid` allocates for the
cap lines (logicsignal.cpp, line 170). -/
def max_cap_line_count (edges : List (Int × Bool)) : Nat :=
  edges.length - 1

/-- The assertion of `paint_mid` on the edge list and its `edge_count`
(logicsignal.cpp, lines 146-149): `edges.size() - 2` in 64-bit unsigned
arithmetic, stored in a 32-bit unsigned variable.  `none` is the failed
assertion. -/
def paint_mid_edge_count (edges : List (Int × Bool)) : Option Nat :=
  if edges.length < 2 then none
  else some (((edges.length + 2 ^ 64 - 2) % 2 ^ 64) % 2 ^ 32)

/-- Modelled from the spec: the level of one channel in a sample of a logic
snapshot, bit `channel` of the sample word. -/
def LogicSnapshot.get_level (snap : LogicSnapshot) (index : Nat) (channel : Nat) : Bool :=
  (snap.samples.getD index 0).testBit channel

/-- Modelled from the spec: the transitions between `start` and `end` that
`get_subsampled_edges` reports.  A position is a transition when its level
differs from the level last reported; it is reported when it lies at least
`resolution` (and at least one sample) behind the position last reported, so
that of several transitions in one bucket only the first is picked. -/
def subsampled_transitions (snap : LogicSnapshot) (channel resolution : Nat) :
    List Nat → Nat → Bool → List (Int × Bool)
  | [], _, _ => []
  | i :: rest, last_pos, last_level =>
    if snap.get_level i channel ≠ last_level ∧ last_pos + max resolution 1 ≤ i then
      ((i : Int), snap.get_level i channel) ::
        subsampled_transitions snap channel resolution rest i (snap.get_level i channel)
    else subsampled_transitions snap channel resolution rest last_pos last_level

/-- Modelled from the spec: `LogicSnapshot::get_subsampled_edges(out, start,
end, resolution, channel)`, whose source (data/logicsnapshot.cpp) is not
among the files.  The sequence opens with the level at `start`, continues
with the picked transitions strictly between `start` and `end`, and closes
with the level at `end`. -/
def get_subsampled_edges (snap : LogicSnapshot) (start end_sample resolution channel : Nat) :
    List (Int × Bool) :=
  ((start : Int), snap.get_level start channel) ::
    (subsampled_transitions snap channel resolution
      (List.range' (start + 1) (end_sample - start - 1)) start
      (snap.get_level start channel) ++
    [((end_sample : Int), snap.get_level end_sample channel)])

/-- A logic snapshot of eight samples of two channels. -/
def edge_snapshot : LogicSnapshot :=
  { unit_size := 1, capacity := 8, samples := [0, 1, 1, 3, 2, 2, 0, 1] }

/-- Three probes of a device, the second with a trigger on the rising edge. -/
def three_probes : List sr_probe :=
  [{ index := 0, enabled := true, trigger := none },
   { index := 1, enabled := true, trigger := some "r" },
   { index := 2, enabled := false, trigger := none }]

/-! ## Lock order

The order in which the session's operations take and give back its three
mutexes.  Each trace function follows the branches of the operation it
belongs to.  A `lock_guard` gives its mutex back at the end of its scope; on a
run that fails an assertion the trace is closed as if the scope were left. -/

/-- The mutexes of the session: `_sampling_mutex`, `_signals_mutex` and
`_data_mutex`. -/
inductive Mutex where
  | sampling_mutex
  | signals_mutex
  | data_mutex
  deriving DecidableEq, Repr

/-- Taking or giving back a mutex. -/
inductive LockEvent where
  | lock (m : Mutex)
  | unlock (m : Mutex)
  deriving DecidableEq, Repr

/-- A `lock_guard<mutex>` on `m` around a scope. -/
def lock_guard (m : Mutex) (scope : List LockEvent) : List LockEvent :=
  [LockEvent.lock m] ++ scope ++ [LockEvent.unlock m]

/-- Locks of `get_capture_state` (sigsession.cpp, line 167). -/
def get_capture_state_locks : List LockEvent :=
  lock_guard .sampling_mutex []

/-- Locks of `set_capture_state` (sigsession.cpp, line 306). -/
def set_capture_state_locks (s : SigSession) : List LockEvent :=
  if s.aborted then [] else lock_guard .sampling_mutex []

/-- Locks of `get_data` (sigsession.cpp, line 213). -/
def get_data_locks : List LockEvent :=
  lock_guard .signals_mutex []

/-- Locks of `signal_from_channel` (sigsession.cpp, line 381). -/
def signal_from_channel_locks : List LockEvent :=
  lock_guard .signals_mutex []

/-- Locks of `read_sample_rate`, which calls `get_data` (sigsession.cpp, line
396). -/
def read_sample_rate_locks (s : SigSession) : List LockEvent :=
  if s.aborted then [] else get_data_locks

/-- Locks of `feed_in_logic` (sigsession.cpp, lines 464 and 475). -/
def feed_in_logic_locks (s : SigSession) (_logic : LogicPayload) : List LockEvent :=
  if s.aborted then [] else
  lock_guard .data_mutex
    (match s.logic_data with
      | none => []
      | some _ =>
        match s.cur_logic_snapshot with
        | none => set_capture_state_locks s
        | some _ => [])

/-- Locks of the channel loop of `feed_in_analog`: `signal_from_channel` is
called for each channel that has no snapshot yet (sigsession.cpp, line 539). -/
def feed_in_analog_channels_locks (data : List Int) (sample_count probe_count : Nat) :
    List Channel → Nat → SigSession × Bool → List LockEvent
  | [], _, _ => []
  | channel :: rest, offset, acc =>
    (if acc.1.aborted then [] else
      match acc.1.cur_analog_snapshots.find? (fun e => e.1 == channel.id) with
      | some _ => []
      | none =>
        match acc.1.device with
        | none => []
        | some _ => signal_from_channel_locks) ++
    feed_in_analog_channels_locks data sample_count probe_count rest (offset + 1)
      (feed_in_analog_channels data sample_count probe_count [channel] offset acc)

/-- Locks of `feed_in_analog` (sigsession.cpp, lines 503, 539 and 558). -/
def feed_in_analog_locks (s : SigSession) (analog : AnalogPayload) : List LockEvent :=
  if s.aborted then [] else
  let probe_count : Nat := analog.channels.length
  if probe_count = 0 then lock_guard .data_mutex [] else
  let sample_count : Nat := analog.data.length / probe_count
  let r : SigSession × Bool :=
    feed_in_analog_channels analog.data sample_count probe_count analog.channels 0 (s, false)
  lock_guard .data_mutex
    (feed_in_analog_channels_locks analog.data sample_count probe_count analog.channels 0
        (s, false) ++
      (if r.1.aborted then [] else if r.2 then set_capture_state_locks r.1 else []))

/-- Locks of `data_feed_in` (sigsession.cpp, lines 564-605); the end packet
takes the data mutex at line 595. -/
def data_feed_in_locks (s : SigSession) (_device : Device) (packet : Packet) :
    List LockEvent :=
  if s.aborted then [] else
  match packet with
  | .HEADER => read_sample_rate_locks s
  | .META _ => []
  | .FRAME_BEGIN => []
  | .LOGIC logic => feed_in_logic_locks s logic
  | .ANALOG analog => feed_in_analog_locks s analog
  | .END => lock_guard .data_mutex []
  | .other _ => []

/-- Locks of the packets that `run()` hands to the datafeed callback. -/
def sr_session_deliver_locks (s : SigSession) (device : Device) :
    List Packet → List LockEvent
  | [] => []
  | p :: ps =>
    data_feed_in_locks s device p ++
      sr_session_deliver_locks (data_feed_in s device p) device ps

/-- Locks of the worker body `sample_thread_proc` (sigsession.cpp, lines
403-430). -/
def sample_thread_proc_locks (s : SigSession) (device : Device) (error_handler : Nat)
    (acq : Acquisition) : List LockEvent :=
  let r := sample_thread_proc_begin s device error_handler acq
  read_sample_rate_locks s ++
    (if r.2 then
      set_capture_state_locks ((read_sample_rate s device).emit Event.sr_session_start) ++
      sr_session_deliver_locks (r.1.emit Event.sr_session_run) device acq.packets ++
      set_capture_state_locks
        (sr_session_deliver (r.1.emit Event.sr_session_run) device acq.packets)
    else [])

/-- Locks of `update_signals` (sigsession.cpp, lines 330 and 342): the two
scopes follow each other. -/
def update_signals_locks (s : SigSession) : List LockEvent :=
  if s.aborted then [] else
  if s.capture_state ≠ .Stopped then [] else
  lock_guard .data_mutex [] ++ lock_guard .signals_mutex []

/-- Locks of `stop_capture` on the calling thread (sigsession.cpp, line 203). -/
def stop_capture_locks (s : SigSession) : List LockEvent :=
  if s.aborted then [] else get_capture_state_locks

/-- Locks of `set_device` on the calling thread (sigsession.cpp, lines
109-131). -/
def set_device_locks (s : SigSession) (device : Option Device) : List LockEvent :=
  stop_capture_locks s ++
    (match device with
      | some _ => update_signals_locks (stop_capture s)
      | none => [])

/-- Whether the mutex `m` is held after a trace, given whether it was held
before. -/
def held_after (m : Mutex) : List LockEvent → Bool → Bool
  | [], held => held
  | .lock k :: rest, held => held_after m rest (held || decide (k = m))
  | .unlock k :: rest, held => held_after m rest (held && !decide (k = m))

/-- Whether somewhere in a trace the mutex `inner` is taken while the mutex
`outer` is held; `held` tells whether `outer` is held at the start. -/
def acquires_while_held (outer inner : Mutex) : List LockEvent → Bool → Bool
  | [], _ => false
  | .lock k :: rest, held =>
    (held && decide (k = inner)) ||
      acquires_while_held outer inner rest (held || decide (k = outer))
  | .unlock k :: rest, held =>
    acquires_while_held outer inner rest (held && !decide (k = outer))

/-- The first logic packet of `logic_sweep`. -/
def first_logic_packet : Packet :=
  Packet.LOGIC { unit_size := 1, samples := [1, 0, 1] }

/-! ## Device option bindings (prop/binding/deviceoptions.cpp) -/

/-- The identifier of a config key: the constants the constructor of
`DeviceOptions` tests, and `other` for every identifier that is none of
them. -/
inductive ConfigId where
  | SR_CONF_SAMPLERATE
  | SR_CONF_CAPTURE_RATIO
  | SR_CONF_PATTERN_MODE
  | SR_CONF_BUFFERSIZE
  | SR_CONF_TRIGGER_SOURCE
  | SR_CONF_TRIGGER_SLOPE
  | SR_CONF_FILTER
  | SR_CONF_COUPLING
  | SR_CONF_CLOCK_EDGE
  | SR_CONF_EXTERNAL_CLOCK
  | SR_CONF_RLE
  | SR_CONF_TIMEBASE
  | SR_CONF_VDIV
  | SR_CONF_VOLTAGE_THRESHOLD
  | other (id : Nat)
  deriving DecidableEq, Repr

/-- A `sigrok::ConfigKey`. -/
structure ConfigKey where
  id : ConfigId
  name : String
  description : String
  deriving DecidableEq, Repr

/-- A key of `config_keys(DEVICE_OPTIONS)` with what `config_list(key)` gives
for it: `none` when the call throws, otherwise the listed values, each named
by its address. -/
structure ListedKey where
  key : ConfigKey
  list : Option (List Nat)
  deriving DecidableEq, Repr

/-- The function that prints a value of an enumeration. -/
inductive Printer where
  | print_gvariant
  | print_timebase
  | print_vdiv
  | print_voltage_threshold
  deriving DecidableEq, Repr

/-- A bound property: `prop::Bool`, `prop::Enum` or `prop::Int`.  The key is
the one its getter and setter were made for. -/
inductive Property where
  | Bool (name : String) (key : ConfigKey)
  | Enum (name : String) (values : List (Nat × Printer)) (key : ConfigKey)
  | Int (name : String) (suffix : String) (range : Option (Int × Int)) (key : ConfigKey)
  deriving DecidableEq, Repr

/-- The key a property reads and writes. -/
def Property.key : Property → ConfigKey
  | .Bool _ key => key
  | .Enum _ _ key => key
  | .Int _ _ _ key => key

/-- The `DeviceOptions` binding: its properties, and the names of the keys
for which the debug message "was listed, but no options were given" was
printed. -/
structure DeviceOptions where
  properties : List Property
  debug : List String
  deriving DecidableEq, Repr

/-- `DeviceOptions::bind_bool` (deviceoptions.cpp, lines 117-123). -/
def DeviceOptions.bind_bool (o : DeviceOptions) (name : String) (key : ConfigKey) :
    DeviceOptions :=
  { o with properties := o.properties ++ [Property.Bool name key] }

/-- `DeviceOptions::bind_enum` (deviceoptions.cpp, lines 125-140). -/
def DeviceOptions.bind_enum (o : DeviceOptions) (name : String) (gvar_list : List Nat)
    (key : ConfigKey) (printer : Printer) : DeviceOptions :=
  { o with properties :=
      o.properties ++ [Property.Enum name (gvar_list.map (fun gvar => (gvar, printer))) key] }

/-- `DeviceOptions::bind_int` (deviceoptions.cpp, lines 142-150). -/
def DeviceOptions.bind_int (o : DeviceOptions) (name : String) (suffix : String)
    (range : Option (Int × Int)) (key : ConfigKey) : DeviceOptions :=
  { o with properties := o.properties ++ [Property.Int name suffix range key] }

/-- The body of the loop of the constructor (deviceoptions.cpp, lines
55-113) for one key. -/
def DeviceOptions.bind_key (o : DeviceOptions) (k : ListedKey) : DeviceOptions :=
  match k.list with
  | none => { o with debug := o.debug ++ [k.key.name] }
  | some gvar_list =>
    let name : String := k.key.description
    match k.key.id with
    | .SR_CONF_SAMPLERATE =>
      -- Sample rate values are not bound because they are shown
      -- in the SamplingBar
      o
    | ConfigId.SR_CONF_CAPTURE_RATIO => o.bind_int name "%" (some (0, 100)) k.key
    | .SR_CONF_PATTERN_MODE => o.bind_enum name gvar_list k.key .print_gvariant
    | .SR_CONF_BUFFERSIZE => o.bind_enum name gvar_list k.key .print_gvariant
    | .SR_CONF_TRIGGER_SOURCE => o.bind_enum name gvar_list k.key .print_gvariant
    | .SR_CONF_TRIGGER_SLOPE => o.bind_enum name gvar_list k.key .print_gvariant
    | .SR_CONF_FILTER => o.bind_enum name gvar_list k.key .print_gvariant
    | .SR_CONF_COUPLING => o.bind_enum name gvar_list k.key .print_gvariant
    | .SR_CONF_CLOCK_EDGE => o.bind_enum name gvar_list k.key .print_gvariant
    | .SR_CONF_EXTERNAL_CLOCK => o.bind_bool name k.key
    | .SR_CONF_RLE => o.bind_bool name k.key
    | .SR_CONF_TIMEBASE => o.bind_enum name gvar_list k.key .print_timebase
    | .SR_CONF_VDIV => o.bind_enum name gvar_list k.key .print_vdiv
    | .SR_CONF_VOLTAGE_THRESHOLD =>
      o.bind_enum name gvar_list k.key .print_voltage_threshold
    | .other _ => o

/-- The constructor `DeviceOptions::DeviceOptions` (deviceoptions.cpp, lines
49-115) for a configurable with the given keys. -/
def DeviceOptions.create (keys : List ListedKey) : DeviceOptions :=
  keys.foldl DeviceOptions.bind_key { properties := [], debug := [] }

/-- The recognised option identifiers as the specification lists them:
capture ratio, pattern mode, buffer size, trigger source, trigger slope,
filter, coupling, clock edge, external clock, RLE, timebase, vdiv and voltage
threshold. -/
def recognised_option (id : ConfigId) : Bool :=
  id ∈ [ ConfigId.SR_CONF_CAPTURE_RATIO, ConfigId.SR_CONF_PATTERN_MODE,
    ConfigId.SR_CONF_BUFFERSIZE, ConfigId.SR_CONF_TRIGGER_SOURCE,
    ConfigId.SR_CONF_TRIGGER_SLOPE, ConfigId.SR_CONF_FILTER, ConfigId.SR_CONF_COUPLING,
    ConfigId.SR_CONF_CLOCK_EDGE, ConfigId.SR_CONF_EXTERNAL_CLOCK, ConfigId.SR_CONF_RLE,
    ConfigId.SR_CONF_TIMEBASE, ConfigId.SR_CONF_VDIV, ConfigId.SR_CONF_VOLTAGE_THRESHOLD]

/-- Whether a key binds a property according to the specification: its
identifier is recognised and its listing succeeds. -/
def binds_property (k : ListedKey) : Bool :=
  recognised_option k.key.id && k.list.isSome

/-- The keys of a device with a sample rate, a capture ratio whose listing
fails, a trigger slope, an unknown key and a second capture ratio. -/
def example_keys : List ListedKey :=
  [{ key := { id := .SR_CONF_SAMPLERATE, name := "samplerate", description := "Sample rate" },
     list := some [1, 2] },
   { key := { id := ConfigId.SR_CONF_CAPTURE_RATIO, name := "captureratio",
              description := "Pre-trigger capture ratio" },
     list := none },
   { key := { id := .SR_CONF_TRIGGER_SLOPE, name := "triggerslope",
              description := "Trigger slope" },
     list := some [3, 4] },
   { key := { id := .other 99, name := "x", description := "X" }, list := some [] },
   { key := { id := ConfigId.SR_CONF_CAPTURE_RATIO, name := "captureratio",
              description := "Pre-trigger capture ratio" },
     list := some [] }]


/-! ## Program points of the data packet handlers

The state of the session behind each statement of `feed_in_logic` and
`feed_in_analog`, in program order.  The last state of each sequence is the
result of the handler. -/

/-- The states behind the successive statements of `feed_in_logic`
(sigsession.cpp, lines 462-499).  For a packet that opens a sweep: after
`set_capture_state(Running)` (line 475), after the snapshot was created and
pushed (lines 482-484), after `frame_began()` (line 490) and after
`data_received()` (line 498).  For a later packet of the sweep: after
`append_payload` (line 495) and after `data_received()`. -/
def feed_in_logic_states (s : SigSession) (logic : LogicPayload) : List SigSession :=
  if s.aborted then [] else
  match s.logic_data with
  | none => [s.emit (Event.qDebug "Unexpected logic packet")]
  | some logic_data =>
    match s.cur_logic_snapshot with
    | none =>
      let s1 := set_capture_state s .Running
      match s1.device with
      | none => [s1, s1.abort "_device"]
      | some device =>
        let sample_limit : Nat := device.limit_samples
        let ref : Nat := s1.logic_snapshots.length
        let s2 : SigSession :=
          { s1 with
            logic_snapshots := s1.logic_snapshots ++ [LogicSnapshot.create logic sample_limit]
            cur_logic_snapshot := some ref
            logic_data := some (logic_data.push_snapshot ref) }
        [s1, s2, s2.emit Event.frame_began,
          (s2.emit Event.frame_began).emit Event.data_received]
    | some ref =>
      let s1 : SigSession :=
        { s with
          logic_snapshots :=
            store_update (fun snap => snap.append_payload logic) s.logic_snapshots ref }
      [s1, s1.emit Event.data_received]

/-- The states behind the successive iterations of the channel loop of
`feed_in_analog` (sigsession.cpp, lines 511-554): one state per channel, taken
at the end of its iteration. -/
def feed_in_analog_channels_states (data : List Int) (sample_count probe_count : Nat) :
    List Channel → Nat → SigSession × Bool → List SigSession
  | [], _, _ => []
  | channel :: rest, offset, acc =>
    (feed_in_analog_channels data sample_count probe_count [channel] offset acc).1 ::
      feed_in_analog_channels_states data sample_count probe_count rest (offset + 1)
        (feed_in_analog_channels data sample_count probe_count [channel] offset acc)

/-- The states behind the successive statements of `feed_in_analog`
(sigsession.cpp, lines 501-562): after each iteration of the channel loop,
after `set_capture_state(Running)` (line 558) when the packet opened a
snapshot, and after `data_received()` (line 561). -/
def feed_in_analog_states (s : SigSession) (analog : AnalogPayload) : List SigSession :=
  if s.aborted then [] else
  let probe_count : Nat := analog.channels.length
  if probe_count = 0 then [s.abort "probe_count"] else
  let sample_count : Nat := analog.data.length / probe_count
  let r : SigSession × Bool :=
    feed_in_analog_channels analog.data sample_count probe_count analog.channels 0 (s, false)
  feed_in_analog_channels_states analog.data sample_count probe_count analog.channels 0
      (s, false) ++
    (if r.1.aborted then [] else
      if r.2 then
        [set_capture_state r.1 .Running,
          (set_capture_state r.1 .Running).emit Event.data_received]
      else [r.1.emit Event.data_received])

/-- The first analog packet of `analog_triggered`. -/
def first_analog_payload : AnalogPayload :=
  { channels := analog_device.channels, data := [5, 6, 7] }

/-- Two probes of a device whose indices are 0 and 5; the second has a
trigger on the rising edge. -/
def sparse_probes : List sr_probe :=
  [{ index := 0, enabled := true, trigger := none },
   { index := 5, enabled := true, trigger := some "r" }]

/-- Two probes of a device that both have index 0; the second has a trigger
on the rising edge. -/
def twin_probes : List sr_probe :=
  [{ index := 0, enabled := true, trigger := none },
   { index := 0, enabled := true, trigger := some "r" }]

/-! ## Frame lemmas -/

theorem set_capture_state_capture_state (s : SigSession) (st : capture_state)
    (h : s.aborted = false) : (set_capture_state s st).capture_state = st := by
  by_cases hc : s.capture_state = st <;> simp [set_capture_state, h, hc, SigSession.emit]

theorem set_capture_state_aborted (s : SigSession) (st : capture_state) :
    (set_capture_state s st).aborted = s.aborted := by
  by_cases hc : s.capture_state = st <;> by_cases ha : s.aborted = true <;>
    simp [set_capture_state, hc, ha, SigSession.emit]

theorem store_update_length {α : Type} (f : α → α) (l : List α) (n : Nat) :
    (store_update f l n).length = l.length := by
  induction l generalizing n with
  | nil => rfl
  | cons x xs ih =>
    cases n with
    | zero => rfl
    | succ n => simp [store_update, ih]

theorem store_update_get {α : Type} (f : α → α) (l : List α) (n : Nat) (x : α)
    (h : l[n]? = some x) : (store_update f l n)[n]? = some (f x) := by
  induction l generalizing n with
  | nil => simp at h
  | cons y ys ih =>
    cases n with
    | zero => simp at h; simp [store_update, h]
    | succ n => simp at h; simp [store_update]; exact ih n h

theorem store_update_get_ne {α : Type} (f : α → α) (l : List α) (n m : Nat)
    (h : m ≠ n) : (store_update f l n)[m]? = l[m]? := by
  induction l generalizing n m with
  | nil => rfl
  | cons y ys ih =>
    cases n with
    | zero =>
      cases m with
      | zero => exact absurd rfl h
      | succ m => simp [store_update]
    | succ n =>
      cases m with
      | zero => simp [store_update]
      | succ m => simp [store_update]; exact ih n m (by omega)

theorem set_capture_state_device (s : SigSession) (st : capture_state) :
    (set_capture_state s st).device = s.device := by
  by_cases hc : s.capture_state = st <;> by_cases ha : s.aborted = true <;>
    simp [set_capture_state, hc, ha, SigSession.emit]

theorem set_capture_state_cur_logic (s : SigSession) (st : capture_state) :
    (set_capture_state s st).cur_logic_snapshot = s.cur_logic_snapshot := by
  by_cases hc : s.capture_state = st <;> by_cases ha : s.aborted = true <;>
    simp [set_capture_state, hc, ha, SigSession.emit]

theorem read_sample_rate_device (s : SigSession) (d : Device) :
    (read_sample_rate s d).device = s.device := by
  unfold read_sample_rate
  split
  · rfl
  · split <;> simp [SigSession.abort]

theorem read_sample_rate_capture_state (s : SigSession) (d : Device) :
    (read_sample_rate s d).capture_state = s.capture_state := by
  unfold read_sample_rate
  split
  · rfl
  · split <;> simp [SigSession.abort]

theorem read_sample_rate_log (s : SigSession) (d : Device)
    (h : (read_sample_rate s d).aborted = false) : (read_sample_rate s d).log = s.log := by
  unfold read_sample_rate at h ⊢
  split
  · rfl
  · split
    · rename_i h1 h2; simp [h1, h2, SigSession.abort] at h
    · rfl

theorem feed_in_logic_device (s : SigSession) (l : LogicPayload) :
    (feed_in_logic s l).device = s.device := by
  unfold feed_in_logic
  split
  · rfl
  · split
    · simp [SigSession.emit]
    · split
      · dsimp only
        split
        · simp [SigSession.abort, set_capture_state_device]
        · simp [SigSession.emit, set_capture_state_device]
      · simp [SigSession.emit]

theorem feed_in_analog_channels_device (data : List Int) (sc pc : Nat) (chs : List Channel)
    (off : Nat) (acc : SigSession × Bool) :
    (feed_in_analog_channels data sc pc chs off acc).1.device = acc.1.device := by
  induction chs generalizing off acc with
  | nil => rfl
  | cons c rest ih =>
    obtain ⟨s, sb⟩ := acc
    unfold feed_in_analog_channels
    split
    · rfl
    · split
      · rw [ih]
      · split
        · simp [SigSession.abort]
        · dsimp only
          split
          · rw [ih]
          · simp [SigSession.abort]

theorem feed_in_analog_device (s : SigSession) (a : AnalogPayload) :
    (feed_in_analog s a).device = s.device := by
  unfold feed_in_analog
  split
  · rfl
  · dsimp only
    split
    · simp [SigSession.abort]
    · split
      · simp [feed_in_analog_channels_device]
      · split <;> simp [SigSession.emit, set_capture_state_device, feed_in_analog_channels_device]

theorem data_feed_in_device (s : SigSession) (d : Device) (p : Packet) :
    (data_feed_in s d p).device = s.device := by
  unfold data_feed_in
  split
  · rfl
  · split
    · exact read_sample_rate_device s d
    · unfold feed_in_meta; split <;> simp [SigSession.emit]
    · unfold feed_in_frame_begin; split
      · rfl
      · split <;> simp [SigSession.emit]
    · exact feed_in_logic_device s _
    · exact feed_in_analog_device s _
    · simp [SigSession.emit]
    · rfl

theorem sr_session_deliver_device (s : SigSession) (d : Device) (ps : List Packet) :
    (sr_session_deliver s d ps).device = s.device := by
  induction ps generalizing s with
  | nil => rfl
  | cons p ps ih => simp [sr_session_deliver, ih, data_feed_in_device]

theorem sample_thread_proc_end_device (s : SigSession) :
    (sample_thread_proc_end s).device = s.device := by
  unfold sample_thread_proc_end
  split
  · rfl
  · dsimp only
    split <;> simp [SigSession.abort, SigSession.emit, set_capture_state_device]

theorem sample_thread_proc_begin_device (s : SigSession) (d : Device) (h : Nat)
    (acq : Acquisition) : (sample_thread_proc_begin s d h acq).1.device = s.device := by
  unfold sample_thread_proc_begin
  dsimp only
  split
  · exact read_sample_rate_device s d
  · split <;> simp [SigSession.emit, set_capture_state_device, read_sample_rate_device]

theorem thread_finish_device (s : SigSession) (t : Thread) :
    (t.finish s).device = s.device := by
  cases t with
  | spawned d h acq =>
    simp only [Thread.finish, sample_thread_proc]
    split
    · rw [sample_thread_proc_end_device, sr_session_deliver_device]
      simp [SigSession.emit, sample_thread_proc_begin_device]
    · exact sample_thread_proc_begin_device s d h acq
  | in_run d pending =>
    simp [Thread.finish, sample_thread_proc_end_device, sr_session_deliver_device]
  | returned => rfl

theorem stop_request_device (s : SigSession) : (stop_request s).device = s.device := by
  unfold stop_request; split <;> simp [SigSession.emit]

theorem stop_request_thread (s : SigSession) :
    (stop_request s).sampling_thread = s.sampling_thread := by
  unfold stop_request; split <;> simp [SigSession.emit]

theorem stop_request_capture_state (s : SigSession) :
    (stop_request s).capture_state = s.capture_state := by
  unfold stop_request; split <;> simp [SigSession.emit]

theorem stop_request_aborted (s : SigSession) : (stop_request s).aborted = s.aborted := by
  unfold stop_request; split <;> simp [SigSession.emit]

theorem thread_join_device (s : SigSession) : (thread_join s).device = s.device := by
  unfold thread_join
  split
  · rfl
  · dsimp only
    split
    · exact thread_finish_device _ _
    · simp [thread_finish_device]

theorem stop_capture_device (s : SigSession) : (stop_capture s).device = s.device := by
  unfold stop_capture
  split
  · rfl
  · rw [thread_join_device, stop_request_device]

theorem thread_join_thread (s : SigSession) (h : (thread_join s).aborted = false) :
    (thread_join s).sampling_thread = none := by
  unfold thread_join at h ⊢
  split
  · assumption
  · rename_i t ht
    simp only [ht] at h
    dsimp only at h ⊢
    split
    · rename_i hab; simp [hab] at h
    · rfl

theorem stop_capture_thread (s : SigSession) (h : (stop_capture s).aborted = false) :
    (stop_capture s).sampling_thread = none := by
  unfold stop_capture at h ⊢
  split
  · rename_i ha; simp [ha] at h
  · rename_i ha; simp only [ha] at h
    exact thread_join_thread _ h

theorem read_sample_rate_cur_logic (s : SigSession) (d : Device) :
    (read_sample_rate s d).cur_logic_snapshot = s.cur_logic_snapshot := by
  unfold read_sample_rate
  split
  · rfl
  · split <;> simp [SigSession.abort]

theorem sample_thread_proc_end_stopped (s : SigSession)
    (h : (sample_thread_proc_end s).aborted = false) :
    (sample_thread_proc_end s).capture_state = .Stopped := by
  by_cases ha : s.aborted = true
  · have e : sample_thread_proc_end s = s := by simp [sample_thread_proc_end, ha]
    rw [e] at h; simp [ha] at h
  · have ha1 : s.aborted = false := by simpa using ha
    by_cases hc : (set_capture_state s .Stopped).cur_logic_snapshot.isSome = true
    · have e : (sample_thread_proc_end s).aborted = true := by
        simp [sample_thread_proc_end, ha1, hc, SigSession.abort]
      rw [e] at h; cases h
    · have e : sample_thread_proc_end s = set_capture_state s .Stopped := by
        simp [sample_thread_proc_end, ha1, hc]
      rw [e]; exact set_capture_state_capture_state s _ ha1

theorem sample_thread_proc_begin_not_entered (s : SigSession) (d : Device) (h : Nat)
    (acq : Acquisition) (hr : (sample_thread_proc_begin s d h acq).2 = false) :
    (sample_thread_proc_begin s d h acq).1.capture_state = s.capture_state := by
  unfold sample_thread_proc_begin at hr ⊢
  dsimp only at hr ⊢
  split
  · exact read_sample_rate_capture_state s d
  · rename_i ha
    simp only [ha] at hr
    split
    · simp [SigSession.emit, read_sample_rate_capture_state]
    · rename_i he; simp [he] at hr

theorem thread_finish_stopped (s : SigSession) (t : Thread)
    (h : (t.finish s).aborted = false)
    (hc : s.capture_state ≠ .Stopped → ∃ d p, t = Thread.in_run d p) :
    (t.finish s).capture_state = .Stopped := by
  cases t with
  | spawned d eh acq =>
    have hs : s.capture_state = .Stopped := by
      by_contra hne
      obtain ⟨d1, p1, h1⟩ := hc hne
      cases h1
    simp only [Thread.finish, sample_thread_proc] at h ⊢
    split
    · rename_i hr; simp only [hr] at h
      exact sample_thread_proc_end_stopped _ h
    · rename_i hr
      simp only [Bool.not_eq_true] at hr
      rw [sample_thread_proc_begin_not_entered s d eh acq hr, hs]
  | in_run d pending =>
    exact sample_thread_proc_end_stopped _ h
  | returned =>
    by_contra hne
    obtain ⟨d1, p1, h1⟩ := hc hne
    cases h1

theorem stop_capture_of_aborted (s : SigSession) (h : s.aborted = true) :
    stop_capture s = s := by
  simp [stop_capture, h]

theorem stop_capture_live (s : SigSession) (h : s.aborted = false) :
    stop_capture s = thread_join (stop_request s) := by
  simp [stop_capture, h]

theorem thread_join_stopped (s : SigSession) (hc : s.consistent) (ha : s.aborted = false)
    (h : (thread_join s).aborted = false) : (thread_join s).capture_state = .Stopped := by
  unfold thread_join at h ⊢
  cases ht : s.sampling_thread with
  | none =>
    simp only [ht]
    by_contra hne
    obtain ⟨d1, p1, h1⟩ := hc ha hne
    rw [ht] at h1
    cases h1
  | some t =>
    simp only [ht] at h ⊢
    by_cases hf : (t.finish s).aborted = true
    · simp [hf] at h
    · simp only [hf]
      simp only [Bool.not_eq_true] at hf
      apply thread_finish_stopped _ _ hf
      intro hne
      obtain ⟨d1, p1, h1⟩ := hc ha hne
      rw [ht] at h1
      exact ⟨d1, p1, by injection h1⟩

theorem stop_request_consistent (s : SigSession) (hc : s.consistent) :
    (stop_request s).consistent := by
  intro ha hne
  rw [stop_request_aborted] at ha
  rw [stop_request_capture_state] at hne
  rw [stop_request_thread]
  exact hc ha hne

theorem stop_capture_stopped (s : SigSession) (hc : s.consistent)
    (h : (stop_capture s).aborted = false) : (stop_capture s).capture_state = .Stopped := by
  by_cases ha : s.aborted = true
  · rw [stop_capture_of_aborted s ha] at h; simp [ha] at h
  · simp only [Bool.not_eq_true] at ha
    rw [stop_capture_live s ha] at h ⊢
    exact thread_join_stopped _ (stop_request_consistent s hc)
      (by rw [stop_request_aborted]; exact ha) h

theorem stop_capture_quiescent (s : SigSession) (hs : s.capture_state = .Stopped)
    (ht : s.sampling_thread = none) : stop_capture s = s := by
  unfold stop_capture stop_request thread_join get_capture_state
  split
  · rfl
  · simp [hs, ht]

theorem sample_thread_proc_end_capture_state (s : SigSession) (h : s.aborted = false) :
    (sample_thread_proc_end s).capture_state = .Stopped := by
  have hs := set_capture_state_capture_state s .Stopped h
  by_cases hc : (set_capture_state s .Stopped).cur_logic_snapshot.isSome = true
  · simp [sample_thread_proc_end, h, hc, SigSession.abort, SigSession.emit, hs]
  · simp [sample_thread_proc_end, h, hc, hs]

theorem sample_thread_proc_end_aborted_iff (s : SigSession) (h : s.aborted = false) :
    (sample_thread_proc_end s).aborted = true ↔ s.cur_logic_snapshot.isSome = true := by
  by_cases hc : s.cur_logic_snapshot.isSome = true
  · simp [sample_thread_proc_end, h, hc, SigSession.abort, set_capture_state_cur_logic]
  · simp [sample_thread_proc_end, h, hc, set_capture_state_cur_logic,
      set_capture_state_aborted]

theorem start_capture_no_device (s : SigSession) (eh : Nat) (acq : Acquisition)
    (ha : s.aborted = false) (hb : (stop_capture s).aborted = false)
    (hd : s.device = none) :
    start_capture s eh acq = (stop_capture s).emit (Event.qDebug "No device selected") := by
  have hd1 : (stop_capture s).device = none := by rw [stop_capture_device, hd]
  simp [start_capture, ha, hb, hd1]

theorem read_sample_rate_aborted (s : SigSession) (d : Device) (h : s.aborted = false)
    (hp : s.data_present = true) : (read_sample_rate s d).aborted = false := by
  unfold SigSession.data_present at hp
  simp only [Bool.not_eq_true'] at hp
  simp [read_sample_rate, h, hp]

theorem data_feed_in_end_eq (s : SigSession) (device : Device) (h : s.aborted = false) :
    data_feed_in s device Packet.END =
      ({ s with cur_logic_snapshot := none, cur_analog_snapshots := [] } : SigSession).emit
        Event.frame_ended := by
  simp [data_feed_in, h]

theorem feed_in_logic_first (s : SigSession) (logic : LogicPayload) (ld : Logic)
    (d : Device) (ha : s.aborted = false) (hl : s.logic_data = some ld)
    (hd : s.device = some d) (hc : s.cur_logic_snapshot = none) :
    feed_in_logic s logic =
      (({ set_capture_state s .Running with
          logic_snapshots :=
            (set_capture_state s .Running).logic_snapshots ++
              [LogicSnapshot.create logic d.limit_samples]
          cur_logic_snapshot := some (set_capture_state s .Running).logic_snapshots.length
          logic_data :=
            some (ld.push_snapshot (set_capture_state s .Running).logic_snapshots.length)
          } : SigSession).emit Event.frame_began).emit Event.data_received := by
  have hd1 : (set_capture_state s .Running).device = some d := by
    rw [set_capture_state_device, hd]
  unfold feed_in_logic
  simp only [ha, hl, hc]
  simp [hd1]

theorem feed_in_logic_open (s : SigSession) (logic : LogicPayload) (ld : Logic)
    (ref : Nat) (ha : s.aborted = false) (hl : s.logic_data = some ld)
    (hc : s.cur_logic_snapshot = some ref) :
    feed_in_logic s logic =
      ({ s with
        logic_snapshots :=
          store_update (fun snap => snap.append_payload logic) s.logic_snapshots ref }
        : SigSession).emit Event.data_received := by
  unfold feed_in_logic
  simp [ha, hl, hc]

theorem set_capture_state_logic_snapshots (s : SigSession) (st : capture_state) :
    (set_capture_state s st).logic_snapshots = s.logic_snapshots := by
  by_cases hc : s.capture_state = st <;> by_cases ha : s.aborted = true <;>
    simp [set_capture_state, hc, ha, SigSession.emit]

theorem set_capture_state_count (s : SigSession) (st : capture_state) (e : Event)
    (he : ∀ st1, e ≠ Event.capture_state_changed st1) :
    (set_capture_state s st).log.count e = s.log.count e := by
  by_cases hc : s.capture_state = st <;> by_cases ha : s.aborted = true <;>
    simp [set_capture_state, hc, ha, SigSession.emit]
  rw [List.count_eq_zero]
  intro h
  simp only [List.mem_singleton] at h
  exact he st h

/-! ## The consistency relation holds in every reachable session -/

theorem consistent_of_stopped (s : SigSession)
    (h : s.aborted = false → s.capture_state = .Stopped) : s.consistent := by
  intro ha hne
  exact absurd (h ha) hne

theorem create_consistent : SigSession.create.consistent :=
  consistent_of_stopped _ (fun _ => rfl)

theorem stop_capture_consistent (s : SigSession) (hc : s.consistent) :
    (stop_capture s).consistent :=
  consistent_of_stopped _ (stop_capture_stopped s hc)

theorem start_capture_consistent (s : SigSession) (eh : Nat) (acq : Acquisition)
    (hc : s.consistent) : (start_capture s eh acq).consistent := by
  by_cases ha : s.aborted = true
  · have e : start_capture s eh acq = s := by simp [start_capture, ha]
    rw [e]; exact hc
  · by_cases hb : (stop_capture s).aborted = true
    · have e : start_capture s eh acq = stop_capture s := by simp [start_capture, ha, hb]
      rw [e]; exact stop_capture_consistent s hc
    · simp only [Bool.not_eq_true] at ha hb
      have hs := stop_capture_stopped s hc hb
      apply consistent_of_stopped
      intro _
      unfold start_capture
      simp only [ha, hb]
      cases hd : (stop_capture s).device with
      | none => simpa [SigSession.emit] using hs
      | some d =>
        by_cases hen : d.channels.any (fun c => c.enabled) = true
        · simpa [hen] using hs
        · simpa [hen, SigSession.emit] using hs

theorem worker_step_consistent (s : SigSession) (hc : s.consistent) :
    (worker_step s).consistent := by
  by_cases ha : s.aborted = true
  · have e : worker_step s = s := by simp [worker_step, ha]
    rw [e]; exact hc
  · simp only [Bool.not_eq_true] at ha
    cases ht : s.sampling_thread with
    | none =>
      have e : worker_step s = s := by simp [worker_step, ha, ht]
      rw [e]; exact hc
    | some t =>
      cases t with
      | returned =>
        have e : worker_step s = s := by simp [worker_step, ha, ht]
        rw [e]; exact hc
      | spawned d eh acq =>
        have hs : s.capture_state = .Stopped := by
          by_contra hne
          obtain ⟨d1, p1, h1⟩ := hc ha hne
          rw [ht] at h1
          cases h1
        intro hab hne
        by_cases h1 : (sample_thread_proc_begin s d eh acq).1.aborted = true
        · have e : worker_step s = (sample_thread_proc_begin s d eh acq).1 := by
            simp [worker_step, ha, ht, h1]
          rw [e, h1] at hab; cases hab
        · by_cases h2 : (sample_thread_proc_begin s d eh acq).2 = true
          · exact ⟨d, acq.packets, by simp [worker_step, ha, ht, h1, h2]⟩
          · have e : (worker_step s).capture_state =
                (sample_thread_proc_begin s d eh acq).1.capture_state := by
              simp [worker_step, ha, ht, h1, h2]
            simp only [Bool.not_eq_true] at h2
            rw [e, sample_thread_proc_begin_not_entered s d eh acq h2] at hne
            exact absurd hs hne
      | in_run d pending =>
        cases pending with
        | nil =>
          intro hab hne
          by_cases h1 : (sample_thread_proc_end s).aborted = true
          · have e : worker_step s = sample_thread_proc_end s := by
              simp [worker_step, ha, ht, h1]
            rw [e, h1] at hab; cases hab
          · have e : (worker_step s).capture_state = (sample_thread_proc_end s).capture_state := by
              simp [worker_step, ha, ht, h1]
            rw [e, sample_thread_proc_end_capture_state s ha] at hne
            exact absurd rfl hne
        | cons p ps =>
          intro hab _
          by_cases h1 : (data_feed_in s d p).aborted = true
          · have e : worker_step s = data_feed_in s d p := by
              simp [worker_step, ha, ht, h1]
            rw [e, h1] at hab; cases hab
          · exact ⟨d, ps, by simp [worker_step, ha, ht, h1]⟩

theorem update_signals_stopped (s : SigSession) (d : Device)
    (h : (update_signals s d).aborted = false) :
    (update_signals s d).capture_state = .Stopped := by
  by_cases ha : s.aborted = true
  · have e : update_signals s d = s := by simp [update_signals, ha]
    rw [e, ha] at h; cases h
  · by_cases hs : s.capture_state = .Stopped
    · simp [update_signals, ha, hs, SigSession.emit]
    · have e : (update_signals s d).aborted = true := by
        simp [update_signals, ha, hs, SigSession.abort]
      rw [e] at h; cases h

theorem set_device_consistent (s : SigSession) (device : Option Device)
    (hc : s.consistent) : (set_device s device).consistent := by
  by_cases ha : s.aborted = true
  · have e : set_device s device = s := by simp [set_device, ha]
    rw [e]; exact hc
  · by_cases hb : (stop_capture s).aborted = true
    · have e : set_device s device = stop_capture s := by simp [set_device, ha, hb]
      rw [e]; exact stop_capture_consistent s hc
    · simp only [Bool.not_eq_true] at hb
      have hs := stop_capture_stopped s hc hb
      apply consistent_of_stopped
      cases device with
      | none =>
        intro _
        cases hd : (stop_capture s).device <;>
          simp [set_device, ha, hb, hd, hs, SigSession.emit]
      | some d =>
        intro hab
        have e : set_device s (some d) = update_signals
            (({ (match (stop_capture s).device with
                | some old =>
                  (((stop_capture s).emit (Event.device_close old.id)).emit
                    Event.sr_session_remove_devices).emit
                      Event.sr_session_remove_datafeed_callbacks
                | none => stop_capture s) with
                device := some d, decode_traces := [] } : SigSession).emit
              (Event.sr_session_add_device d.id) |>.emit
                Event.sr_session_add_datafeed_callback) d := by
          simp [set_device, ha, hb]
        rw [e] at hab ⊢
        exact update_signals_stopped _ _ hab

theorem signal_enable_consistent (s : SigSession) (channel_id : Nat) (enable : Bool)
    (hc : s.consistent) : (signal_enable s channel_id enable).consistent := by
  by_cases ha : s.aborted = true
  · have e : signal_enable s channel_id enable = s := by simp [signal_enable, ha]
    rw [e]; exact hc
  · simp only [Bool.not_eq_true] at ha
    intro _ hne
    have h1 : (signal_enable s channel_id enable).capture_state = s.capture_state := by
      simp [signal_enable, ha]
    have h2 : (signal_enable s channel_id enable).sampling_thread = s.sampling_thread := by
      simp [signal_enable, ha]
    rw [h1] at hne
    rw [h2]
    exact hc ha hne

/-! ## Frame lemmas for the packet handlers -/

theorem set_capture_state_frame (s : SigSession) (st : capture_state) :
    (set_capture_state s st).aborted = s.aborted ∧
    (set_capture_state s st).device = s.device ∧
    (set_capture_state s st).decode_traces = s.decode_traces ∧
    (set_capture_state s st).signals = s.signals ∧
    (set_capture_state s st).logic_data = s.logic_data ∧
    (set_capture_state s st).cur_logic_snapshot = s.cur_logic_snapshot ∧
    (set_capture_state s st).cur_analog_snapshots = s.cur_analog_snapshots ∧
    (set_capture_state s st).sampling_thread = s.sampling_thread ∧
    (set_capture_state s st).logic_snapshots = s.logic_snapshots ∧
    (set_capture_state s st).analog_snapshots = s.analog_snapshots := by
  by_cases hc : s.capture_state = st <;> by_cases ha : s.aborted = true <;>
    simp [set_capture_state, hc, ha, SigSession.emit]

theorem feed_in_analog_channels_frame (data : List Int) (sc pc : Nat) (chs : List Channel)
    (off : Nat) (acc : SigSession × Bool) :
    (feed_in_analog_channels data sc pc chs off acc).1.capture_state = acc.1.capture_state ∧
    (feed_in_analog_channels data sc pc chs off acc).1.logic_snapshots =
      acc.1.logic_snapshots ∧
    (feed_in_analog_channels data sc pc chs off acc).1.cur_logic_snapshot =
      acc.1.cur_logic_snapshot ∧
    (feed_in_analog_channels data sc pc chs off acc).1.logic_data = acc.1.logic_data ∧
    (feed_in_analog_channels data sc pc chs off acc).1.decode_traces = acc.1.decode_traces ∧
    (feed_in_analog_channels data sc pc chs off acc).1.sampling_thread =
      acc.1.sampling_thread := by
  induction chs generalizing off acc with
  | nil => simp [feed_in_analog_channels]
  | cons c rest ih =>
    obtain ⟨s, sb⟩ := acc
    unfold feed_in_analog_channels
    split
    · simp
    · split
      · have h := ih (off + 1)
        simp only [h]
        simp
      · split
        · simp [SigSession.abort]
        · dsimp only
          split
          · have h := ih (off + 1)
            simp only [h]
            simp
          · simp [SigSession.abort]

theorem feed_in_analog_frame (s : SigSession) (a : AnalogPayload) :
    (feed_in_analog s a).logic_snapshots = s.logic_snapshots ∧
    (feed_in_analog s a).cur_logic_snapshot = s.cur_logic_snapshot ∧
    (feed_in_analog s a).logic_data = s.logic_data ∧
    (feed_in_analog s a).decode_traces = s.decode_traces ∧
    (feed_in_analog s a).sampling_thread = s.sampling_thread := by
  have hf := feed_in_analog_channels_frame a.data (a.data.length / a.channels.length)
    a.channels.length a.channels 0 (s, false)
  unfold feed_in_analog
  split
  · simp
  · dsimp only
    split
    · simp [SigSession.abort]
    · split
      · simp [hf]
      · split <;> simp [SigSession.emit, set_capture_state_frame, hf]

theorem data_feed_in_live (s : SigSession) (device : Device) (p : Packet)
    (ha : s.aborted = false) :
    data_feed_in s device p =
      match p with
      | .HEADER => feed_in_header s device
      | .META config => feed_in_meta s device config
      | .FRAME_BEGIN => feed_in_frame_begin s
      | .LOGIC logic => feed_in_logic s logic
      | .ANALOG analog => feed_in_analog s analog
      | .END =>
        ({ s with cur_logic_snapshot := none, cur_analog_snapshots := [] } : SigSession).emit
          Event.frame_ended
      | .other _ => s := by
  simp [data_feed_in, ha]

theorem data_feed_in_of_aborted (s : SigSession) (device : Device) (p : Packet)
    (ha : s.aborted = true) : data_feed_in s device p = s := by
  simp [data_feed_in, ha]

theorem feed_in_analog_live (s : SigSession) (a : AnalogPayload) (ha : s.aborted = false)
    (hk : a.channels ≠ [])
    (hr : (feed_in_analog_channels a.data (a.data.length / a.channels.length)
      a.channels.length a.channels 0 (s, false)).1.aborted = false) :
    feed_in_analog s a =
      (if (feed_in_analog_channels a.data (a.data.length / a.channels.length)
          a.channels.length a.channels 0 (s, false)).2 then
        set_capture_state
          (feed_in_analog_channels a.data (a.data.length / a.channels.length)
            a.channels.length a.channels 0 (s, false)).1 .Running
      else
        (feed_in_analog_channels a.data (a.data.length / a.channels.length)
          a.channels.length a.channels 0 (s, false)).1).emit Event.data_received := by
  have hk1 : a.channels.length ≠ 0 := by
    intro h; exact hk (List.length_eq_zero.mp h)
  simp [feed_in_analog, ha, hk1, hr]

/-! ## Sweeps of logic packets -/

theorem sr_session_deliver_append (s : SigSession) (d : Device) (p q : List Packet) :
    sr_session_deliver s d (p ++ q) = sr_session_deliver (sr_session_deliver s d p) d q := by
  induction p generalizing s with
  | nil => rfl
  | cons x xs ih => simp [sr_session_deliver, ih]

theorem store_update_last {α : Type} (f : α → α) (xs : List α) (x : α) :
    store_update f (xs ++ [x]) xs.length = xs ++ [f x] := by
  induction xs with
  | nil => rfl
  | cons y ys ih => simp [store_update, ih]

theorem read_sample_rate_frame (s : SigSession) (d : Device) :
    (read_sample_rate s d).logic_snapshots = s.logic_snapshots ∧
    (read_sample_rate s d).cur_logic_snapshot = s.cur_logic_snapshot ∧
    (read_sample_rate s d).analog_snapshots = s.analog_snapshots ∧
    (read_sample_rate s d).cur_analog_snapshots = s.cur_analog_snapshots := by
  unfold read_sample_rate
  split
  · simp
  · split <;> simp [SigSession.abort]

theorem feed_in_frame_begin_frame (s : SigSession) :
    (feed_in_frame_begin s).aborted = s.aborted ∧
    (feed_in_frame_begin s).logic_data = s.logic_data ∧
    (feed_in_frame_begin s).device = s.device ∧
    (feed_in_frame_begin s).cur_logic_snapshot = s.cur_logic_snapshot ∧
    (feed_in_frame_begin s).logic_snapshots = s.logic_snapshots := by
  by_cases ha : s.aborted = true <;>
    by_cases hc : (s.cur_logic_snapshot.isSome || !s.cur_analog_snapshots.isEmpty) = true <;>
    simp [feed_in_frame_begin, ha, hc, SigSession.emit]

theorem feed_in_logic_sealed (s : SigSession) (logic : LogicPayload) (n : Nat)
    (hn : n < s.logic_snapshots.length) (hc : s.cur_logic_snapshot ≠ some n) :
    (feed_in_logic s logic).logic_snapshots[n]? = s.logic_snapshots[n]? ∧
    n < (feed_in_logic s logic).logic_snapshots.length ∧
    (feed_in_logic s logic).cur_logic_snapshot ≠ some n := by
  by_cases ha : s.aborted = true
  · simp [feed_in_logic, ha, hn, hc]
  · cases hl : s.logic_data with
    | none => simp [feed_in_logic, ha, hl, hn, hc, SigSession.emit]
    | some ld =>
      cases hcur : s.cur_logic_snapshot with
      | none =>
        have hf := set_capture_state_frame s .Running
        cases hd : s.device with
        | none =>
          have hd1 : (set_capture_state s .Running).device = none := by rw [hf.2.1, hd]
          simp [feed_in_logic, ha, hl, hcur, hd1, SigSession.abort, hf, hn]
        | some d =>
          simp only [Bool.not_eq_true] at ha
          rw [feed_in_logic_first s logic ld d ha hl hd hcur]
          simp only [SigSession.emit, hf]
          refine ⟨?_, ?_, ?_⟩
          · rw [List.getElem?_append_left hn]
          · simp; omega
          · intro h; injection h with h; omega
      | some ref =>
        simp only [Bool.not_eq_true] at ha
        rw [feed_in_logic_open s logic ld ref ha hl hcur]
        simp only [SigSession.emit]
        have hne : n ≠ ref := by
          intro h; apply hc; rw [hcur, h]
        refine ⟨store_update_get_ne _ _ _ _ hne, ?_, ?_⟩
        · rw [store_update_length]; exact hn
        · exact hc

theorem data_feed_in_sealed (s : SigSession) (device : Device) (p : Packet) (n : Nat)
    (hn : n < s.logic_snapshots.length) (hc : s.cur_logic_snapshot ≠ some n) :
    (data_feed_in s device p).logic_snapshots[n]? = s.logic_snapshots[n]? ∧
    n < (data_feed_in s device p).logic_snapshots.length ∧
    (data_feed_in s device p).cur_logic_snapshot ≠ some n := by
  by_cases ha : s.aborted = true
  · rw [data_feed_in_of_aborted s device p ha]; exact ⟨rfl, hn, hc⟩
  · simp only [Bool.not_eq_true] at ha
    rw [data_feed_in_live s device p ha]
    cases p with
    | HEADER =>
      have hf := read_sample_rate_frame s device
      simp only [feed_in_header]
      exact ⟨by rw [hf.1], by rw [hf.1]; exact hn, by rw [hf.2.1]; exact hc⟩
    | META config =>
      simp [feed_in_meta, ha, SigSession.emit, hn, hc]
    | FRAME_BEGIN =>
      have hf := feed_in_frame_begin_frame s
      simp only []
      exact ⟨by rw [hf.2.2.2.2], by rw [hf.2.2.2.2]; exact hn, by rw [hf.2.2.2.1]; exact hc⟩
    | LOGIC logic => exact feed_in_logic_sealed s logic n hn hc
    | ANALOG analog =>
      have hf := feed_in_analog_frame s analog
      simp only []
      exact ⟨by rw [hf.1], by rw [hf.1]; exact hn, by rw [hf.2.1]; exact hc⟩
    | END => simp [SigSession.emit, hn]
    | other t => exact ⟨rfl, hn, hc⟩

theorem sr_session_deliver_sealed (s : SigSession) (device : Device) (ps : List Packet)
    (n : Nat) (hn : n < s.logic_snapshots.length) (hc : s.cur_logic_snapshot ≠ some n) :
    (sr_session_deliver s device ps).logic_snapshots[n]? = s.logic_snapshots[n]? := by
  induction ps generalizing s with
  | nil => rfl
  | cons p ps ih =>
    have h := data_feed_in_sealed s device p n hn hc
    simp only [sr_session_deliver]
    rw [ih _ h.2.1 h.2.2, h.1]

theorem sr_session_deliver_logic_open (s : SigSession) (device : Device) (ld : Logic)
    (logics : List LogicPayload) (xs : List LogicSnapshot) (x : LogicSnapshot)
    (ha : s.aborted = false) (hl : s.logic_data = some ld)
    (hc : s.cur_logic_snapshot = some xs.length) (hx : s.logic_snapshots = xs ++ [x]) :
    (sr_session_deliver s device (logics.map Packet.LOGIC)).aborted = false ∧
    (sr_session_deliver s device (logics.map Packet.LOGIC)).logic_data = some ld ∧
    (sr_session_deliver s device (logics.map Packet.LOGIC)).device = s.device ∧
    (sr_session_deliver s device (logics.map Packet.LOGIC)).cur_logic_snapshot =
      some xs.length ∧
    (sr_session_deliver s device (logics.map Packet.LOGIC)).logic_snapshots =
      xs ++ [x.append_payloads logics] := by
  induction logics generalizing s x with
  | nil => exact ⟨ha, hl, rfl, hc, hx⟩
  | cons l ls ih =>
    simp only [List.map_cons, sr_session_deliver]
    rw [data_feed_in_live s device _ ha]
    simp only []
    rw [feed_in_logic_open s l ld xs.length ha hl hc]
    have h := ih
      (({ s with
          logic_snapshots :=
            store_update (fun snap => snap.append_payload l) s.logic_snapshots xs.length }
          : SigSession).emit Event.data_received) (x.append_payload l)
      (by simpa [SigSession.emit] using ha) (by simpa [SigSession.emit] using hl)
      (by simpa [SigSession.emit] using hc)
      (by simp only [SigSession.emit, hx]; exact store_update_last _ xs x)
    refine ⟨h.1, h.2.1, ?_, h.2.2.2.1, ?_⟩
    · rw [h.2.2.1]; rfl
    · rw [h.2.2.2.2]; rfl

theorem sr_session_deliver_sweep (s : SigSession) (device d : Device) (ld : Logic)
    (l : LogicPayload) (ls : List LogicPayload) (ha : s.aborted = false)
    (hl : s.logic_data = some ld) (hd : s.device = some d)
    (hc : s.cur_logic_snapshot = none) :
    (sr_session_deliver s device (sweep_packets l ls)).aborted = false ∧
    (sr_session_deliver s device (sweep_packets l ls)).logic_data =
      some (ld.push_snapshot s.logic_snapshots.length) ∧
    (sr_session_deliver s device (sweep_packets l ls)).device = some d ∧
    (sr_session_deliver s device (sweep_packets l ls)).cur_logic_snapshot = none ∧
    (sr_session_deliver s device (sweep_packets l ls)).logic_snapshots =
      s.logic_snapshots ++
        [(LogicSnapshot.create l d.limit_samples).append_payloads ls] := by
  have e0 : data_feed_in s device Packet.FRAME_BEGIN = feed_in_frame_begin s := by
    rw [data_feed_in_live s device _ ha]
  have hfb := feed_in_frame_begin_frame s
  have a1 : (feed_in_frame_begin s).aborted = false := by rw [hfb.1]; exact ha
  have l1 : (feed_in_frame_begin s).logic_data = some ld := by rw [hfb.2.1]; exact hl
  have d1 : (feed_in_frame_begin s).device = some d := by rw [hfb.2.2.1]; exact hd
  have c1 : (feed_in_frame_begin s).cur_logic_snapshot = none := by rw [hfb.2.2.2.1]; exact hc
  have x1 : (feed_in_frame_begin s).logic_snapshots = s.logic_snapshots := hfb.2.2.2.2
  have e1 : data_feed_in (feed_in_frame_begin s) device (Packet.LOGIC l) =
      feed_in_logic (feed_in_frame_begin s) l := by
    rw [data_feed_in_live _ device _ a1]
  have hfirst := feed_in_logic_first (feed_in_frame_begin s) l ld d a1 l1 d1 c1
  have hf := set_capture_state_frame (feed_in_frame_begin s) .Running
  have hopen := sr_session_deliver_logic_open (feed_in_logic (feed_in_frame_begin s) l) device
    (ld.push_snapshot s.logic_snapshots.length) ls s.logic_snapshots
    (LogicSnapshot.create l d.limit_samples)
    (by rw [hfirst]; simp [SigSession.emit, hf, a1])
    (by rw [hfirst]; simp [SigSession.emit, hf, x1])
    (by rw [hfirst]; simp [SigSession.emit, hf, x1])
    (by rw [hfirst]; simp [SigSession.emit, hf, x1])
  have hdev : (feed_in_logic (feed_in_frame_begin s) l).device = some d := by
    rw [feed_in_logic_device, d1]
  have e2 : sr_session_deliver s device (sweep_packets l ls) =
      data_feed_in
        (sr_session_deliver (feed_in_logic (feed_in_frame_begin s) l) device
          (ls.map Packet.LOGIC)) device Packet.END := by
    have hp : sweep_packets l ls =
        Packet.FRAME_BEGIN :: Packet.LOGIC l :: (ls.map Packet.LOGIC ++ [Packet.END]) := by
      simp [sweep_packets]
    rw [hp]
    simp only [sr_session_deliver]
    rw [e0, e1, sr_session_deliver_append]
    rfl
  rw [e2, data_feed_in_end_eq _ device hopen.1]
  refine ⟨?_, ?_, ?_, ?_, ?_⟩
  · simpa [SigSession.emit] using hopen.1
  · simpa [SigSession.emit] using hopen.2.1
  · simp only [SigSession.emit]; rw [hopen.2.2.1, hdev]
  · simp [SigSession.emit]
  · simpa [SigSession.emit] using hopen.2.2.2.2

/-! ## Maps and the auto-selection loops -/

theorem map_find_cons {β : Type} (e : Nat × β) (rest : List (Nat × β)) (k : Nat) :
    map_find (e :: rest) k = if e.1 = k then some e.2 else map_find rest k := by
  by_cases h : e.1 = k <;> simp [map_find, List.find?_cons, h]

theorem map_find_set {β : Type} (m : List (Nat × β)) (key : Nat) (value : β) (k : Nat) :
    map_find (map_set m key value) k = if k = key then some value else map_find m k := by
  induction m with
  | nil =>
    by_cases h : k = key
    · simp [map_set, map_find, h]
    · have h1 : ¬ key = k := fun e => h e.symm
      simp [map_set, map_find, h, h1]
  | cons e rest ih =>
    unfold map_set
    by_cases he : e.1 = key
    · simp only [beq_iff_eq, he, if_true]
      rw [map_find_cons, map_find_cons]
      by_cases h : k = key
      · simp [h]
      · have h1 : ¬ key = k := fun e => h e.symm
        simp [h, h1, he]
    · simp only [beq_iff_eq, he, if_false]
      rw [map_find_cons, map_find_cons, ih]
      by_cases hk : e.1 = k
      · have h : ¬ k = key := by rw [← hk]; exact he
        simp [hk, h]
      · simp [hk]

theorem map_set_mem {β : Type} (m : List (Nat × β)) (key : Nat) (value : β) (e : Nat × β)
    (h : e ∈ map_set m key value) : e ∈ m ∨ e = (key, value) := by
  induction m with
  | nil => simp [map_set] at h; exact Or.inr h
  | cons x rest ih =>
    unfold map_set at h
    by_cases hx : x.1 = key
    · simp only [beq_iff_eq, hx, if_true, List.mem_cons] at h
      rcases h with h | h
      · exact Or.inr h
      · exact Or.inl (List.mem_cons_of_mem _ h)
    · simp only [beq_iff_eq, hx, if_false, List.mem_cons] at h
      rcases h with h | h
      · exact Or.inl (by rw [h]; exact List.mem_cons_self _ _)
      · rcases ih h with h1 | h1
        · exact Or.inl (List.mem_cons_of_mem _ h1)
        · exact Or.inr h1

theorem have_required_channels_from_iff (channels : List (Nat × Nat))
    (required : List srd_channel) :
    have_required_channels_from channels required = true ↔
      ∀ pdch ∈ required, (map_find channels pdch.ptr).isSome = true := by
  induction required with
  | nil => simp [have_required_channels_from]
  | cons c rest ih =>
    unfold have_required_channels_from
    cases hc : map_find channels c.ptr with
    | none => simp [hc]
    | some v => simp [hc, ih]

theorem auto_select_probe_other (pdch : srd_channel) (sigs : List Signal) (i : Nat)
    (probes : List (Nat × Nat)) (k : Nat) (hk : k ≠ pdch.ptr) :
    map_find (auto_select_probe pdch sigs i probes) k = map_find probes k := by
  induction sigs generalizing i probes with
  | nil => rfl
  | cons sig rest ih =>
    simp only [auto_select_probe]
    rw [ih]
    split
    · rw [map_find_set]; simp [hk]
    · rfl

theorem auto_select_probe_no_match (pdch : srd_channel) (sigs : List Signal) (i : Nat)
    (probes : List (Nat × Nat)) (h : ∀ sig ∈ sigs, probe_matches pdch sig = false) :
    auto_select_probe pdch sigs i probes = probes := by
  induction sigs generalizing i probes with
  | nil => rfl
  | cons sig rest ih =>
    simp only [auto_select_probe]
    rw [h sig (List.mem_cons_self _ _)]
    simp only [Bool.false_eq_true, if_false]
    exact ih _ _ (fun x hx => h x (List.mem_cons_of_mem _ hx))

theorem auto_select_probe_last (pdch : srd_channel) (pre : List Signal) (x : Signal)
    (post : List Signal) (i : Nat) (probes : List (Nat × Nat))
    (hx : probe_matches pdch x = true) (hpost : ∀ y ∈ post, probe_matches pdch y = false) :
    map_find (auto_select_probe pdch (pre ++ x :: post) i probes) pdch.ptr =
      some (i + pre.length) := by
  induction pre generalizing i probes with
  | nil =>
    simp only [List.nil_append, auto_select_probe, hx, if_true]
    rw [auto_select_probe_no_match pdch post _ _ hpost, map_find_set]
    simp
  | cons y ys ih =>
    have e : (y :: ys) ++ x :: post = y :: (ys ++ x :: post) := rfl
    rw [e]
    simp only [auto_select_probe]
    rw [ih]
    simp only [List.length_cons]
    congr 1
    omega

theorem exists_last_match (p : Signal → Bool) (sigs : List Signal)
    (h : ∃ x ∈ sigs, p x = true) :
    ∃ pre x post, sigs = pre ++ x :: post ∧ p x = true ∧ ∀ y ∈ post, p y = false := by
  induction sigs with
  | nil => obtain ⟨x, hx, _⟩ := h; cases hx
  | cons a rest ih =>
    by_cases hr : ∃ x ∈ rest, p x = true
    · obtain ⟨pre, x, post, e, hx, hp⟩ := ih hr
      exact ⟨a :: pre, x, post, by rw [e]; rfl, hx, hp⟩
    · obtain ⟨x, hx, hpx⟩ := h
      have ha : p a = true := by
        rcases List.mem_cons.mp hx with e | e
        · rw [← e]; exact hpx
        · exact absurd ⟨x, e, hpx⟩ hr
      refine ⟨[], a, rest, rfl, ha, ?_⟩
      intro y hy
      cases hy1 : p y with
      | false => rfl
      | true => exact absurd ⟨y, hy, hy1⟩ hr

theorem probe_matches_congr (a b : srd_channel) (hn : a.name = b.name) (sig : Signal) :
    probe_matches a sig = probe_matches b sig := by
  simp [probe_matches, hn]

theorem auto_select_probe_congr (a b : srd_channel) (hp : a.ptr = b.ptr)
    (hn : a.name = b.name) (sigs : List Signal) (i : Nat) (probes : List (Nat × Nat)) :
    auto_select_probe a sigs i probes = auto_select_probe b sigs i probes := by
  induction sigs generalizing i probes with
  | nil => rfl
  | cons sig rest ih =>
    simp only [auto_select_probe]
    rw [probe_matches_congr a b hn sig, hp, ih]

theorem auto_select_probes_unmatched (sigs : List Signal) (chs : List srd_channel)
    (probes : List (Nat × Nat)) (pdch : srd_channel)
    (hwf : ∀ a ∈ chs, a.ptr = pdch.ptr → a.name = pdch.name)
    (hno : ∀ sig ∈ sigs, probe_matches pdch sig = false) :
    map_find (auto_select_probes sigs chs probes) pdch.ptr = map_find probes pdch.ptr := by
  induction chs generalizing probes with
  | nil => rfl
  | cons c rest ih =>
    simp only [auto_select_probes]
    rw [ih _ (fun a ha => hwf a (List.mem_cons_of_mem _ ha))]
    by_cases hc : c.ptr = pdch.ptr
    · rw [auto_select_probe_congr c pdch hc (hwf c (List.mem_cons_self _ _) hc),
        auto_select_probe_no_match pdch sigs _ _ hno]
    · exact auto_select_probe_other c sigs 0 probes pdch.ptr (fun e => hc e.symm)

theorem auto_select_probes_matched (sigs : List Signal) (chs : List srd_channel)
    (probes : List (Nat × Nat)) (pdch : srd_channel) (pre : List Signal) (x : Signal)
    (post : List Signal) (hs : sigs = pre ++ x :: post)
    (hx : probe_matches pdch x = true) (hpost : ∀ y ∈ post, probe_matches pdch y = false)
    (hwf : ∀ a ∈ chs, a.ptr = pdch.ptr → a.name = pdch.name)
    (h : pdch ∈ chs ∨ map_find probes pdch.ptr = some pre.length) :
    map_find (auto_select_probes sigs chs probes) pdch.ptr = some pre.length := by
  induction chs generalizing probes with
  | nil =>
    rcases h with h | h
    · cases h
    · exact h
  | cons c rest ih =>
    simp only [auto_select_probes]
    apply ih _ (fun a ha => hwf a (List.mem_cons_of_mem _ ha))
    by_cases hc : c.ptr = pdch.ptr
    · right
      rw [auto_select_probe_congr c pdch hc (hwf c (List.mem_cons_self _ _) hc), hs,
        auto_select_probe_last pdch pre x post 0 probes hx hpost]
      simp
    · rcases h with h | h
      · left
        rcases List.mem_cons.mp h with e | e
        · rw [e] at hc; exact absurd rfl hc
        · exact e
      · right
        rw [auto_select_probe_other c sigs 0 probes pdch.ptr (fun e => hc e.symm)]
        exact h

theorem getElem_after_pre {α : Type} (pre : List α) (x : α) (post : List α) :
    (pre ++ x :: post)[pre.length]? = some x := by
  induction pre with
  | nil => simp
  | cons y ys ih => simpa using ih

theorem auto_select_probe_logic (pdch : srd_channel) (all pre sigs : List Signal)
    (probes : List (Nat × Nat)) (hall : all = pre ++ sigs)
    (hinv : ∀ e ∈ probes, ∃ sig, all[e.2]? = some sig ∧ sig.is_logic = true) :
    ∀ e ∈ auto_select_probe pdch sigs pre.length probes,
      ∃ sig, all[e.2]? = some sig ∧ sig.is_logic = true := by
  induction sigs generalizing pre probes with
  | nil => exact hinv
  | cons sig rest ih =>
    simp only [auto_select_probe]
    have hlen : pre.length + 1 = (pre ++ [sig]).length := by simp
    rw [hlen]
    apply ih (pre ++ [sig]) _ (by rw [hall]; simp)
    intro e he
    split at he
    · rename_i hm
      rcases map_set_mem _ _ _ _ he with h | h
      · exact hinv e h
      · refine ⟨sig, ?_, ?_⟩
        · rw [h, hall]
          exact getElem_after_pre pre sig rest
        · simp only [probe_matches, Bool.and_eq_true] at hm
          exact hm.1
    · exact hinv e he

theorem auto_select_probes_logic (sigs : List Signal) (chs : List srd_channel)
    (probes : List (Nat × Nat))
    (hinv : ∀ e ∈ probes, ∃ sig, sigs[e.2]? = some sig ∧ sig.is_logic = true) :
    ∀ e ∈ auto_select_probes sigs chs probes,
      ∃ sig, sigs[e.2]? = some sig ∧ sig.is_logic = true := by
  induction chs generalizing probes with
  | nil => exact hinv
  | cons c rest ih =>
    simp only [auto_select_probes]
    apply ih
    exact auto_select_probe_logic c sigs [] sigs probes rfl hinv

theorem auto_select_probe_case (a b : srd_channel) (sa sb : List Signal) (i : Nat)
    (probes : List (Nat × Nat)) (hp : a.ptr = b.ptr)
    (hn : qstring_toLower a.name = qstring_toLower b.name)
    (hs : List.Forall₂ (fun x y : Signal => x.is_logic = y.is_logic ∧
      qstring_toLower x.get_name = qstring_toLower y.get_name) sa sb) :
    auto_select_probe a sa i probes = auto_select_probe b sb i probes := by
  induction hs generalizing i probes with
  | nil => rfl
  | cons hxy _ ih =>
    simp only [auto_select_probe]
    have hm : ∀ x y : Signal, x.is_logic = y.is_logic →
        qstring_toLower x.get_name = qstring_toLower y.get_name →
        probe_matches a x = probe_matches b y := by
      intro x y h1 h2
      simp [probe_matches, h1, h2, hn]
    rw [hm _ _ hxy.1 hxy.2, hp, ih]

theorem auto_select_probes_case (ca cb : List srd_channel) (sa sb : List Signal)
    (probes : List (Nat × Nat))
    (hc : List.Forall₂ (fun a b : srd_channel => a.ptr = b.ptr ∧
      qstring_toLower a.name = qstring_toLower b.name) ca cb)
    (hs : List.Forall₂ (fun x y : Signal => x.is_logic = y.is_logic ∧
      qstring_toLower x.get_name = qstring_toLower y.get_name) sa sb) :
    auto_select_probes sa ca probes = auto_select_probes sb cb probes := by
  induction hc generalizing probes with
  | nil => rfl
  | cons hab _ ih =>
    simp only [auto_select_probes]
    rw [auto_select_probe_case _ _ sa sb 0 probes hab.1 hab.2 hs, ih]

theorem add_decoder_live (s : SigSession) (dec : srd_decoder) (trace_ptr : Nat)
    (ha : s.aborted = false) :
    add_decoder s dec trace_ptr false =
      ((({ s with
          decode_traces := s.decode_traces ++
            [{ id := trace_ptr, index := s.decode_traces.length,
               decoder_stack :=
                [(Decoder.create dec).set_channels
                  (auto_select_probes s.signals (dec.channels ++ dec.opt_channels) [])] }] }
          : SigSession).emit Event.signals_changed).emit (Event.begin_decode trace_ptr),
        true) := by
  simp [add_decoder, ha]

theorem erase_trace_none (signal : Nat) (traces : List DecodeTrace)
    (h : ∀ tr ∈ traces, tr.id ≠ signal) : erase_trace signal traces = none := by
  induction traces with
  | nil => rfl
  | cons t rest ih =>
    have ht : t.id ≠ signal := h t (List.mem_cons_self _ _)
    simp [erase_trace, ht, ih (fun x hx => h x (List.mem_cons_of_mem _ hx))]

theorem erase_trace_first (signal : Nat) (pre : List DecodeTrace) (tr : DecodeTrace)
    (post : List DecodeTrace) (ht : tr.id = signal) (hpre : ∀ x ∈ pre, x.id ≠ signal) :
    erase_trace signal (pre ++ tr :: post) = some (pre ++ post) := by
  induction pre with
  | nil => simp [erase_trace, ht]
  | cons y ys ih =>
    have hy : y.id ≠ signal := hpre y (List.mem_cons_self _ _)
    simp [erase_trace, hy, ih (fun x hx => hpre x (List.mem_cons_of_mem _ hx))]

theorem erase_trace_sublist (signal : Nat) (traces result : List DecodeTrace)
    (h : erase_trace signal traces = some result) :
    List.Sublist result traces ∧ result.length + 1 = traces.length := by
  induction traces generalizing result with
  | nil => simp [erase_trace] at h
  | cons t rest ih =>
    unfold erase_trace at h
    by_cases ht : t.id = signal
    · simp only [beq_iff_eq, ht, if_true, Option.some.injEq] at h
      rw [← h]
      exact ⟨List.sublist_cons_self _ _, rfl⟩
    · simp only [beq_iff_eq, ht, if_false, Option.map_eq_some'] at h
      obtain ⟨l, hl, e⟩ := h
      rw [← e]
      have h1 := ih l hl
      exact ⟨List.Sublist.cons₂ _ h1.1, by simp [h1.2]⟩

/-! ## The channel loop of `feed_in_analog` -/

theorem map_find_none_iff {β : Type} (m : List (Nat × β)) (k : Nat) :
    map_find m k = none ↔ m.find? (fun e => e.1 == k) = none := by
  simp [map_find]

theorem map_find_of_find {β : Type} (m : List (Nat × β)) (k : Nat) (e : Nat × β)
    (h : m.find? (fun e => e.1 == k) = some e) : map_find m k = some e.2 := by
  simp [map_find, h]

theorem map_find_mem {β : Type} (m : List (Nat × β)) (k : Nat) (v : β)
    (h : map_find m k = some v) : (k, v) ∈ m := by
  induction m with
  | nil => simp [map_find] at h
  | cons e rest ih =>
    rw [map_find_cons] at h
    by_cases he : e.1 = k
    · simp only [he, if_true, Option.some.injEq] at h
      have : e = (k, v) := by rw [← he, ← h]
      rw [this]; exact List.mem_cons_self _ _
    · simp only [he, if_false] at h
      exact List.mem_cons_of_mem _ (ih h)

theorem map_find_append_single {β : Type} (m : List (Nat × β)) (key : Nat) (value : β)
    (k : Nat) :
    map_find (m ++ [(key, value)]) k =
      match map_find m k with
      | some v => some v
      | none => if key = k then some value else none := by
  induction m with
  | nil =>
    by_cases h : key = k <;> simp [map_find, h]
  | cons e rest ih =>
    rw [List.cons_append, map_find_cons, map_find_cons]
    by_cases he : e.1 = k
    · simp [he]
    · simp only [he, if_false]
      exact ih

theorem store_update_get_map {α : Type} (f : α → α) (l : List α) (n : Nat) :
    (store_update f l n)[n]? = (l[n]?).map f := by
  induction l generalizing n with
  | nil => simp [store_update]
  | cons y ys ih =>
    cases n with
    | zero => simp [store_update]
    | succ n => simp [store_update, ih]

theorem analog_data_of_cons (sig : Signal) (rest : List Signal) (k : Nat) :
    analog_data_of (sig :: rest) k =
      if sig.channel.id = k then
        (match sig with
          | Signal.analog _ data => some data
          | Signal.logic _ => none)
      else analog_data_of rest k := by
  by_cases h : sig.channel.id = k
  · cases sig <;> simp [analog_data_of, List.find?_cons, h]
  · simp [analog_data_of, List.find?_cons, h]

theorem push_analog_snapshot_data (ref id : Nat) (sigs : List Signal) (k : Nat) :
    analog_data_of (push_analog_snapshot ref id sigs) k =
      if k = id then (analog_data_of sigs k).map (fun a => a.push_snapshot ref)
      else analog_data_of sigs k := by
  induction sigs with
  | nil => by_cases h : k = id <;> simp [push_analog_snapshot, analog_data_of, h]
  | cons sig rest ih =>
    unfold push_analog_snapshot
    by_cases hs : sig.channel.id = id
    · simp only [beq_iff_eq, hs, if_true]
      rw [analog_data_of_cons, analog_data_of_cons]
      by_cases hk : k = id
      · cases sig with
        | logic c =>
          simp only [Signal.channel] at hs
          simp [Signal.channel, hs, hk]
        | analog c dt =>
          simp only [Signal.channel] at hs
          simp [Signal.channel, hs, hk]
      · have hk1 : ¬ id = k := fun e => hk e.symm
        cases sig with
        | logic c =>
          simp only [Signal.channel] at hs
          simp [Signal.channel, hs, hk, hk1]
        | analog c dt =>
          simp only [Signal.channel] at hs
          simp [Signal.channel, hs, hk, hk1]
    · simp only [beq_iff_eq, hs, if_false]
      rw [analog_data_of_cons, analog_data_of_cons, ih]
      by_cases hsk : sig.channel.id = k
      · have hk : ¬ k = id := by rw [← hsk]; exact hs
        simp [hsk, hk]
      · simp [hsk]

theorem analog_data_of_signal (s : SigSession) (c : Channel)
    (h : (analog_data_of s.signals c.id).isSome = true) :
    ∃ ch dt, signal_from_channel s c = some (Signal.analog ch dt) := by
  unfold analog_data_of at h
  unfold signal_from_channel
  cases hf : s.signals.find? (fun sig => sig.channel.id == c.id) with
  | none => rw [hf] at h; simp at h
  | some sig =>
    cases sig with
    | logic ch => rw [hf] at h; simp at h
    | analog ch dt => exact ⟨ch, dt, rfl⟩

theorem feed_in_analog_channels_open (data : List Int) (sc pc : Nat) (c : Channel)
    (rest : List Channel) (off : Nat) (s : SigSession) (sb : Bool) (ref : Nat)
    (ha : s.aborted = false) (h : map_find s.cur_analog_snapshots c.id = some ref) :
    feed_in_analog_channels data sc pc (c :: rest) off (s, sb) =
      feed_in_analog_channels data sc pc rest (off + 1)
        ({ s with
            analog_snapshots :=
              store_update
                (fun snap => snap.append_interleaved_samples data off sc pc)
                s.analog_snapshots ref }, sb) := by
  unfold map_find at h
  cases hf : s.cur_analog_snapshots.find? (fun e => e.1 == c.id) with
  | none => rw [hf] at h; cases h
  | some e =>
    rw [hf] at h
    simp only [Option.map_some', Option.some.injEq] at h
    obtain ⟨k, r⟩ := e
    simp only at h
    subst h
    rw [feed_in_analog_channels]
    simp [ha, hf]

theorem feed_in_analog_channels_new (data : List Int) (sc pc : Nat) (c : Channel)
    (rest : List Channel) (off : Nat) (s : SigSession) (sb : Bool) (d : Device)
    (ch : Channel) (dt : Analog) (ha : s.aborted = false) (hd : s.device = some d)
    (h : map_find s.cur_analog_snapshots c.id = none)
    (hsig : signal_from_channel s c = some (Signal.analog ch dt)) :
    feed_in_analog_channels data sc pc (c :: rest) off (s, sb) =
      feed_in_analog_channels data sc pc rest (off + 1)
        ({ s with
            analog_snapshots :=
              s.analog_snapshots ++
                [AnalogSnapshot.append_interleaved_samples
                  { capacity := d.limit_samples, samples := [] } data off sc pc]
            cur_analog_snapshots :=
              s.cur_analog_snapshots ++ [(c.id, s.analog_snapshots.length)]
            signals := push_analog_snapshot s.analog_snapshots.length c.id s.signals },
          true) := by
  rw [map_find_none_iff] at h
  unfold signal_from_channel at hsig
  rw [feed_in_analog_channels]
  simp [ha, h, hd, signal_from_channel, hsig, store_update_last]

theorem feed_in_analog_channels_spec (data : List Int) (sc pc : Nat) (d : Device)
    (chs : List Channel) :
    ∀ (off : Nat) (s : SigSession) (sb : Bool),
      s.aborted = false → s.device = some d → (chs.map (fun c => c.id)).Nodup →
      (∀ c ∈ chs, (analog_data_of s.signals c.id).isSome = true) → s.analog_map_valid →
      (feed_in_analog_channels data sc pc chs off (s, sb)).1.aborted = false ∧
      (feed_in_analog_channels data sc pc chs off (s, sb)).1.analog_map_valid ∧
      (feed_in_analog_channels data sc pc chs off (s, sb)).1.analog_snapshots.length =
        s.analog_snapshots.length +
          (chs.filter (fun c => (map_find s.cur_analog_snapshots c.id).isNone)).length ∧
      (∀ id, id ∉ chs.map (fun c => c.id) →
        map_find (feed_in_analog_channels data sc pc chs off (s, sb)).1.cur_analog_snapshots
            id = map_find s.cur_analog_snapshots id ∧
        analog_data_of (feed_in_analog_channels data sc pc chs off (s, sb)).1.signals id =
          analog_data_of s.signals id) ∧
      (∀ ref, ref < s.analog_snapshots.length →
        (∀ c ∈ chs, map_find s.cur_analog_snapshots c.id ≠ some ref) →
        (feed_in_analog_channels data sc pc chs off (s, sb)).1.analog_snapshots[ref]? =
          s.analog_snapshots[ref]?) ∧
      (∀ j c ref, chs[j]? = some c → map_find s.cur_analog_snapshots c.id = some ref →
        map_find (feed_in_analog_channels data sc pc chs off (s, sb)).1.cur_analog_snapshots
            c.id = some ref ∧
        (feed_in_analog_channels data sc pc chs off (s, sb)).1.analog_snapshots[ref]? =
          (s.analog_snapshots[ref]?).map
            (fun snap => snap.append_interleaved_samples data (off + j) sc pc) ∧
        analog_data_of (feed_in_analog_channels data sc pc chs off (s, sb)).1.signals c.id =
          analog_data_of s.signals c.id) ∧
      (∀ j c, chs[j]? = some c → map_find s.cur_analog_snapshots c.id = none →
        ∃ ref, s.analog_snapshots.length ≤ ref ∧
          map_find (feed_in_analog_channels data sc pc chs off (s, sb)).1.cur_analog_snapshots
              c.id = some ref ∧
          (feed_in_analog_channels data sc pc chs off (s, sb)).1.analog_snapshots[ref]? =
            some (AnalogSnapshot.append_interleaved_samples
              { capacity := d.limit_samples, samples := [] } data (off + j) sc pc) ∧
          analog_data_of (feed_in_analog_channels data sc pc chs off (s, sb)).1.signals c.id =
            (analog_data_of s.signals c.id).map (fun a => a.push_snapshot ref)) ∧
      (feed_in_analog_channels data sc pc chs off (s, sb)).1.log = s.log := by
  induction chs with
  | nil =>
    intro off s sb ha _ _ _ hv
    have e : feed_in_analog_channels data sc pc [] off (s, sb) = (s, sb) := rfl
    rw [e]
    exact ⟨ha, hv, by simp, fun _ _ => ⟨rfl, rfl⟩, fun _ _ _ => rfl,
      fun j c ref hj => by simp at hj, fun j c hj => by simp at hj, rfl⟩
  | cons c rest ih =>
    intro off s sb ha hd hnd hsig hv
    have hnd1 : c.id ∉ rest.map (fun c => c.id) ∧ (rest.map (fun c => c.id)).Nodup := by
      simpa using hnd
    have hne : ∀ x ∈ rest, x.id ≠ c.id := by
      intro x hx he
      apply hnd1.1
      rw [← he]
      exact List.mem_map_of_mem _ hx
    cases hm : map_find s.cur_analog_snapshots c.id with
    | some ref0 =>
      rw [feed_in_analog_channels_open data sc pc c rest off s sb ref0 ha hm]
      have hmem0 := map_find_mem _ _ _ hm
      have hlt0 : ref0 < s.analog_snapshots.length := hv.1 _ hmem0
      have hdiff : ∀ x ∈ rest, map_find s.cur_analog_snapshots x.id ≠ some ref0 := by
        intro x hx h
        exact hne x hx (hv.2 _ (map_find_mem _ _ _ h) _ hmem0 rfl)
      have hv1 : SigSession.analog_map_valid
          { s with
            analog_snapshots :=
              store_update (fun snap => snap.append_interleaved_samples data off sc pc)
                s.analog_snapshots ref0 } := by
        refine ⟨?_, hv.2⟩
        intro e he
        simp only [store_update_length]
        exact hv.1 e he
      obtain ⟨i1, i2, i3, i4, i5, i6, i7, i8⟩ := ih (off + 1)
        { s with
          analog_snapshots :=
            store_update (fun snap => snap.append_interleaved_samples data off sc pc)
              s.analog_snapshots ref0 } sb ha hd hnd1.2
        (fun x hx => hsig x (List.mem_cons_of_mem _ hx)) hv1
      simp only [store_update_length] at i3 i5 i7
      refine ⟨i1, i2, ?_, ?_, ?_, ?_, ?_, i8⟩
      · rw [i3]
        simp [List.filter_cons, hm]
      · intro id hid
        have hid1 : id ∉ rest.map (fun c => c.id) := by
          intro h; apply hid; simp only [List.map_cons]; exact List.mem_cons_of_mem _ h
        exact i4 id hid1
      · intro ref hlt hall
        have hr : ref ≠ ref0 := by
          intro h
          exact hall c (List.mem_cons_self _ _) (by rw [hm, h])
        rw [i5 ref hlt (fun x hx => hall x (List.mem_cons_of_mem _ hx))]
        exact store_update_get_ne _ _ _ _ hr
      · intro j x ref hj hmf
        cases j with
        | zero =>
          simp only [List.getElem?_cons_zero, Option.some.injEq] at hj
          subst hj
          have hr : ref = ref0 := by rw [hm] at hmf; injection hmf with h; exact h.symm
          subst hr
          have h4 := i4 c.id hnd1.1
          refine ⟨by rw [h4.1]; exact hm, ?_, h4.2⟩
          rw [i5 ref hlt0 hdiff]
          exact store_update_get_map _ _ _
        | succ j =>
          simp only [List.getElem?_cons_succ] at hj
          have hx : x ∈ rest := List.getElem?_mem hj
          have h6 := i6 j x ref hj hmf
          have hr : ref ≠ ref0 := by
            intro h
            exact hdiff x hx (by rw [hmf, h])
          refine ⟨h6.1, ?_, h6.2.2⟩
          rw [h6.2.1, store_update_get_ne _ _ _ _ hr]
          have e : off + 1 + j = off + (j + 1) := by omega
          rw [e]
      · intro j x hj hmf
        cases j with
        | zero =>
          simp only [List.getElem?_cons_zero, Option.some.injEq] at hj
          subst hj
          rw [hm] at hmf; cases hmf
        | succ j =>
          simp only [List.getElem?_cons_succ] at hj
          obtain ⟨ref, h1, h2, h3, h4⟩ := i7 j x hj hmf
          have e : off + 1 + j = off + (j + 1) := by omega
          rw [e] at h3
          exact ⟨ref, h1, h2, h3, h4⟩
    | none =>
      obtain ⟨ch, dt, hsc⟩ := analog_data_of_signal s c (hsig c (List.mem_cons_self _ _))
      rw [feed_in_analog_channels_new data sc pc c rest off s sb d ch dt ha hd hm hsc]
      have hmf1 : ∀ id, id ≠ c.id →
          map_find (s.cur_analog_snapshots ++ [(c.id, s.analog_snapshots.length)]) id =
            map_find s.cur_analog_snapshots id := by
        intro id hid
        rw [map_find_append_single]
        cases hx : map_find s.cur_analog_snapshots id with
        | none =>
          have hcid : ¬ c.id = id := fun e => hid e.symm
          simp [hcid]
        | some v => rfl
      have hmfc : map_find (s.cur_analog_snapshots ++ [(c.id, s.analog_snapshots.length)]) c.id =
          some s.analog_snapshots.length := by
        rw [map_find_append_single, hm]
        simp
      have had1 : ∀ id, id ≠ c.id →
          analog_data_of (push_analog_snapshot s.analog_snapshots.length c.id s.signals) id =
            analog_data_of s.signals id := by
        intro id hid
        rw [push_analog_snapshot_data]
        simp [hid]
      have hadc : analog_data_of
          (push_analog_snapshot s.analog_snapshots.length c.id s.signals) c.id =
          (analog_data_of s.signals c.id).map
            (fun a => a.push_snapshot s.analog_snapshots.length) := by
        rw [push_analog_snapshot_data]
        simp
      have hv1 : SigSession.analog_map_valid
          { s with
            analog_snapshots :=
              s.analog_snapshots ++
                [AnalogSnapshot.append_interleaved_samples
                  { capacity := d.limit_samples, samples := [] } data off sc pc]
            cur_analog_snapshots :=
              s.cur_analog_snapshots ++ [(c.id, s.analog_snapshots.length)]
            signals := push_analog_snapshot s.analog_snapshots.length c.id s.signals } := by
        constructor
        · intro e he
          simp only [List.mem_append, List.mem_singleton] at he
          simp only [List.length_append, List.length_singleton]
          rcases he with he | he
          · have := hv.1 e he; omega
          · rw [he]; simp
        · intro e1 he1 e2 he2 h12
          simp only [List.mem_append, List.mem_singleton] at he1 he2
          rcases he1 with he1 | he1 <;> rcases he2 with he2 | he2
          · exact hv.2 e1 he1 e2 he2 h12
          · have := hv.1 e1 he1
            rw [he2] at h12
            simp only at h12
            omega
          · have := hv.1 e2 he2
            rw [he1] at h12
            simp only at h12
            omega
          · rw [he1, he2]
      obtain ⟨i1, i2, i3, i4, i5, i6, i7, i8⟩ := ih (off + 1)
        { s with
          analog_snapshots :=
            s.analog_snapshots ++
              [AnalogSnapshot.append_interleaved_samples
                { capacity := d.limit_samples, samples := [] } data off sc pc]
          cur_analog_snapshots :=
            s.cur_analog_snapshots ++ [(c.id, s.analog_snapshots.length)]
          signals := push_analog_snapshot s.analog_snapshots.length c.id s.signals }
        true ha hd hnd1.2
        (fun x hx => by
          show (analog_data_of
            (push_analog_snapshot s.analog_snapshots.length c.id s.signals) x.id).isSome = true
          rw [had1 x.id (hne x hx)]
          exact hsig x (List.mem_cons_of_mem _ hx)) hv1
      simp only [List.length_append, List.length_singleton] at i3 i5 i7
      have hdiff : ∀ x ∈ rest,
          map_find (s.cur_analog_snapshots ++ [(c.id, s.analog_snapshots.length)]) x.id ≠
            some s.analog_snapshots.length := by
        intro x hx h
        rw [hmf1 x.id (hne x hx)] at h
        have := hv.1 _ (map_find_mem _ _ _ h)
        simp only at this
        omega
      refine ⟨i1, i2, ?_, ?_, ?_, ?_, ?_, i8⟩
      · rw [i3]
        have hf : rest.filter (fun c_1 =>
            (map_find (s.cur_analog_snapshots ++ [(c.id, s.analog_snapshots.length)])
              c_1.id).isNone) =
            rest.filter (fun c_1 => (map_find s.cur_analog_snapshots c_1.id).isNone) := by
          apply List.filter_congr
          intro x hx
          rw [hmf1 x.id (hne x hx)]
        rw [hf]
        simp [List.filter_cons, hm]
        omega
      · intro id hid
        have hid1 : id ∉ rest.map (fun c => c.id) := by
          intro h; apply hid; simp only [List.map_cons]; exact List.mem_cons_of_mem _ h
        have hid2 : id ≠ c.id := by
          intro h; apply hid; simp [h]
        have h4 := i4 id hid1
        exact ⟨by rw [h4.1]; exact hmf1 id hid2, by rw [h4.2]; exact had1 id hid2⟩
      · intro ref hlt hall
        rw [i5 ref (by omega) (fun x hx => by
          rw [hmf1 x.id (hne x hx)]
          exact hall x (List.mem_cons_of_mem _ hx))]
        exact List.getElem?_append_left hlt
      · intro j x ref hj hmf
        cases j with
        | zero =>
          simp only [List.getElem?_cons_zero, Option.some.injEq] at hj
          subst hj
          rw [hm] at hmf; cases hmf
        | succ j =>
          simp only [List.getElem?_cons_succ] at hj
          have hx : x ∈ rest := List.getElem?_mem hj
          have hlt : ref < s.analog_snapshots.length := hv.1 _ (map_find_mem _ _ _ hmf)
          have h6 := i6 j x ref hj (by rw [hmf1 x.id (hne x hx)]; exact hmf)
          refine ⟨h6.1, ?_, by rw [h6.2.2]; exact had1 x.id (hne x hx)⟩
          rw [h6.2.1, List.getElem?_append_left hlt]
          have e : off + 1 + j = off + (j + 1) := by omega
          rw [e]
      · intro j x hj hmf
        cases j with
        | zero =>
          simp only [List.getElem?_cons_zero, Option.some.injEq] at hj
          subst hj
          have h4 := i4 c.id hnd1.1
          refine ⟨s.analog_snapshots.length, Nat.le_refl _, by rw [h4.1]; exact hmfc, ?_,
            by rw [h4.2]; exact hadc⟩
          rw [i5 s.analog_snapshots.length (by omega) hdiff]
          simp
        | succ j =>
          simp only [List.getElem?_cons_succ] at hj
          have hx : x ∈ rest := List.getElem?_mem hj
          obtain ⟨ref, h1, h2, h3, h4⟩ :=
            i7 j x hj (by rw [hmf1 x.id (hne x hx)]; exact hmf)
          have e : off + 1 + j = off + (j + 1) := by omega
          rw [e] at h3
          exact ⟨ref, by omega, h2, h3, by rw [h4, had1 x.id (hne x hx)]⟩

theorem feed_in_analog_fields (s : SigSession) (a : AnalogPayload) (ha : s.aborted = false)
    (hk : a.channels ≠ [])
    (hr : (feed_in_analog_channels a.data (a.data.length / a.channels.length)
      a.channels.length a.channels 0 (s, false)).1.aborted = false) :
    (feed_in_analog s a).aborted = false ∧
    (feed_in_analog s a).cur_analog_snapshots =
      (feed_in_analog_channels a.data (a.data.length / a.channels.length)
        a.channels.length a.channels 0 (s, false)).1.cur_analog_snapshots ∧
    (feed_in_analog s a).analog_snapshots =
      (feed_in_analog_channels a.data (a.data.length / a.channels.length)
        a.channels.length a.channels 0 (s, false)).1.analog_snapshots ∧
    (feed_in_analog s a).signals =
      (feed_in_analog_channels a.data (a.data.length / a.channels.length)
        a.channels.length a.channels 0 (s, false)).1.signals ∧
    (feed_in_analog s a).log.count Event.data_received =
      (feed_in_analog_channels a.data (a.data.length / a.channels.length)
        a.channels.length a.channels 0 (s, false)).1.log.count Event.data_received + 1 := by
  rw [feed_in_analog_live s a ha hk hr]
  have hcnt := set_capture_state_count
    (feed_in_analog_channels a.data (a.data.length / a.channels.length)
      a.channels.length a.channels 0 (s, false)).1 .Running Event.data_received
    (by intro st h; cases h)
  split <;> simp [SigSession.emit, set_capture_state_frame, hr, hcnt]

/-! ## Loading a session file -/

theorem update_signals_live (s : SigSession) (d : Device) (ha : s.aborted = false)
    (hs : s.capture_state = .Stopped) :
    update_signals s d =
      ({ s with
        decode_traces := []
        logic_data :=
          if (d.channels.filter
              (fun c => c.enabled && c.type == ChannelType.LOGIC)).length ≠ 0 then
            some { num_channels :=
                    (d.channels.filter
                      (fun c => c.enabled && c.type == ChannelType.LOGIC)).length,
                   samplerate := 0, snapshots := [] }
          else none
        signals :=
          d.channels.map (fun channel =>
            match channel.type with
            | .LOGIC => Signal.logic channel
            | .ANALOG => Signal.analog channel { samplerate := 0, snapshots := [] }) }
        : SigSession).emit Event.signals_changed := by
  simp [update_signals, ha, hs]

theorem update_signals_assert (s : SigSession) (d : Device) (ha : s.aborted = false)
    (hs : s.capture_state ≠ .Stopped) :
    update_signals s d = s.abort "_capture_state == Stopped" := by
  simp [update_signals, ha, hs]

theorem signals_of_channels (l : List Channel) :
    List.map Signal.channel
      (List.map (fun channel =>
        match channel.type with
        | .LOGIC => Signal.logic channel
        | .ANALOG => Signal.analog channel { samplerate := 0, snapshots := [] }) l) = l := by
  induction l with
  | nil => rfl
  | cons c cs ih =>
    simp only [List.map_cons, ih]
    cases hct : c.type <;> simp [Signal.channel]

theorem add_decoder_indices (s : SigSession) (dec : srd_decoder) (trace_ptr : Nat)
    (ha : s.aborted = false)
    (h : s.decode_traces.map (fun tr => tr.index) = List.range s.decode_traces.length) :
    (add_decoder s dec trace_ptr false).1.aborted = false ∧
    (add_decoder s dec trace_ptr false).1.decode_traces.length = s.decode_traces.length + 1 ∧
    (add_decoder s dec trace_ptr false).1.decode_traces.map (fun tr => tr.index) =
      List.range (s.decode_traces.length + 1) := by
  rw [add_decoder_live s dec trace_ptr ha]
  simp [SigSession.emit, ha, h, List.range_succ]

/-! ## The device manager -/

theorem string_compare_lt_asymm (a b : List Char) :
    string_compare_lt a b = true → string_compare_lt b a = false := by
  induction a generalizing b with
  | nil => cases b <;> simp [string_compare_lt]
  | cons x l ih =>
    cases b with
    | nil => simp [string_compare_lt]
    | cons y m =>
      simp only [string_compare_lt]
      by_cases h1 : x.toNat < y.toNat
      · have h2 : ¬ y.toNat < x.toNat := by omega
        simp [h1, h2]
      · by_cases h2 : y.toNat < x.toNat
        · simp [h1, h2]
        · simp only [h1, h2, if_false]
          exact ih m

theorem string_compare_le_trans (a b c : List Char) :
    string_compare_lt b a = false → string_compare_lt c b = false →
    string_compare_lt c a = false := by
  induction a generalizing b c with
  | nil =>
    cases b with
    | nil => intro _ h; exact h
    | cons y m => intro _ _; cases c <;> simp [string_compare_lt]
  | cons x l ih =>
    cases b with
    | nil =>
      cases c with
      | nil => simp [string_compare_lt]
      | cons z n => simp [string_compare_lt]
    | cons y m =>
      cases c with
      | nil => simp [string_compare_lt]
      | cons z n =>
        simp only [string_compare_lt]
        by_cases h1 : y.toNat < x.toNat
        · simp [h1]
        · by_cases h2 : x.toNat < y.toNat
          · simp only [h1, h2, if_false, if_true]
            intro _
            by_cases h3 : z.toNat < y.toNat
            · simp [h3]
            · by_cases h4 : y.toNat < z.toNat
              · have h5 : ¬ z.toNat < x.toNat := by omega
                have h6 : x.toNat < z.toNat := by omega
                simp [h3, h4, h5, h6]
              · have h5 : ¬ z.toNat < x.toNat := by omega
                have h6 : x.toNat < z.toNat := by omega
                simp [h3, h4, h5, h6]
          · simp only [h1, h2, if_false]
            intro hml
            by_cases h3 : z.toNat < y.toNat
            · simp [h3]
            · by_cases h4 : y.toNat < z.toNat
              · have h5 : ¬ z.toNat < x.toNat := by omega
                have h6 : x.toNat < z.toNat := by omega
                simp [h3, h4, h5, h6]
              · have h5 : ¬ z.toNat < x.toNat := by omega
                have h6 : ¬ x.toNat < z.toNat := by omega
                simp only [h3, h4, h5, h6, if_false]
                exact ih m n hml

theorem compare_devices_total (a b : HardwareDevice) :
    compare_devices b a = false ∨ compare_devices a b = false := by
  cases h : compare_devices b a
  · exact Or.inl rfl
  · exact Or.inr (string_compare_lt_asymm _ _ h)

theorem compare_devices_trans (a b c : HardwareDevice) :
    compare_devices b a = false → compare_devices c b = false →
    compare_devices c a = false :=
  string_compare_le_trans _ _ _

theorem list_sort_insert_perm {α : Type} (comp : α → α → Bool) (a : α) (l : List α) :
    (list_sort_insert comp a l).Perm (a :: l) := by
  induction l with
  | nil => exact List.Perm.refl _
  | cons b l ih =>
    simp only [list_sort_insert]
    split
    · exact List.Perm.refl _
    · exact (List.Perm.cons b ih).trans (List.Perm.swap a b l)

theorem list_sort_perm {α : Type} (comp : α → α → Bool) (l : List α) :
    (list_sort comp l).Perm l := by
  induction l with
  | nil => exact List.Perm.refl _
  | cons a l ih =>
    simp only [list_sort]
    exact (list_sort_insert_perm _ a _).trans (List.Perm.cons a ih)

theorem list_sort_insert_sorted {α : Type} (comp : α → α → Bool)
    (htot : ∀ a b, comp b a = false ∨ comp a b = false)
    (htrans : ∀ a b c, comp b a = false → comp c b = false → comp c a = false)
    (a : α) (l : List α) (h : l.Pairwise (fun x y => comp y x = false)) :
    (list_sort_insert (fun x y => !comp y x) a l).Pairwise (fun x y => comp y x = false) := by
  induction l with
  | nil => simp [list_sort_insert]
  | cons b l ih =>
    rw [List.pairwise_cons] at h
    simp only [list_sort_insert]
    by_cases hc : comp b a = false
    · simp only [hc, Bool.not_false, if_true]
      refine List.pairwise_cons.mpr ⟨?_, List.pairwise_cons.mpr h⟩
      intro y hy
      rcases List.mem_cons.mp hy with rfl | hy
      · exact hc
      · exact htrans a b y hc (h.1 y hy)
    · have hc1 : comp b a = true := by simpa using hc
      simp only [hc1, Bool.not_true, Bool.false_eq_true, if_false]
      refine List.pairwise_cons.mpr ⟨?_, ih h.2⟩
      intro y hy
      have hy1 : y ∈ a :: l := (list_sort_insert_perm _ a l).subset hy
      rcases List.mem_cons.mp hy1 with rfl | hy2
      · rcases htot b y with h1 | h1
        · exact h1
        · rw [hc1] at h1; cases h1
      · exact h.1 y hy2

theorem list_sort_sorted {α : Type} (comp : α → α → Bool)
    (htot : ∀ a b, comp b a = false ∨ comp a b = false)
    (htrans : ∀ a b c, comp b a = false → comp c b = false → comp c a = false)
    (l : List α) : (list_sort comp l).Pairwise (fun x y => comp y x = false) := by
  induction l with
  | nil => simp [list_sort]
  | cons a l ih =>
    simp only [list_sort]
    exact list_sort_insert_sorted comp htot htrans a _ ih

theorem erase_driver_devices_eq (driver : Nat) (l : List HardwareDevice) :
    erase_driver_devices driver l = l.filter (fun d => decide (d.driver ≠ driver)) := by
  induction l with
  | nil => rfl
  | cons d l ih =>
    simp only [erase_driver_devices, List.filter_cons]
    by_cases h : d.driver = driver <;> simp [h, ih]

/-! ## The logic signal view -/

theorem sr_dev_trigger_set_eq (probes : List sr_probe) (i : Nat) (t : Option String)
    (hnd : (probes.map (fun p => p.index)).Nodup) :
    sr_dev_trigger_set probes i t =
      probes.map (fun p => if p.index = i then { p with trigger := t } else p) := by
  induction probes with
  | nil => rfl
  | cons p rest ih =>
    rw [List.map_cons, List.nodup_cons] at hnd
    simp only [sr_dev_trigger_set, List.map_cons]
    by_cases h : p.index = i
    · simp only [h, if_true]
      have hrest : rest.map (fun q : sr_probe =>
          if q.index = i then ({ q with trigger := t } : sr_probe) else q) = rest.map id := by
        apply List.map_congr_left
        intro q hq
        have hne : q.index ≠ i := by
          intro e
          apply hnd.1
          rw [h, ← e]
          exact List.mem_map_of_mem _ hq
        simp [hne]
      rw [hrest, List.map_id]
    · simp only [h, if_false]
      rw [ih hnd.2]

theorem set_trigger_loop_eq (k : Nat) (ts : Option String) (l : List Nat)
    (probes : List sr_probe) (hnd : (probes.map (fun p => p.index)).Nodup) :
    set_trigger_loop k ts l probes =
      probes.map (fun p =>
        if p.index ∈ l then { p with trigger := if p.index = k then ts else none } else p) := by
  induction l generalizing probes with
  | nil => simp [set_trigger_loop]
  | cons i rest ih =>
    simp only [set_trigger_loop]
    rw [sr_dev_trigger_set_eq probes i _ hnd]
    have hidx : (probes.map (fun p =>
        if p.index = i then ({ p with trigger := if i = k then ts else none } : sr_probe)
        else p)).map (fun p => p.index) = probes.map (fun p => p.index) := by
      rw [List.map_map]
      apply List.map_congr_left
      intro p _
      by_cases h : p.index = i <;> simp [h]
    rw [ih _ (by rw [hidx]; exact hnd), List.map_map]
    apply List.map_congr_left
    intro p _
    by_cases h : p.index = i
    · by_cases h2 : i ∈ rest
      · simp [h, h2]
      · simp [h, h2]
    · simp [h]

theorem paint_caps_eq {R : Type} (to_x : Int → R) (y : R) (level : Bool)
    (edges : List (Int × Bool)) :
    paint_caps to_x y level edges =
      ((List.range (edges.length - 1)).filter
        (fun i => decide ((edges.getD i (0, false)).2 = level))).map
        (fun i => { x1 := to_x (edges.getD i (0, false)).1, y1 := y,
                    x2 := to_x (edges.getD (i + 1) (0, false)).1, y2 := y }) := by
  induction edges with
  | nil => simp [paint_caps]
  | cons a rest ih =>
    cases rest with
    | nil => simp [paint_caps]
    | cons b rest =>
      have hr : (a :: b :: rest).length - 1 = ((b :: rest).length - 1) + 1 := by simp
      rw [hr, List.range_succ_eq_map]
      simp only [paint_caps]
      rw [ih]
      by_cases h : a.2 = level
      · simp [h, List.filter_map, Function.comp_def]
      · simp [h, List.filter_map, Function.comp_def]

theorem paint_caps_sum {R : Type} (to_x : Int → R) (y : R) (edges : List (Int × Bool)) :
    (paint_caps to_x y true edges).length + (paint_caps to_x y false edges).length =
      edges.length - 1 := by
  induction edges with
  | nil => simp [paint_caps]
  | cons a rest ih =>
    cases rest with
    | nil => simp [paint_caps]
    | cons b rest =>
      simp only [paint_caps]
      cases h : a.2
      · simp only [Bool.false_eq_true, if_false, if_true, List.length_cons] at ih ⊢
        omega
      · simp only [Bool.true_eq_false, if_false, if_true, List.length_cons] at ih ⊢
        omega

theorem subsampled_edges_getLast (a : Int × Bool) (l : List (Int × Bool)) (b : Int × Bool) :
    (a :: (l ++ [b])).getLast? = some b := by
  rw [← List.cons_append, List.getLast?_append]
  simp

theorem paint_mid_edge_count_eq (edges : List (Int × Bool)) (h2 : 2 ≤ edges.length)
    (hbig : edges.length < 2 ^ 64) :
    paint_mid_edge_count edges = some ((edges.length - 2) % 2 ^ 32) := by
  have hn : ¬ edges.length < 2 := by omega
  have e : edges.length + 2 ^ 64 - 2 = (edges.length - 2) + 2 ^ 64 := by omega
  have hlt : edges.length - 2 < 2 ^ 64 := by omega
  unfold paint_mid_edge_count
  rw [if_neg hn, e, Nat.add_mod_right, Nat.mod_eq_of_lt hlt]

theorem options_set_fresh (m : List (String × Nat)) (id : String) (value : Nat)
    (h : ∀ e ∈ m, e.1 ≠ id) : options_set m id value = m ++ [(id, value)] := by
  induction m with
  | nil => rfl
  | cons e rest ih =>
    have he : ¬ e.1 = id := h e (List.mem_cons_self _ _)
    simp only [options_set, he, if_false, List.cons_append]
    rw [ih (fun x hx => h x (List.mem_cons_of_mem _ hx))]

theorem decoder_lifetime_fresh (calls : List (String × Nat)) (d : Decoder)
    (hnd : (calls.map (fun c => c.1)).Nodup) (hv : ∀ c ∈ calls, c.2 ≠ 0)
    (hd : ∀ c ∈ calls, ∀ e ∈ d.options, e.1 ≠ c.1) :
    decoder_lifetime d calls =
      some (calls.map (fun c => RefEvent.g_variant_ref c.2) ++
        (d.options ++ calls).map (fun e => RefEvent.g_variant_unref e.2)) := by
  induction calls generalizing d with
  | nil => simp [decoder_lifetime, Decoder.destroy]
  | cons c rest ih =>
    rw [List.map_cons, List.nodup_cons] at hnd
    have hc : ¬ c.2 = 0 := hv c (List.mem_cons_self _ _)
    have hfresh := options_set_fresh d.options c.1 c.2 (hd c (List.mem_cons_self _ _))
    simp only [decoder_lifetime, Decoder.set_option, hc, if_false]
    rw [ih _ hnd.2 (fun x hx => hv x (List.mem_cons_of_mem _ hx))]
    · simp [hfresh]
    · intro x hx e he
      simp only [hfresh, List.mem_append, List.mem_singleton] at he
      rcases he with he | rfl
      · exact hd x (List.mem_cons_of_mem _ hx) e he
      · intro heq
        apply hnd.1
        rw [heq]
        exact List.mem_map_of_mem (fun c => c.1) hx

/-- With pairwise different ids, each value non-null, a decoder created
without options releases on destruction exactly the references it took. -/
theorem decoder_lifetime_balanced (dec : srd_decoder) (calls : List (String × Nat))
    (hnd : (calls.map (fun c => c.1)).Nodup) (hv : ∀ c ∈ calls, c.2 ≠ 0) :
    ∃ events, decoder_lifetime (Decoder.create dec) calls = some events ∧
      ∀ value, refs_taken value events = refs_released value events := by
  refine ⟨_, decoder_lifetime_fresh calls (Decoder.create dec) hnd hv ?_, ?_⟩
  · intro c _ e he
    simp [Decoder.create] at he
  · intro value
    simp only [refs_taken, refs_released, Decoder.create, List.nil_append, List.count_append]
    have h1 : ∀ l : List (String × Nat),
        List.count (RefEvent.g_variant_ref value)
          (l.map (fun e => RefEvent.g_variant_unref e.2)) = 0 := by
      intro l
      apply List.count_eq_zero.mpr
      intro hm
      obtain ⟨_, _, h⟩ := List.mem_map.mp hm
      cases h
    have h2 : ∀ l : List (String × Nat),
        List.count (RefEvent.g_variant_unref value)
          (l.map (fun e => RefEvent.g_variant_ref e.2)) = 0 := by
      intro l
      apply List.count_eq_zero.mpr
      intro hm
      obtain ⟨_, _, h⟩ := List.mem_map.mp hm
      cases h
    have h3 : ∀ l : List (String × Nat),
        List.count (RefEvent.g_variant_ref value)
            (l.map (fun e => RefEvent.g_variant_ref e.2)) =
          List.count (RefEvent.g_variant_unref value)
            (l.map (fun e => RefEvent.g_variant_unref e.2)) := by
      intro l
      induction l with
      | nil => rfl
      | cons a l ih =>
        simp only [List.map_cons, List.count_cons, ih]
        by_cases hav : a.2 = value <;> simp [hav]
    rw [h1, h2, h3]
    omega

/-- The scan of driver 1 on `three_device_manager`: the two old devices of
the driver are dropped, the device of driver 2 is kept, the two scanned
devices are listed by description. -/
theorem driver_scan_three_device_manager :
    (driver_scan three_device_manager 1 rescan_result).1.devices.map (fun d => d.id) =
      [4, 2, 3] ∧
    (driver_scan three_device_manager 1 rescan_result).2.map (fun d => d.id) = [4, 3] := by
  decide

/-! ## Lock order -/

theorem held_after_append (m : Mutex) (t1 t2 : List LockEvent) (h : Bool) :
    held_after m (t1 ++ t2) h = held_after m t2 (held_after m t1 h) := by
  induction t1 generalizing h with
  | nil => rfl
  | cons e rest ih => cases e <;> simp [held_after, ih]

theorem acquires_while_held_append (outer inner : Mutex) (t1 t2 : List LockEvent) (h : Bool) :
    acquires_while_held outer inner (t1 ++ t2) h =
      (acquires_while_held outer inner t1 h ||
        acquires_while_held outer inner t2 (held_after outer t1 h)) := by
  induction t1 generalizing h with
  | nil => simp [acquires_while_held, held_after]
  | cons e rest ih =>
    cases e <;> simp [acquires_while_held, held_after, ih, Bool.or_assoc]

/-- A trace that never takes the data mutex under the sampling mutex and
leaves the sampling mutex free. -/
theorem sampling_clean_append (t1 t2 : List LockEvent)
    (h1 : acquires_while_held .sampling_mutex .data_mutex t1 false = false ∧
      held_after .sampling_mutex t1 false = false)
    (h2 : acquires_while_held .sampling_mutex .data_mutex t2 false = false ∧
      held_after .sampling_mutex t2 false = false) :
    acquires_while_held .sampling_mutex .data_mutex (t1 ++ t2) false = false ∧
      held_after .sampling_mutex (t1 ++ t2) false = false := by
  rw [acquires_while_held_append, held_after_append, h1.1, h1.2, h2.1, h2.2]
  exact ⟨rfl, rfl⟩

theorem sampling_clean_nil :
    acquires_while_held .sampling_mutex .data_mutex [] false = false ∧
      held_after .sampling_mutex [] false = false := ⟨rfl, rfl⟩

theorem sampling_clean_guard_data (t : List LockEvent)
    (h : acquires_while_held .sampling_mutex .data_mutex t false = false ∧
      held_after .sampling_mutex t false = false) :
    acquires_while_held .sampling_mutex .data_mutex (lock_guard .data_mutex t) false = false ∧
      held_after .sampling_mutex (lock_guard .data_mutex t) false = false := by
  unfold lock_guard
  exact sampling_clean_append _ _ (sampling_clean_append _ _ ⟨rfl, rfl⟩ h) ⟨rfl, rfl⟩

theorem set_capture_state_locks_clean (s : SigSession) :
    acquires_while_held .sampling_mutex .data_mutex (set_capture_state_locks s) false = false ∧
      held_after .sampling_mutex (set_capture_state_locks s) false = false := by
  unfold set_capture_state_locks
  split
  · exact ⟨rfl, rfl⟩
  · exact ⟨rfl, rfl⟩

theorem read_sample_rate_locks_clean (s : SigSession) :
    acquires_while_held .sampling_mutex .data_mutex (read_sample_rate_locks s) false = false ∧
      held_after .sampling_mutex (read_sample_rate_locks s) false = false := by
  unfold read_sample_rate_locks
  split
  · exact ⟨rfl, rfl⟩
  · exact ⟨rfl, rfl⟩

theorem feed_in_logic_locks_clean (s : SigSession) (logic : LogicPayload) :
    acquires_while_held .sampling_mutex .data_mutex (feed_in_logic_locks s logic) false = false ∧
      held_after .sampling_mutex (feed_in_logic_locks s logic) false = false := by
  unfold feed_in_logic_locks
  split
  · exact ⟨rfl, rfl⟩
  · apply sampling_clean_guard_data
    split
    · exact ⟨rfl, rfl⟩
    · split
      · exact set_capture_state_locks_clean s
      · exact ⟨rfl, rfl⟩

/-- The channel loop of `feed_in_analog` touches the signals mutex only. -/
theorem feed_in_analog_channels_locks_signals (data : List Int) (sc pc : Nat)
    (channels : List Channel) (offset : Nat) (acc : SigSession × Bool) :
    ∀ e ∈ feed_in_analog_channels_locks data sc pc channels offset acc,
      e = LockEvent.lock .signals_mutex ∨ e = LockEvent.unlock .signals_mutex := by
  induction channels generalizing offset acc with
  | nil => intro e he; simp [feed_in_analog_channels_locks] at he
  | cons c rest ih =>
    intro e he
    simp only [feed_in_analog_channels_locks] at he
    rcases List.mem_append.mp he with h | h
    · split at h
      · simp at h
      · split at h
        · simp at h
        · split at h
          · simp at h
          · simp only [signal_from_channel_locks, lock_guard, List.append_nil,
              List.singleton_append, List.mem_cons, List.mem_singleton, List.not_mem_nil,
              or_false] at h
            exact h
    · exact ih _ _ e h

theorem signals_only_acquires (outer inner : Mutex) (hin : inner ≠ .signals_mutex)
    (t : List LockEvent)
    (ht : ∀ e ∈ t, e = LockEvent.lock .signals_mutex ∨ e = LockEvent.unlock .signals_mutex)
    (h : Bool) : acquires_while_held outer inner t h = false := by
  induction t generalizing h with
  | nil => rfl
  | cons e rest ih =>
    have hrest := fun x hx => ht x (List.mem_cons_of_mem _ hx)
    rcases ht e (List.mem_cons_self _ _) with rfl | rfl
    · have hne : ¬ Mutex.signals_mutex = inner := fun e => hin e.symm
      simp [acquires_while_held, ih hrest, hne]
    · simp [acquires_while_held, ih hrest]

theorem signals_only_held (outer : Mutex) (hout : outer ≠ .signals_mutex)
    (t : List LockEvent)
    (ht : ∀ e ∈ t, e = LockEvent.lock .signals_mutex ∨ e = LockEvent.unlock .signals_mutex)
    (h : Bool) : held_after outer t h = h := by
  induction t generalizing h with
  | nil => rfl
  | cons e rest ih =>
    have hrest := fun x hx => ht x (List.mem_cons_of_mem _ hx)
    have hne : ¬ Mutex.signals_mutex = outer := fun e => hout e.symm
    rcases ht e (List.mem_cons_self _ _) with rfl | rfl
    · simp [held_after, ih hrest, hne]
    · simp [held_after, ih hrest, hne]

theorem feed_in_analog_locks_clean (s : SigSession) (analog : AnalogPayload) :
    acquires_while_held .sampling_mutex .data_mutex (feed_in_analog_locks s analog) false
        = false ∧
      held_after .sampling_mutex (feed_in_analog_locks s analog) false = false := by
  unfold feed_in_analog_locks
  split
  · exact ⟨rfl, rfl⟩
  · dsimp only
    split
    · exact ⟨rfl, rfl⟩
    · apply sampling_clean_guard_data
      apply sampling_clean_append
      · exact ⟨signals_only_acquires _ _ (by decide) _
            (feed_in_analog_channels_locks_signals _ _ _ _ _ _) _,
          signals_only_held _ (by decide) _
            (feed_in_analog_channels_locks_signals _ _ _ _ _ _) _⟩
      · split
        · exact ⟨rfl, rfl⟩
        · split
          · exact set_capture_state_locks_clean _
          · exact ⟨rfl, rfl⟩

theorem data_feed_in_locks_clean (s : SigSession) (device : Device) (packet : Packet) :
    acquires_while_held .sampling_mutex .data_mutex (data_feed_in_locks s device packet) false
        = false ∧
      held_after .sampling_mutex (data_feed_in_locks s device packet) false = false := by
  unfold data_feed_in_locks
  split
  · exact ⟨rfl, rfl⟩
  · cases packet with
    | HEADER => exact read_sample_rate_locks_clean s
    | META c => exact ⟨rfl, rfl⟩
    | FRAME_BEGIN => exact ⟨rfl, rfl⟩
    | LOGIC l => exact feed_in_logic_locks_clean s l
    | ANALOG a => exact feed_in_analog_locks_clean s a
    | END => exact ⟨rfl, rfl⟩
    | other n => exact ⟨rfl, rfl⟩

theorem sr_session_deliver_locks_clean (device : Device) (packets : List Packet)
    (s : SigSession) :
    acquires_while_held .sampling_mutex .data_mutex
        (sr_session_deliver_locks s device packets) false = false ∧
      held_after .sampling_mutex (sr_session_deliver_locks s device packets) false = false := by
  induction packets generalizing s with
  | nil => exact ⟨rfl, rfl⟩
  | cons p ps ih =>
    simp only [sr_session_deliver_locks]
    exact sampling_clean_append _ _ (data_feed_in_locks_clean s device p) (ih _)

theorem sample_thread_proc_locks_clean (s : SigSession) (device : Device)
    (error_handler : Nat) (acq : Acquisition) :
    acquires_while_held .sampling_mutex .data_mutex
        (sample_thread_proc_locks s device error_handler acq) false = false ∧
      held_after .sampling_mutex (sample_thread_proc_locks s device error_handler acq) false
        = false := by
  unfold sample_thread_proc_locks
  dsimp only
  apply sampling_clean_append _ _ (read_sample_rate_locks_clean s)
  split
  · exact sampling_clean_append _ _
      (sampling_clean_append _ _ (set_capture_state_locks_clean _)
        (sr_session_deliver_locks_clean _ _ _))
      (set_capture_state_locks_clean _)
  · exact ⟨rfl, rfl⟩

theorem set_device_locks_clean (s : SigSession) (device : Option Device) :
    acquires_while_held .sampling_mutex .data_mutex (set_device_locks s device) false
        = false ∧
      held_after .sampling_mutex (set_device_locks s device) false = false := by
  unfold set_device_locks
  apply sampling_clean_append
  · unfold stop_capture_locks
    split
    · exact ⟨rfl, rfl⟩
    · exact ⟨rfl, rfl⟩
  · cases device with
    | none => exact ⟨rfl, rfl⟩
    | some d =>
      dsimp only
      unfold update_signals_locks
      split
      · exact ⟨rfl, rfl⟩
      · split
        · exact ⟨rfl, rfl⟩
        · exact ⟨rfl, rfl⟩

theorem feed_in_logic_locks_nest (s : SigSession) (logic : LogicPayload) :
    acquires_while_held .data_mutex .sampling_mutex (feed_in_logic_locks s logic) false = true ↔
      (s.aborted = false ∧ s.logic_data.isSome = true ∧ s.cur_logic_snapshot = none) := by
  unfold feed_in_logic_locks
  by_cases ha : s.aborted = true
  · simp [ha, acquires_while_held]
  · have ha1 : s.aborted = false := by simpa using ha
    cases hl : s.logic_data with
    | none => simp [ha1, lock_guard, acquires_while_held]
    | some d =>
      cases hc : s.cur_logic_snapshot with
      | none => simp [ha1, lock_guard, acquires_while_held, set_capture_state_locks]
      | some r => simp [ha1, lock_guard, acquires_while_held]

theorem feed_in_analog_locks_nest (s : SigSession) (analog : AnalogPayload) :
    acquires_while_held .data_mutex .sampling_mutex (feed_in_analog_locks s analog) false = true ↔
      (s.aborted = false ∧ analog.channels.length ≠ 0 ∧
        (feed_in_analog_channels analog.data (analog.data.length / analog.channels.length)
          analog.channels.length analog.channels 0 (s, false)).1.aborted = false ∧
        (feed_in_analog_channels analog.data (analog.data.length / analog.channels.length)
          analog.channels.length analog.channels 0 (s, false)).2 = true) := by
  unfold feed_in_analog_locks
  by_cases ha : s.aborted = true
  · simp [ha, acquires_while_held]
  · have ha1 : s.aborted = false := by simpa using ha
    by_cases hp : analog.channels.length = 0
    · simp [ha1, hp, lock_guard, acquires_while_held]
    · have hsig := feed_in_analog_channels_locks_signals analog.data
        (analog.data.length / analog.channels.length) analog.channels.length
        analog.channels 0 (s, false)
      simp only [ha1, hp, if_false, Bool.false_eq_true, lock_guard, List.singleton_append,
        List.cons_append, acquires_while_held, Bool.false_and, Bool.false_or, decide_True,
        Bool.or_true, acquires_while_held_append, held_after_append,
        signals_only_acquires _ _ (by decide : Mutex.sampling_mutex ≠ Mutex.signals_mutex)
          _ hsig,
        signals_only_held _ (by decide : Mutex.data_mutex ≠ Mutex.signals_mutex) _ hsig]
      by_cases hra : (feed_in_analog_channels analog.data
          (analog.data.length / analog.channels.length) analog.channels.length
          analog.channels 0 (s, false)).1.aborted = true
      · simp [hra, acquires_while_held, held_after]
      · have hra1 : (feed_in_analog_channels analog.data
            (analog.data.length / analog.channels.length) analog.channels.length
            analog.channels 0 (s, false)).1.aborted = false := by simpa using hra
        by_cases hr2 : (feed_in_analog_channels analog.data
            (analog.data.length / analog.channels.length) analog.channels.length
            analog.channels 0 (s, false)).2 = true
        · simp [hra1, hr2, acquires_while_held, held_after, set_capture_state_locks,
            lock_guard, hp]
        · simp [hra1, hr2, acquires_while_held, held_after, hp]

/-! ## Device option bindings -/

theorem bind_key_skip (o : DeviceOptions) (k : ListedKey) (h : binds_property k = false) :
    (o.bind_key k).properties = o.properties := by
  obtain ⟨⟨id, name, description⟩, list⟩ := k
  cases list with
  | none => rfl
  | some l =>
    cases id <;> first | rfl | simp [binds_property, recognised_option] at h

theorem bind_key_bind (o : DeviceOptions) (k : ListedKey) (h : binds_property k = true) :
    ∃ p, (o.bind_key k).properties = o.properties ++ [p] ∧ p.key = k.key ∧
      (k.key.id = ConfigId.SR_CONF_CAPTURE_RATIO →
        p = Property.Int k.key.description "%" (some (0, 100)) k.key) := by
  obtain ⟨⟨id, name, description⟩, list⟩ := k
  cases list with
  | none => simp [binds_property] at h
  | some l =>
    cases id <;>
      first
      | (simp [binds_property, recognised_option] at h; done)
      | exact ⟨_, rfl, rfl, fun _ => rfl⟩
      | exact ⟨_, rfl, rfl, fun e => by cases e⟩

theorem foldl_bind_key_keys (keys : List ListedKey) (o : DeviceOptions) :
    (keys.foldl DeviceOptions.bind_key o).properties.map Property.key =
      o.properties.map Property.key ++ (keys.filter binds_property).map (fun k => k.key) := by
  induction keys generalizing o with
  | nil => simp
  | cons k rest ih =>
    rw [List.foldl_cons, ih, List.filter_cons]
    cases h : binds_property k
    · rw [bind_key_skip o k h]
      simp
    · obtain ⟨p, hp, hk, _⟩ := bind_key_bind o k h
      rw [hp]
      simp [hk]

/-! ## Program points of the data packet handlers -/

theorem feed_in_analog_channels_of_aborted (data : List Int) (sc pc : Nat)
    (chs : List Channel) (off : Nat) (acc : SigSession × Bool) (h : acc.1.aborted = true) :
    feed_in_analog_channels data sc pc chs off acc = acc := by
  induction chs generalizing off with
  | nil => simp [feed_in_analog_channels]
  | cons c rest ih =>
    obtain ⟨s, sb⟩ := acc
    simp only at h
    simp [feed_in_analog_channels, h]

theorem feed_in_analog_channels_cons (data : List Int) (sc pc : Nat) (c : Channel)
    (rest : List Channel) (off : Nat) (acc : SigSession × Bool) :
    feed_in_analog_channels data sc pc (c :: rest) off acc =
      feed_in_analog_channels data sc pc rest (off + 1)
        (feed_in_analog_channels data sc pc [c] off acc) := by
  obtain ⟨s, sb⟩ := acc
  by_cases ha : s.aborted = true
  · rw [feed_in_analog_channels_of_aborted _ _ _ _ _ (s, sb) ha,
      feed_in_analog_channels_of_aborted _ _ _ _ _ (s, sb) ha,
      feed_in_analog_channels_of_aborted _ _ _ _ _ (s, sb) ha]
  · have ha1 : s.aborted = false := by simpa using ha
    simp only [feed_in_analog_channels, ha1, Bool.false_eq_true, if_false]
    split
    · rfl
    · split
      · rw [feed_in_analog_channels_of_aborted _ _ _ _ _ _ (by simp [SigSession.abort])]
      · split
        · rfl
        · rw [feed_in_analog_channels_of_aborted _ _ _ _ _ _ (by simp [SigSession.abort])]

theorem feed_in_analog_channels_states_last (data : List Int) (sc pc : Nat)
    (chs : List Channel) (off : Nat) (acc : SigSession × Bool) (hne : chs ≠ []) :
    (feed_in_analog_channels_states data sc pc chs off acc).getLast? =
      some (feed_in_analog_channels data sc pc chs off acc).1 := by
  induction chs generalizing off acc with
  | nil => exact absurd rfl hne
  | cons c rest ih =>
    rw [feed_in_analog_channels_cons]
    simp only [feed_in_analog_channels_states]
    cases rest with
    | nil => simp [feed_in_analog_channels_states, feed_in_analog_channels]
    | cons c2 rest2 =>
      have h := ih (off + 1) (feed_in_analog_channels data sc pc [c] off acc) (by simp)
      simp only [feed_in_analog_channels_states] at h ⊢
      rw [List.getLast?_cons_cons]
      exact h

theorem feed_in_analog_channels_states_capture_state (data : List Int) (sc pc : Nat)
    (chs : List Channel) (off : Nat) (acc : SigSession × Bool) :
    ∀ t ∈ feed_in_analog_channels_states data sc pc chs off acc,
      t.capture_state = acc.1.capture_state := by
  induction chs generalizing off acc with
  | nil => intro t ht; simp [feed_in_analog_channels_states] at ht
  | cons c rest ih =>
    intro t ht
    have h1 := (feed_in_analog_channels_frame data sc pc [c] off acc).1
    simp only [feed_in_analog_channels_states, List.mem_cons] at ht
    rcases ht with rfl | ht
    · exact h1
    · rw [ih (off + 1) _ t ht, h1]

theorem feed_in_logic_states_first (s : SigSession) (logic : LogicPayload) (ld : Logic)
    (d : Device) (ha : s.aborted = false) (hl : s.logic_data = some ld)
    (hd : s.device = some d) (hc : s.cur_logic_snapshot = none) :
    feed_in_logic_states s logic =
      [set_capture_state s .Running,
        ({ set_capture_state s .Running with
          logic_snapshots :=
            (set_capture_state s .Running).logic_snapshots ++
              [LogicSnapshot.create logic d.limit_samples]
          cur_logic_snapshot := some (set_capture_state s .Running).logic_snapshots.length
          logic_data :=
            some (ld.push_snapshot (set_capture_state s .Running).logic_snapshots.length)
          } : SigSession),
        ({ set_capture_state s .Running with
          logic_snapshots :=
            (set_capture_state s .Running).logic_snapshots ++
              [LogicSnapshot.create logic d.limit_samples]
          cur_logic_snapshot := some (set_capture_state s .Running).logic_snapshots.length
          logic_data :=
            some (ld.push_snapshot (set_capture_state s .Running).logic_snapshots.length)
          } : SigSession).emit Event.frame_began,
        (({ set_capture_state s .Running with
          logic_snapshots :=
            (set_capture_state s .Running).logic_snapshots ++
              [LogicSnapshot.create logic d.limit_samples]
          cur_logic_snapshot := some (set_capture_state s .Running).logic_snapshots.length
          logic_data :=
            some (ld.push_snapshot (set_capture_state s .Running).logic_snapshots.length)
          } : SigSession).emit Event.frame_began).emit Event.data_received] := by
  have hd1 : (set_capture_state s .Running).device = some d := by
    rw [set_capture_state_device, hd]
  unfold feed_in_logic_states
  simp only [ha, hl, hc]
  simp [hd1]

theorem feed_in_logic_states_last (s : SigSession) (logic : LogicPayload)
    (ha : s.aborted = false) :
    (feed_in_logic_states s logic).getLast? = some (feed_in_logic s logic) := by
  unfold feed_in_logic_states feed_in_logic
  simp only [ha, Bool.false_eq_true, if_false]
  cases hl : s.logic_data with
  | none => simp
  | some ld =>
    cases hc : s.cur_logic_snapshot with
    | none =>
      simp only []
      cases hd : (set_capture_state s .Running).device with
      | none => simp
      | some d => simp
    | some ref => simp

theorem feed_in_analog_states_last (s : SigSession) (analog : AnalogPayload)
    (ha : s.aborted = false) :
    (feed_in_analog_states s analog).getLast? = some (feed_in_analog s analog) := by
  unfold feed_in_analog_states feed_in_analog
  simp only [ha, Bool.false_eq_true, if_false]
  by_cases hp : analog.channels.length = 0
  · simp [hp]
  · have hne : analog.channels ≠ [] := fun h => hp (by rw [h]; rfl)
    have hlast := feed_in_analog_channels_states_last analog.data
      (analog.data.length / analog.channels.length) analog.channels.length
      analog.channels 0 (s, false) hne
    simp only [hp, if_false]
    by_cases hra : (feed_in_analog_channels analog.data
        (analog.data.length / analog.channels.length) analog.channels.length
        analog.channels 0 (s, false)).1.aborted = true
    · simp only [hra, if_true, List.append_nil]
      exact hlast
    · simp only [hra, if_false]
      by_cases hr2 : (feed_in_analog_channels analog.data
          (analog.data.length / analog.channels.length) analog.channels.length
          analog.channels 0 (s, false)).2 = true
      · simp [hr2, List.getLast?_append]
      · simp [hr2, List.getLast?_append]

/-- The call `set_trigger(type)` on a device with n > 0 probes whose indices
are distinct and below n, for a signal whose probe index is k < n.  The call
succeeds; it changes nothing but triggers; afterwards the probe with index k
has the one-character string `type` as trigger, or none when `type` is 0, and
every other probe has none, so at most one probe has a trigger. -/
theorem set_trigger_distinct (probes : List sr_probe) (k : Nat) (type : Char)
    (hn : 0 < probes.length) (hk : k < probes.length)
    (hidx : ∀ p ∈ probes, p.index < probes.length)
    (hnd : (probes.map (fun p => p.index)).Nodup) :
    ∃ r, set_trigger probes k type = some r ∧
      r.map (fun p => (p.index, p.enabled)) = probes.map (fun p => (p.index, p.enabled)) ∧
      (∀ p ∈ r, p.index = k →
        p.trigger = if type.toNat ≠ 0 then some (String.singleton type) else none) ∧
      (∀ p ∈ r, p.index ≠ k → p.trigger = none) ∧
      (r.filter (fun p => p.trigger.isSome)).length ≤ 1 := by
  have hno1 : ¬ ¬ probes.length > 0 := by omega
  have hno2 : ¬ ¬ k < probes.length := by omega
  have e : set_trigger probes k type =
      some (probes.map (fun p => ({ p with trigger :=
        if p.index = k then
          (if type.toNat ≠ 0 then some (String.singleton type) else none)
        else none } : sr_probe))) := by
    simp only [set_trigger, hno1, hno2, if_false]
    rw [set_trigger_loop_eq k _ _ probes hnd]
    congr 1
    apply List.map_congr_left
    intro p hp
    have hm : p.index ∈ List.range probes.length := List.mem_range.mpr (hidx p hp)
    simp only [hm, if_true]
  refine ⟨_, e, ?_, ?_, ?_, ?_⟩
  · rw [List.map_map]
    rfl
  · intro p hp hpk
    obtain ⟨q, _, rfl⟩ := List.mem_map.mp hp
    have hqk : q.index = k := hpk
    simp only [hqk, if_true]
  · intro p hp hpk
    obtain ⟨q, _, rfl⟩ := List.mem_map.mp hp
    have hqk : ¬ q.index = k := hpk
    simp only [hqk, if_false]
  · rw [← List.countP_eq_length_filter, List.countP_map]
    have h1 : List.countP ((fun p : sr_probe => p.trigger.isSome) ∘
          (fun p => ({ p with trigger :=
            if p.index = k then
              (if type.toNat ≠ 0 then some (String.singleton type) else none)
            else none } : sr_probe))) probes
        ≤ List.countP (fun p => p.index == k) probes := by
      apply List.countP_mono_left
      intro p _ hp
      by_cases hpk : p.index = k
      · simp [hpk]
      · simp [hpk] at hp
    have h2 : List.countP (fun p : sr_probe => p.index == k) probes =
        (probes.map (fun p => p.index)).count k := by
      rw [List.count, List.countP_map]
      rfl
    have h3 := List.nodup_iff_count_le_one.mp hnd k
    omega

theorem set_trigger_loop_cons (k : Nat) (ts : Option String) (l : List Nat) (p : sr_probe)
    (rest : List sr_probe) :
    set_trigger_loop k ts l (p :: rest) =
      (if p.index ∈ l then
          ({ p with trigger := if p.index = k then ts else none } : sr_probe)
        else p) ::
        set_trigger_loop k ts (l.filter (fun i => decide (i ≠ p.index))) rest := by
  induction l generalizing p rest with
  | nil => simp [set_trigger_loop]
  | cons i l ih =>
    simp only [set_trigger_loop, sr_dev_trigger_set]
    by_cases h : p.index = i
    · simp only [h, if_true]
      rw [ih]
      subst h
      by_cases hm : p.index ∈ l <;> simp [hm]
    · have h2 : ¬ i = p.index := fun e => h e.symm
      simp only [h, if_false]
      rw [ih]
      by_cases hm : p.index ∈ l <;> simp [hm, h, h2, set_trigger_loop]

theorem set_trigger_loop_get (k : Nat) (ts : Option String) (probes : List sr_probe)
    (l : List Nat) (j : Nat) (p : sr_probe) (hj : probes[j]? = some p) :
    (set_trigger_loop k ts l probes)[j]? =
      some ({ p with trigger :=
        if p.index ∈ l ∧ p.index ∉ (probes.take j).map (fun q => q.index) then
          (if p.index = k then ts else none)
        else p.trigger } : sr_probe) := by
  induction probes generalizing l j with
  | nil => simp at hj
  | cons p0 rest ih =>
    rw [set_trigger_loop_cons]
    cases j with
    | zero =>
      simp only [List.getElem?_cons_zero, Option.some.injEq] at hj
      subst hj
      by_cases hm : p0.index ∈ l <;> simp [hm]
    | succ j =>
      simp only [List.getElem?_cons_succ] at hj
      simp only [List.getElem?_cons_succ]
      rw [ih _ j hj]
      by_cases h0 : p.index = p0.index
      · simp [h0, List.mem_filter]
      · by_cases hm : p.index ∈ l
        · by_cases ht : p.index ∈ (rest.take j).map (fun q => q.index)
          · have ht1 := ht
            simp only [List.mem_map] at ht1
            simp [h0, hm, List.mem_filter, ht1]
          · have ht1 := ht
            simp only [List.mem_map] at ht1
            simp [h0, hm, List.mem_filter, ht1]
        · simp [h0, hm, List.mem_filter]

theorem sr_dev_trigger_set_length (probes : List sr_probe) (i : Nat) (t : Option String) :
    (sr_dev_trigger_set probes i t).length = probes.length := by
  induction probes with
  | nil => rfl
  | cons p rest ih =>
    simp only [sr_dev_trigger_set]
    split
    · rfl
    · simp [ih]

theorem set_trigger_loop_length (k : Nat) (ts : Option String) (l : List Nat)
    (probes : List sr_probe) : (set_trigger_loop k ts l probes).length = probes.length := by
  induction l generalizing probes with
  | nil => rfl
  | cons i l ih =>
    simp only [set_trigger_loop]
    rw [ih, sr_dev_trigger_set_length]

/-! ## Claims -/

/-- C1: on a session without a device (here the freshly constructed one),
`start_capture` writes the debug message and returns: the error callback it
was given is never invoked.  No worker is spawned and the state stays
`Stopped`. -/
theorem start_capture_no_device_skips_error_handler :
    SigSession.create.device = none ∧
    (start_capture SigSession.create 1 logic_sweep).log =
      [Event.qDebug "No device selected"] ∧
    (start_capture SigSession.create 1 logic_sweep).log.any Event.is_error_handler = false ∧
    (start_capture SigSession.create 1 logic_sweep).sampling_thread = none ∧
    (start_capture SigSession.create 1 logic_sweep).capture_state = .Stopped ∧
    (start_capture disabled_session 1 logic_sweep).log =
      disabled_session.log ++ [Event.error_handler 1 "No channels enabled."] := by
  decide

/-- C2, as stated, fails: in `capturing_session_disabled` a device is selected,
none of its channels is enabled and a capture is in progress; `start_capture`
then changes the capture state from `Running` to `Stopped` and a snapshot is
created while the worker is joined. -/
theorem start_capture_no_channel_changes_state :
    capturing_session_disabled.device.map
      (fun d => d.channels.any (fun c => c.enabled)) = some false ∧
    capturing_session_disabled.aborted = false ∧
    capturing_session_disabled.capture_state = .Running ∧
    (start_capture capturing_session_disabled 2 logic_sweep).capture_state = .Stopped ∧
    capturing_session_disabled.logic_snapshots = [] ∧
    (start_capture capturing_session_disabled 2 logic_sweep).logic_snapshots =
      [{ unit_size := 1, capacity := 1000, samples := [1, 0, 1] }] ∧
    (start_capture capturing_session_disabled 2 logic_sweep).aborted = false := by
  decide

/-- C2, amended: with a selected device, `start_capture` first performs its
implicit `stop_capture`.  If no channel is enabled it then invokes the error
callback exactly once with "No channels enabled.", spawns no worker and leaves
every other part of the session as `stop_capture` left it, which is unchanged
when the session was stopped with no joinable worker.  If a channel is enabled
it invokes no callback itself and spawns exactly one worker. -/
theorem start_capture_channel_check (s : SigSession) (eh : Nat) (acq : Acquisition)
    (d : Device) (ha : s.aborted = false) (hb : (stop_capture s).aborted = false)
    (hd : s.device = some d) :
    (d.channels.any (fun c => c.enabled) = false →
      start_capture s eh acq =
        (stop_capture s).emit (Event.error_handler eh "No channels enabled.") ∧
      (start_capture s eh acq).log =
        (stop_capture s).log ++ [Event.error_handler eh "No channels enabled."] ∧
      (start_capture s eh acq).sampling_thread = none ∧
      (s.capture_state = .Stopped → s.sampling_thread = none →
        start_capture s eh acq = s.emit (Event.error_handler eh "No channels enabled."))) ∧
    (d.channels.any (fun c => c.enabled) = true →
      start_capture s eh acq =
        { stop_capture s with
          sampling_thread := some (Thread.spawned d eh acq)
          log := (stop_capture s).log ++ [Event.thread_spawn] }) := by
  have hd1 : (stop_capture s).device = some d := by rw [stop_capture_device, hd]
  constructor
  · intro hen
    have e : start_capture s eh acq =
        (stop_capture s).emit (Event.error_handler eh "No channels enabled.") := by
      simp [start_capture, ha, hb, hd1, hen]
    refine ⟨e, by rw [e]; rfl, ?_, ?_⟩
    · rw [e]; exact stop_capture_thread s hb
    · intro hs ht
      rw [e, stop_capture_quiescent s hs ht]
  · intro hen
    simp [start_capture, ha, hb, hd1, hen]

/-- Witness for C2: the idle session on `disabled_device`. -/
theorem start_capture_channel_check_witness :
    (disabled_device.channels.any (fun c => c.enabled) = false →
      start_capture disabled_session 1 logic_sweep =
        (stop_capture disabled_session).emit
          (Event.error_handler 1 "No channels enabled.") ∧
      (start_capture disabled_session 1 logic_sweep).log =
        (stop_capture disabled_session).log ++
          [Event.error_handler 1 "No channels enabled."] ∧
      (start_capture disabled_session 1 logic_sweep).sampling_thread = none ∧
      (disabled_session.capture_state = .Stopped → disabled_session.sampling_thread = none →
        start_capture disabled_session 1 logic_sweep =
          disabled_session.emit (Event.error_handler 1 "No channels enabled."))) ∧
    (disabled_device.channels.any (fun c => c.enabled) = true →
      start_capture disabled_session 1 logic_sweep =
        { stop_capture disabled_session with
          sampling_thread := some (Thread.spawned disabled_device 1 logic_sweep)
          log := (stop_capture disabled_session).log ++ [Event.thread_spawn] }) :=
  start_capture_channel_check disabled_session 1 logic_sweep disabled_device rfl rfl rfl

/-- C3: `stop_capture` called while the capture state is `Stopped` and no worker
is joinable is a no-op: the whole session, including the effect trace (so no
acquisition-stop request and no join), is unchanged. -/
theorem stop_capture_noop (s : SigSession) (hs : s.capture_state = .Stopped)
    (ht : s.sampling_thread = none) :
    stop_capture s = s ∧
    (stop_capture s).log = s.log ∧
    (stop_capture s).capture_state = s.capture_state ∧
    (stop_capture s).device = s.device ∧
    (stop_capture s).signals = s.signals ∧
    (stop_capture s).decode_traces = s.decode_traces ∧
    (stop_capture s).cur_logic_snapshot = s.cur_logic_snapshot ∧
    (stop_capture s).cur_analog_snapshots = s.cur_analog_snapshots := by
  have h : stop_capture s = s := by
    unfold stop_capture stop_request thread_join get_capture_state
    split
    · rfl
    · simp [hs, ht]
  simp [h]

/-- Witness for C3: the freshly constructed session. -/
theorem stop_capture_noop_witness :
    stop_capture SigSession.create = SigSession.create ∧
    (stop_capture SigSession.create).log = SigSession.create.log ∧
    (stop_capture SigSession.create).capture_state = SigSession.create.capture_state ∧
    (stop_capture SigSession.create).device = SigSession.create.device ∧
    (stop_capture SigSession.create).signals = SigSession.create.signals ∧
    (stop_capture SigSession.create).decode_traces = SigSession.create.decode_traces ∧
    (stop_capture SigSession.create).cur_logic_snapshot =
      SigSession.create.cur_logic_snapshot ∧
    (stop_capture SigSession.create).cur_analog_snapshots =
      SigSession.create.cur_analog_snapshots :=
  stop_capture_noop SigSession.create rfl rfl

/-- C4: `stop_capture` is idempotent.  From every consistent session, whatever
the capture state and whether or not a worker is joinable, a second
`stop_capture` returns exactly the session the first one returned, so it adds
no acquisition-stop request; and when the first call returns, the capture
state is `Stopped` and no worker is joinable. -/
theorem stop_capture_idempotent (s : SigSession) (hc : s.consistent) :
    stop_capture (stop_capture s) = stop_capture s ∧
    (stop_capture (stop_capture s)).log.count Event.sr_session_stop =
      (stop_capture s).log.count Event.sr_session_stop ∧
    ((stop_capture s).aborted = false →
      (stop_capture s).capture_state = .Stopped ∧
      (stop_capture s).sampling_thread = none) := by
  have key : stop_capture (stop_capture s) = stop_capture s := by
    by_cases ha : (stop_capture s).aborted = true
    · exact stop_capture_of_aborted _ ha
    · simp only [Bool.not_eq_true] at ha
      exact stop_capture_quiescent _ (stop_capture_stopped s hc ha) (stop_capture_thread s ha)
  refine ⟨key, by rw [key], fun ha => ⟨stop_capture_stopped s hc ha, stop_capture_thread s ha⟩⟩

/-- Witness for C4: a capture on `logic_device` whose worker is inside `run()`. -/
theorem stop_capture_idempotent_witness :
    capturing_session.consistent ∧
    stop_capture (stop_capture capturing_session) = stop_capture capturing_session ∧
    (stop_capture (stop_capture capturing_session)).log.count Event.sr_session_stop =
      (stop_capture capturing_session).log.count Event.sr_session_stop ∧
    ((stop_capture capturing_session).aborted = false →
      (stop_capture capturing_session).capture_state = .Stopped ∧
      (stop_capture capturing_session).sampling_thread = none) :=
  ⟨fun _ _ => ⟨_, _, rfl⟩, stop_capture_idempotent capturing_session (fun _ _ => ⟨_, _, rfl⟩)⟩

/-- C5: when `start()` succeeds, the worker has set the capture state to
`AwaitingTrigger` if a trigger is configured and to `Running` otherwise at the
point where it enters the blocking `run()` (nothing has been delivered yet);
and whatever packets `run()` delivers, once it has returned the worker leaves
the capture state `Stopped`. -/
theorem sample_thread_proc_states (s : SigSession) (d : Device) (eh : Nat)
    (acq : Acquisition) (hs : acq.start_error = none)
    (hr : (read_sample_rate s d).aborted = false) :
    (sample_thread_proc_begin s d eh acq).2 = true ∧
    (sample_thread_proc_begin s d eh acq).1.capture_state =
      (if acq.trigger then capture_state.AwaitingTrigger else capture_state.Running) ∧
    (sample_thread_proc_begin s d eh acq).1.log.count Event.sr_session_run =
      s.log.count Event.sr_session_run ∧
    sample_thread_proc s d eh acq =
      sample_thread_proc_end
        (sr_session_deliver ((sample_thread_proc_begin s d eh acq).1.emit Event.sr_session_run)
          d acq.packets) ∧
    ((sr_session_deliver ((sample_thread_proc_begin s d eh acq).1.emit Event.sr_session_run)
        d acq.packets).aborted = false →
      (sample_thread_proc s d eh acq).capture_state = .Stopped) := by
  have hb : sample_thread_proc_begin s d eh acq =
      (set_capture_state ((read_sample_rate s d).emit Event.sr_session_start)
        (if acq.trigger then .AwaitingTrigger else .Running), true) := by
    simp [sample_thread_proc_begin, hr, hs]
  have hl := read_sample_rate_log s d hr
  have he : sample_thread_proc s d eh acq =
      sample_thread_proc_end
        (sr_session_deliver ((sample_thread_proc_begin s d eh acq).1.emit Event.sr_session_run)
          d acq.packets) := by
    simp [sample_thread_proc, hb]
  refine ⟨by rw [hb], ?_, ?_, he, ?_⟩
  · rw [hb]
    exact set_capture_state_capture_state _ _ (by simpa [SigSession.emit] using hr)
  · rw [hb]
    by_cases hc : (read_sample_rate s d).capture_state =
        (if acq.trigger then capture_state.AwaitingTrigger else capture_state.Running)
    · simp [set_capture_state, SigSession.emit, hr, hc, hl]
    · simp [set_capture_state, SigSession.emit, hr, hc, hl]
  · intro hrun
    rw [he]
    exact sample_thread_proc_end_capture_state _ hrun

/-- Witness for C5: the worker of a capture on `logic_device`. -/
theorem sample_thread_proc_states_witness :
    (sample_thread_proc_begin logic_session logic_device 1 logic_sweep).2 = true ∧
    (sample_thread_proc_begin logic_session logic_device 1 logic_sweep).1.capture_state =
      (if logic_sweep.trigger then capture_state.AwaitingTrigger else capture_state.Running) ∧
    (sample_thread_proc_begin logic_session logic_device 1 logic_sweep).1.log.count
        Event.sr_session_run =
      logic_session.log.count Event.sr_session_run ∧
    sample_thread_proc logic_session logic_device 1 logic_sweep =
      sample_thread_proc_end
        (sr_session_deliver
          ((sample_thread_proc_begin logic_session logic_device 1 logic_sweep).1.emit
            Event.sr_session_run)
          logic_device logic_sweep.packets) ∧
    ((sr_session_deliver
        ((sample_thread_proc_begin logic_session logic_device 1 logic_sweep).1.emit
          Event.sr_session_run)
        logic_device logic_sweep.packets).aborted = false →
      (sample_thread_proc logic_session logic_device 1 logic_sweep).capture_state = .Stopped) :=
  sample_thread_proc_states logic_session logic_device 1 logic_sweep rfl rfl

/-- C6, as stated, fails: on the idle session `logic_session`, `start_capture`
with an acquisition whose `start()` throws does spawn the worker thread; when
`start_capture` returns, the acquisition has not been started and no error has
been reported yet. -/
theorem start_error_worker_spawned :
    failing_start.start_error = some "device busy" ∧
    logic_session.sampling_thread = none ∧
    (start_capture logic_session 1 failing_start).sampling_thread =
      some (Thread.spawned logic_device 1 failing_start) ∧
    (start_capture logic_session 1 failing_start).log =
      logic_session.log ++ [Event.thread_spawn] := by
  decide

/-- C6, amended: from a stopped session with a device and an enabled channel,
`start_capture` spawns the worker thread.  If `start()` then throws `e`, the
worker passes `e` to the supplied error callback exactly once and returns
without entering the blocking `run()`; the capture state stays `Stopped` and
the finished thread stays joinable until the next `stop_capture`. -/
theorem start_error_reported_by_worker (s : SigSession) (eh : Nat) (acq : Acquisition)
    (d : Device) (e : String) (ha : s.aborted = false) (hs : s.capture_state = .Stopped)
    (ht : s.sampling_thread = none) (hd : s.device = some d)
    (hen : d.channels.any (fun c => c.enabled) = true) (hp : s.data_present = true)
    (he : acq.start_error = some e) :
    (start_capture s eh acq).sampling_thread = some (Thread.spawned d eh acq) ∧
    (start_capture s eh acq).log = s.log ++ [Event.thread_spawn] ∧
    (worker_step (start_capture s eh acq)).log =
      s.log ++ [Event.thread_spawn, Event.sr_session_start, Event.error_handler eh e] ∧
    (worker_step (start_capture s eh acq)).sampling_thread = some Thread.returned ∧
    (worker_step (start_capture s eh acq)).capture_state = .Stopped ∧
    (stop_capture (start_capture s eh acq)).log =
      s.log ++ [Event.thread_spawn, Event.sr_session_start, Event.error_handler eh e,
        Event.thread_join] ∧
    (stop_capture (start_capture s eh acq)).sampling_thread = none ∧
    (stop_capture (start_capture s eh acq)).capture_state = .Stopped := by
  have hq := stop_capture_quiescent s hs ht
  have e1 : start_capture s eh acq =
      { s with sampling_thread := some (Thread.spawned d eh acq)
               log := s.log ++ [Event.thread_spawn] } := by
    simp [start_capture, ha, hq, hd, hen]
  unfold SigSession.data_present at hp
  simp only [Bool.not_eq_true'] at hp
  rw [e1]
  simp [worker_step, stop_capture, stop_request, thread_join, get_capture_state, Thread.finish,
    sample_thread_proc, sample_thread_proc_begin, read_sample_rate, SigSession.emit, ha, hs,
    hp, he]

/-- Witness for C6: the idle session on `logic_device` and an acquisition whose
`start()` throws "device busy". -/
theorem start_error_reported_by_worker_witness :
    (start_capture logic_session 1 failing_start).sampling_thread =
      some (Thread.spawned logic_device 1 failing_start) ∧
    (start_capture logic_session 1 failing_start).log =
      logic_session.log ++ [Event.thread_spawn] ∧
    (worker_step (start_capture logic_session 1 failing_start)).log =
      logic_session.log ++
        [Event.thread_spawn, Event.sr_session_start, Event.error_handler 1 "device busy"] ∧
    (worker_step (start_capture logic_session 1 failing_start)).sampling_thread =
      some Thread.returned ∧
    (worker_step (start_capture logic_session 1 failing_start)).capture_state = .Stopped ∧
    (stop_capture (start_capture logic_session 1 failing_start)).log =
      logic_session.log ++
        [Event.thread_spawn, Event.sr_session_start, Event.error_handler 1 "device busy",
          Event.thread_join] ∧
    (stop_capture (start_capture logic_session 1 failing_start)).sampling_thread = none ∧
    (stop_capture (start_capture logic_session 1 failing_start)).capture_state = .Stopped :=
  start_error_reported_by_worker logic_session 1 failing_start logic_device "device busy"
    rfl rfl rfl rfl rfl rfl rfl

/-- C7: on `analog_device` the acquisition `analog_no_end` delivers one analog
packet, which opens a snapshot for the channel, and no end packet.  The worker
finishes without the "SR_DF_END was not received." report and without a failed
assertion, although the snapshot is still open; the same run on `logic_device`
with a logic packet is reported. -/
theorem analog_sweep_without_end_not_reported :
    (sample_thread_proc analog_session analog_device 1 analog_no_end).aborted = false ∧
    (sample_thread_proc analog_session analog_device 1 analog_no_end).log =
      analog_session.log ++
        [Event.sr_session_start, Event.capture_state_changed .Running, Event.sr_session_run,
          Event.data_received, Event.capture_state_changed .Stopped] ∧
    (sample_thread_proc analog_session analog_device 1 analog_no_end).cur_analog_snapshots =
      [(0, 0)] ∧
    (sample_thread_proc analog_session analog_device 1 analog_no_end).analog_snapshots =
      [{ capacity := 1000, samples := [5, 6, 7] }] ∧
    (sample_thread_proc logic_session logic_device 1
      { logic_sweep with packets := [Packet.LOGIC { unit_size := 1, samples := [1, 0, 1] }] }).log =
      logic_session.log ++
        [Event.sr_session_start, Event.capture_state_changed .Running, Event.sr_session_run,
          Event.frame_began, Event.data_received, Event.capture_state_changed .Stopped,
          Event.qDebug "SR_DF_END was not received.", Event.assert_failed "0"] := by
  decide

/-- C8: dispatching an END packet clears the open logic snapshot reference and
the channel-to-analog-snapshot map, emits `frame_ended` exactly once and
nothing else, and leaves the Logic data, the signals with their Analog data,
both snapshot stores and the capture state as they were. -/
theorem data_feed_in_end (s : SigSession) (device : Device) (h : s.aborted = false) :
    (data_feed_in s device Packet.END).cur_logic_snapshot = none ∧
    (data_feed_in s device Packet.END).cur_analog_snapshots = [] ∧
    (data_feed_in s device Packet.END).log = s.log ++ [Event.frame_ended] ∧
    (data_feed_in s device Packet.END).logic_data = s.logic_data ∧
    (data_feed_in s device Packet.END).signals = s.signals ∧
    (data_feed_in s device Packet.END).logic_snapshots = s.logic_snapshots ∧
    (data_feed_in s device Packet.END).analog_snapshots = s.analog_snapshots ∧
    (data_feed_in s device Packet.END).capture_state = s.capture_state := by
  simp [data_feed_in, h, SigSession.emit]

/-- Witness for C8: the END packet dispatched after the logic packet of a
capture on `logic_device`. -/
theorem data_feed_in_end_witness :
    (worker_step capturing_session).cur_logic_snapshot = some 0 ∧
    (data_feed_in (worker_step capturing_session) logic_device Packet.END).cur_logic_snapshot
      = none ∧
    (data_feed_in (worker_step capturing_session) logic_device Packet.END).cur_analog_snapshots
      = [] ∧
    (data_feed_in (worker_step capturing_session) logic_device Packet.END).log =
      (worker_step capturing_session).log ++ [Event.frame_ended] ∧
    (data_feed_in (worker_step capturing_session) logic_device Packet.END).logic_data =
      (worker_step capturing_session).logic_data ∧
    (data_feed_in (worker_step capturing_session) logic_device Packet.END).signals =
      (worker_step capturing_session).signals ∧
    (data_feed_in (worker_step capturing_session) logic_device Packet.END).logic_snapshots =
      (worker_step capturing_session).logic_snapshots ∧
    (data_feed_in (worker_step capturing_session) logic_device Packet.END).analog_snapshots =
      (worker_step capturing_session).analog_snapshots ∧
    (data_feed_in (worker_step capturing_session) logic_device Packet.END).capture_state =
      (worker_step capturing_session).capture_state :=
  ⟨rfl, data_feed_in_end (worker_step capturing_session) logic_device rfl⟩

/-- C9, as stated, fails: in a capture on `logic_device`, after the logic
packet and then the END packet have been dispatched the capture state is
still `Running`. -/
theorem end_packet_leaves_running :
    capturing_session.logic_data.isSome = true ∧
    (data_feed_in capturing_session logic_device
      (Packet.LOGIC { unit_size := 1, samples := [1, 0, 1] })).capture_state = .Running ∧
    (data_feed_in
      (data_feed_in capturing_session logic_device
        (Packet.LOGIC { unit_size := 1, samples := [1, 0, 1] }))
      logic_device Packet.END).capture_state = .Running ∧
    (data_feed_in
      (data_feed_in capturing_session logic_device
        (Packet.LOGIC { unit_size := 1, samples := [1, 0, 1] }))
      logic_device Packet.END).capture_state ≠ .Stopped := by
  decide

/-- C9, amended: in a capture on a device with enabled logic channels (the
session has a Logic data object), after the first LOGIC packet of a sweep is
dispatched the capture state is `Running`; dispatching the following END
packet leaves it `Running`; it becomes `Stopped` when `run()` has returned and
the worker executes the rest of its body. -/
theorem logic_then_end_capture_state (s : SigSession) (device d : Device)
    (logic : LogicPayload) (ld : Logic) (ha : s.aborted = false)
    (hl : s.logic_data = some ld) (hd : s.device = some d)
    (hc : s.cur_logic_snapshot = none) :
    (data_feed_in s device (Packet.LOGIC logic)).capture_state = .Running ∧
    (data_feed_in (data_feed_in s device (Packet.LOGIC logic)) device Packet.END).capture_state
      = .Running ∧
    (sample_thread_proc_end
      (data_feed_in (data_feed_in s device (Packet.LOGIC logic)) device
        Packet.END)).capture_state = .Stopped ∧
    (sample_thread_proc_end
      (data_feed_in (data_feed_in s device (Packet.LOGIC logic)) device
        Packet.END)).aborted = false := by
  have e1 : data_feed_in s device (Packet.LOGIC logic) = feed_in_logic s logic := by
    simp [data_feed_in, ha]
  have hr := set_capture_state_capture_state s .Running ha
  have hab := set_capture_state_aborted s .Running
  have h1 : (data_feed_in s device (Packet.LOGIC logic)).capture_state = .Running := by
    rw [e1, feed_in_logic_first s logic ld d ha hl hd hc]
    simp [SigSession.emit, hr]
  have h1a : (data_feed_in s device (Packet.LOGIC logic)).aborted = false := by
    rw [e1, feed_in_logic_first s logic ld d ha hl hd hc]
    simp [SigSession.emit, hab, ha]
  have e2 := data_feed_in_end_eq (data_feed_in s device (Packet.LOGIC logic)) device h1a
  have h2a : (data_feed_in (data_feed_in s device (Packet.LOGIC logic)) device
      Packet.END).aborted = false := by
    rw [e2]; simpa [SigSession.emit] using h1a
  refine ⟨h1, ?_, sample_thread_proc_end_capture_state _ h2a, ?_⟩
  · rw [e2]; simpa [SigSession.emit] using h1
  · cases hx : (sample_thread_proc_end
      (data_feed_in (data_feed_in s device (Packet.LOGIC logic)) device Packet.END)).aborted
    · rfl
    · rw [sample_thread_proc_end_aborted_iff _ h2a, e2] at hx
      simp [SigSession.emit] at hx

/-- Witness for C9: the capture on `logic_device` whose worker is in `run()`. -/
theorem logic_then_end_capture_state_witness :
    (data_feed_in capturing_session logic_device
      (Packet.LOGIC { unit_size := 1, samples := [1, 0, 1] })).capture_state = .Running ∧
    (data_feed_in
      (data_feed_in capturing_session logic_device
        (Packet.LOGIC { unit_size := 1, samples := [1, 0, 1] }))
      logic_device Packet.END).capture_state = .Running ∧
    (sample_thread_proc_end
      (data_feed_in
        (data_feed_in capturing_session logic_device
          (Packet.LOGIC { unit_size := 1, samples := [1, 0, 1] }))
        logic_device Packet.END)).capture_state = .Stopped ∧
    (sample_thread_proc_end
      (data_feed_in
        (data_feed_in capturing_session logic_device
          (Packet.LOGIC { unit_size := 1, samples := [1, 0, 1] }))
        logic_device Packet.END)).aborted = false :=
  logic_then_end_capture_state capturing_session logic_device logic_device
    { unit_size := 1, samples := [1, 0, 1] }
    { num_channels := 1, samplerate := 1000000, snapshots := [] } rfl rfl rfl rfl

/-- C10: for a LOGIC packet dispatched while a Logic data object exists (and a
device is selected): if no logic snapshot is open, exactly one snapshot is
created, its capacity is the device's sample limit, it becomes the open
snapshot and its reference is appended at the end of the Logic data's snapshot
sequence; otherwise no snapshot is created, the open reference and the Logic
data are unchanged and the payload is appended to the open snapshot.  In both
cases `data_received` is emitted exactly once. -/
theorem feed_in_logic_snapshot (s : SigSession) (device d : Device)
    (logic : LogicPayload) (ld : Logic) (ha : s.aborted = false)
    (hl : s.logic_data = some ld) (hd : s.device = some d) :
    (s.cur_logic_snapshot = none →
      (data_feed_in s device (Packet.LOGIC logic)).logic_snapshots =
        s.logic_snapshots ++ [LogicSnapshot.create logic d.limit_samples] ∧
      (LogicSnapshot.create logic d.limit_samples).capacity = d.limit_samples ∧
      (data_feed_in s device (Packet.LOGIC logic)).cur_logic_snapshot =
        some s.logic_snapshots.length ∧
      (data_feed_in s device (Packet.LOGIC logic)).logic_data =
        some { ld with snapshots := ld.snapshots ++ [s.logic_snapshots.length] } ∧
      (data_feed_in s device (Packet.LOGIC logic)).log.count Event.data_received =
        s.log.count Event.data_received + 1) ∧
    (∀ ref, s.cur_logic_snapshot = some ref →
      (data_feed_in s device (Packet.LOGIC logic)).logic_snapshots.length =
        s.logic_snapshots.length ∧
      (data_feed_in s device (Packet.LOGIC logic)).logic_snapshots =
        store_update (fun snap => snap.append_payload logic) s.logic_snapshots ref ∧
      (∀ snap, s.logic_snapshots[ref]? = some snap →
        (data_feed_in s device (Packet.LOGIC logic)).logic_snapshots[ref]? =
          some (snap.append_payload logic)) ∧
      (∀ other, other ≠ ref →
        (data_feed_in s device (Packet.LOGIC logic)).logic_snapshots[other]? =
          s.logic_snapshots[other]?) ∧
      (data_feed_in s device (Packet.LOGIC logic)).cur_logic_snapshot = some ref ∧
      (data_feed_in s device (Packet.LOGIC logic)).logic_data = some ld ∧
      (data_feed_in s device (Packet.LOGIC logic)).log = s.log ++ [Event.data_received] ∧
      (data_feed_in s device (Packet.LOGIC logic)).log.count Event.data_received =
        s.log.count Event.data_received + 1) := by
  have e1 : data_feed_in s device (Packet.LOGIC logic) = feed_in_logic s logic := by
    simp [data_feed_in, ha]
  rw [e1]
  constructor
  · intro hc
    rw [feed_in_logic_first s logic ld d ha hl hd hc]
    have hcnt := set_capture_state_count s .Running Event.data_received (by intro st h; cases h)
    refine ⟨by simp [SigSession.emit, set_capture_state_logic_snapshots], ?_,
      by simp [SigSession.emit, set_capture_state_logic_snapshots],
      by simp [SigSession.emit, set_capture_state_logic_snapshots, Logic.push_snapshot], ?_⟩
    · simp only [LogicSnapshot.create, LogicSnapshot.append_payload]
      split <;> rfl
    · simp [SigSession.emit, hcnt]
  · intro ref hc
    rw [feed_in_logic_open s logic ld ref ha hl hc]
    refine ⟨by simp [SigSession.emit, store_update_length], by simp [SigSession.emit],
      fun snap hs => by simpa [SigSession.emit] using store_update_get _ _ _ _ hs,
      fun other ho => by simpa [SigSession.emit] using store_update_get_ne _ _ _ _ ho,
      by simp [SigSession.emit, hc], by simp [SigSession.emit, hl], by simp [SigSession.emit],
      by simp [SigSession.emit]⟩

/-- Witness for C10: the first logic packet of the capture on `logic_device`. -/
theorem feed_in_logic_snapshot_witness :
    capturing_session.cur_logic_snapshot = none ∧
    (data_feed_in capturing_session logic_device
      (Packet.LOGIC { unit_size := 1, samples := [1, 0, 1] })).logic_snapshots =
      [{ unit_size := 1, capacity := 1000, samples := [1, 0, 1] }] ∧
    (data_feed_in capturing_session logic_device
      (Packet.LOGIC { unit_size := 1, samples := [1, 0, 1] })).cur_logic_snapshot = some 0 ∧
    (data_feed_in capturing_session logic_device
      (Packet.LOGIC { unit_size := 1, samples := [1, 0, 1] })).logic_data =
      some { num_channels := 1, samplerate := 1000000, snapshots := [0] } :=
  by
    have h := (feed_in_logic_snapshot capturing_session logic_device logic_device
      { unit_size := 1, samples := [1, 0, 1] }
      { num_channels := 1, samplerate := 1000000, snapshots := [] } rfl rfl rfl).1 rfl
    exact ⟨rfl, h.1, h.2.2.1, h.2.2.2.1⟩

/-- C11, as stated, fails: in `awaiting_analog_session` the capture state is
`AwaitingTrigger`; when the loop of `feed_in_analog` has appended the three
samples of the first analog packet to the new snapshot, the capture state is
still `AwaitingTrigger`.  In program order the states of `feed_in_analog` are:
samples stored and `AwaitingTrigger`, then `Running`, then `Running` with
`data_received` emitted. -/
theorem analog_samples_stored_before_running :
    awaiting_analog_session.capture_state = .AwaitingTrigger ∧
    awaiting_analog_session.analog_snapshots = [] ∧
    (feed_in_analog_channels [5, 6, 7] 3 1 analog_device.channels 0
      (awaiting_analog_session, false)).1.analog_snapshots =
      [{ capacity := 1000, samples := [5, 6, 7] }] ∧
    (feed_in_analog_channels [5, 6, 7] 3 1 analog_device.channels 0
      (awaiting_analog_session, false)).1.capture_state = .AwaitingTrigger ∧
    (feed_in_analog_channels [5, 6, 7] 3 1 analog_device.channels 0
      (awaiting_analog_session, false)).2 = true ∧
    (feed_in_analog_states awaiting_analog_session first_analog_payload).map
        (fun t => (t.capture_state, t.analog_snapshots)) =
      [(capture_state.AwaitingTrigger, [{ capacity := 1000, samples := [5, 6, 7] }]),
       (capture_state.Running, [{ capacity := 1000, samples := [5, 6, 7] }]),
       (capture_state.Running, [{ capacity := 1000, samples := [5, 6, 7] }])] ∧
    (feed_in_analog_states awaiting_analog_session first_analog_payload).getLast? =
      some (data_feed_in awaiting_analog_session analog_device
        (Packet.ANALOG first_analog_payload)) := by
  decide

/-- C11, amended: for every data packet that begins a sweep the capture state
is `Running` when the dispatch of the packet returns, whatever it was before.
The order inside the handler is read off its program points, whose last state
is the result of the dispatch.  For a LOGIC packet the first program point is
the state after `set_capture_state(Running)`, with the snapshot store still as
on entry; the snapshot is created at the next point, and the capture state is
`Running` at every point.  For an ANALOG packet the program points of the
channel loop come first: the capture state is as on entry at each of them, and
the last of them already holds the samples of the packet; the state is set to
`Running` at the point after the loop, which changes no snapshot. -/
theorem data_packet_sets_running (s : SigSession) (device d : Device)
    (ha : s.aborted = false) (hd : s.device = some d) :
    (∀ logic ld, s.logic_data = some ld → s.cur_logic_snapshot = none →
      (feed_in_logic_states s logic).getLast? =
        some (data_feed_in s device (Packet.LOGIC logic)) ∧
      (feed_in_logic_states s logic).length = 4 ∧
      (feed_in_logic_states s logic)[0]? = some (set_capture_state s .Running) ∧
      (set_capture_state s .Running).capture_state = .Running ∧
      (set_capture_state s .Running).logic_snapshots = s.logic_snapshots ∧
      (∀ t ∈ feed_in_logic_states s logic, t.capture_state = .Running) ∧
      (∀ t ∈ (feed_in_logic_states s logic).drop 1,
        t.logic_snapshots =
          s.logic_snapshots ++ [LogicSnapshot.create logic d.limit_samples]) ∧
      (data_feed_in s device (Packet.LOGIC logic)).logic_snapshots =
        (set_capture_state s .Running).logic_snapshots ++
          [LogicSnapshot.create logic d.limit_samples] ∧
      (data_feed_in s device (Packet.LOGIC logic)).capture_state = .Running) ∧
    (∀ analog : AnalogPayload, analog.channels ≠ [] →
      (feed_in_analog_channels analog.data (analog.data.length / analog.channels.length)
        analog.channels.length analog.channels 0 (s, false)).1.aborted = false →
      (feed_in_analog_channels analog.data (analog.data.length / analog.channels.length)
        analog.channels.length analog.channels 0 (s, false)).2 = true →
      (feed_in_analog_states s analog).getLast? =
        some (data_feed_in s device (Packet.ANALOG analog)) ∧
      feed_in_analog_states s analog =
        feed_in_analog_channels_states analog.data
            (analog.data.length / analog.channels.length) analog.channels.length
            analog.channels 0 (s, false) ++
          [set_capture_state
              (feed_in_analog_channels analog.data
                (analog.data.length / analog.channels.length) analog.channels.length
                analog.channels 0 (s, false)).1 .Running,
            (set_capture_state
              (feed_in_analog_channels analog.data
                (analog.data.length / analog.channels.length) analog.channels.length
                analog.channels 0 (s, false)).1 .Running).emit Event.data_received] ∧
      (∀ t ∈ feed_in_analog_channels_states analog.data
            (analog.data.length / analog.channels.length) analog.channels.length
            analog.channels 0 (s, false),
        t.capture_state = s.capture_state) ∧
      (feed_in_analog_channels_states analog.data
          (analog.data.length / analog.channels.length) analog.channels.length
          analog.channels 0 (s, false)).getLast? =
        some (feed_in_analog_channels analog.data
          (analog.data.length / analog.channels.length) analog.channels.length
          analog.channels 0 (s, false)).1 ∧
      (feed_in_analog_channels analog.data (analog.data.length / analog.channels.length)
        analog.channels.length analog.channels 0 (s, false)).1.capture_state =
        s.capture_state ∧
      (set_capture_state
        (feed_in_analog_channels analog.data (analog.data.length / analog.channels.length)
          analog.channels.length analog.channels 0 (s, false)).1 .Running).analog_snapshots =
        (feed_in_analog_channels analog.data (analog.data.length / analog.channels.length)
          analog.channels.length analog.channels 0 (s, false)).1.analog_snapshots ∧
      (set_capture_state
        (feed_in_analog_channels analog.data (analog.data.length / analog.channels.length)
          analog.channels.length analog.channels 0 (s, false)).1 .Running).capture_state =
        .Running ∧
      (data_feed_in s device (Packet.ANALOG analog)).analog_snapshots =
        (feed_in_analog_channels analog.data (analog.data.length / analog.channels.length)
          analog.channels.length analog.channels 0 (s, false)).1.analog_snapshots ∧
      (data_feed_in s device (Packet.ANALOG analog)).capture_state = .Running) := by
  constructor
  · intro logic ld hl hc
    have hr := set_capture_state_capture_state s .Running ha
    have hst := feed_in_logic_states_first s logic ld d ha hl hd hc
    have hsnap := (set_capture_state_frame s .Running).2.2.2.2.2.2.2.2.1
    have hlast := feed_in_logic_states_last s logic ha
    have hdf : data_feed_in s device (Packet.LOGIC logic) = feed_in_logic s logic := by
      rw [data_feed_in_live s device _ ha]
    refine ⟨by rw [hdf]; exact hlast, by rw [hst]; rfl, by rw [hst]; rfl, hr, hsnap,
      ?_, ?_, ?_, ?_⟩
    · intro t ht
      rw [hst] at ht
      simp only [List.mem_cons, List.mem_singleton, List.not_mem_nil, or_false] at ht
      rcases ht with rfl | rfl | rfl | rfl
      · exact hr
      · exact hr
      · simpa [SigSession.emit] using hr
      · simpa [SigSession.emit] using hr
    · intro t ht
      rw [hst] at ht
      simp only [List.drop_succ_cons, List.drop_zero, List.mem_cons, List.mem_singleton,
        List.not_mem_nil, or_false] at ht
      rcases ht with rfl | rfl | rfl
      · simp [hsnap]
      · simp [SigSession.emit, hsnap]
      · simp [SigSession.emit, hsnap]
    · rw [hdf, feed_in_logic_first s logic ld d ha hl hd hc]
      simp [SigSession.emit]
    · rw [hdf, feed_in_logic_first s logic ld d ha hl hd hc]
      simp [SigSession.emit, hr]
  · intro analog hk hr hb
    have hf := feed_in_analog_channels_frame analog.data
      (analog.data.length / analog.channels.length) analog.channels.length analog.channels 0
      (s, false)
    have hk1 : analog.channels.length ≠ 0 := by
      intro h; exact hk (List.length_eq_zero.mp h)
    have hdf : data_feed_in s device (Packet.ANALOG analog) = feed_in_analog s analog := by
      rw [data_feed_in_live s device _ ha]
    refine ⟨by rw [hdf]; exact feed_in_analog_states_last s analog ha, ?_, ?_, ?_, hf.1,
      (set_capture_state_frame _ .Running).2.2.2.2.2.2.2.2.2,
      set_capture_state_capture_state _ _ hr, ?_, ?_⟩
    · simp [feed_in_analog_states, ha, hk1, hr, hb]
    · intro t ht
      exact feed_in_analog_channels_states_capture_state _ _ _ _ _ _ t ht
    · exact feed_in_analog_channels_states_last _ _ _ _ _ _ hk
    · rw [hdf, feed_in_analog_live s analog ha hk hr]
      simp [hb, SigSession.emit, set_capture_state_frame]
    · rw [hdf, feed_in_analog_live s analog ha hk hr]
      simp [hb, SigSession.emit, set_capture_state_capture_state _ _ hr]

/-- Witness for C11: the capture on `analog_device` that awaits its trigger. -/
theorem data_packet_sets_running_witness :
    awaiting_analog_session.capture_state = .AwaitingTrigger ∧
    (feed_in_analog_states awaiting_analog_session first_analog_payload).getLast? =
      some (data_feed_in awaiting_analog_session analog_device
        (Packet.ANALOG first_analog_payload)) ∧
    (∀ t ∈ feed_in_analog_channels_states first_analog_payload.data
          (first_analog_payload.data.length / first_analog_payload.channels.length)
          first_analog_payload.channels.length first_analog_payload.channels 0
          (awaiting_analog_session, false),
      t.capture_state = awaiting_analog_session.capture_state) ∧
    (data_feed_in awaiting_analog_session analog_device
      (Packet.ANALOG first_analog_payload)).capture_state = .Running := by
  have h := (data_packet_sets_running awaiting_analog_session analog_device analog_device
    rfl rfl).2 first_analog_payload (by decide) (by decide) (by decide)
  exact ⟨rfl, h.1, h.2.2.1, h.2.2.2.2.2.2.2.2⟩

/-- C12: starting with no open logic snapshot, two sequential sweeps
(FRAME_BEGIN, one or more LOGIC packets, END; twice) append exactly two
snapshot references to the Logic data object, in the order of the sweeps; the
two references are different; the first snapshot holds the payloads of the
first sweep and the second those of the second; and no packet delivered after
the first sweep, those of the second sweep included, changes the first
sweep's snapshot. -/
theorem two_sweeps_two_snapshots (s : SigSession) (device d : Device) (ld : Logic)
    (l1 l2 : LogicPayload) (ls1 ls2 : List LogicPayload) (ha : s.aborted = false)
    (hl : s.logic_data = some ld) (hd : s.device = some d)
    (hc : s.cur_logic_snapshot = none) :
    (sr_session_deliver s device (sweep_packets l1 ls1 ++ sweep_packets l2 ls2)).aborted =
      false ∧
    (sr_session_deliver s device (sweep_packets l1 ls1 ++ sweep_packets l2 ls2)).logic_data =
      some { ld with
        snapshots :=
          ld.snapshots ++ [s.logic_snapshots.length, s.logic_snapshots.length + 1] } ∧
    s.logic_snapshots.length ≠ s.logic_snapshots.length + 1 ∧
    (sr_session_deliver s device
        (sweep_packets l1 ls1 ++ sweep_packets l2 ls2)).logic_snapshots =
      s.logic_snapshots ++
        [(LogicSnapshot.create l1 d.limit_samples).append_payloads ls1,
          (LogicSnapshot.create l2 d.limit_samples).append_payloads ls2] ∧
    (sr_session_deliver s device (sweep_packets l1 ls1)).logic_snapshots =
      s.logic_snapshots ++ [(LogicSnapshot.create l1 d.limit_samples).append_payloads ls1] ∧
    (∀ later : List Packet,
      (sr_session_deliver (sr_session_deliver s device (sweep_packets l1 ls1)) device
          later).logic_snapshots[s.logic_snapshots.length]? =
        some ((LogicSnapshot.create l1 d.limit_samples).append_payloads ls1)) := by
  have h1 := sr_session_deliver_sweep s device d ld l1 ls1 ha hl hd hc
  have h2 := sr_session_deliver_sweep (sr_session_deliver s device (sweep_packets l1 ls1))
    device d (ld.push_snapshot s.logic_snapshots.length) l2 ls2 h1.1 h1.2.1 h1.2.2.1
    h1.2.2.2.1
  rw [sr_session_deliver_append]
  refine ⟨h2.1, ?_, by omega, ?_, h1.2.2.2.2, ?_⟩
  · rw [h2.2.1, h1.2.2.2.2]
    simp [Logic.push_snapshot]
  · rw [h2.2.2.2.2, h1.2.2.2.2]
    simp
  · intro later
    rw [sr_session_deliver_sealed _ device later s.logic_snapshots.length
      (by rw [h1.2.2.2.2]; simp) (by rw [h1.2.2.2.1]; simp)]
    rw [h1.2.2.2.2]
    simp

/-- Witness for C12: two sweeps of two and one logic packets on the idle
session on `logic_device`. -/
theorem two_sweeps_two_snapshots_witness :
    (sr_session_deliver logic_session logic_device
      (sweep_packets { unit_size := 1, samples := [1, 0] } [{ unit_size := 1, samples := [1] }]
        ++ sweep_packets { unit_size := 1, samples := [0, 0] } [])).logic_data =
      some { num_channels := 1, samplerate := 0, snapshots := [0, 1] } ∧
    (sr_session_deliver logic_session logic_device
      (sweep_packets { unit_size := 1, samples := [1, 0] } [{ unit_size := 1, samples := [1] }]
        ++ sweep_packets { unit_size := 1, samples := [0, 0] } [])).logic_snapshots =
      [{ unit_size := 1, capacity := 1000, samples := [1, 0, 1] },
        { unit_size := 1, capacity := 1000, samples := [0, 0] }] := by
  have h := two_sweeps_two_snapshots logic_session logic_device logic_device
    { num_channels := 1, samplerate := 0, snapshots := [] }
    { unit_size := 1, samples := [1, 0] } { unit_size := 1, samples := [0, 0] }
    [{ unit_size := 1, samples := [1] }] [] rfl rfl rfl rfl
  exact ⟨h.2.1, h.2.2.2.1⟩

/-- C13: dispatching a FRAME_BEGIN packet emits `frame_began`, once, exactly when
a logic snapshot is open or the analog snapshot map is not empty, and changes
nothing else in the session: capture state, data objects and snapshots are as
before. -/
theorem data_feed_in_frame_begin (s : SigSession) (device : Device)
    (ha : s.aborted = false) :
    ((s.cur_logic_snapshot.isSome || !s.cur_analog_snapshots.isEmpty) = true →
      data_feed_in s device Packet.FRAME_BEGIN = s.emit Event.frame_began) ∧
    ((s.cur_logic_snapshot.isSome || !s.cur_analog_snapshots.isEmpty) = false →
      data_feed_in s device Packet.FRAME_BEGIN = s) ∧
    ((data_feed_in s device Packet.FRAME_BEGIN).log.count Event.frame_began =
        s.log.count Event.frame_began + 1 ↔
      (s.cur_logic_snapshot ≠ none ∨ s.cur_analog_snapshots ≠ [])) ∧
    (data_feed_in s device Packet.FRAME_BEGIN).capture_state = s.capture_state ∧
    (data_feed_in s device Packet.FRAME_BEGIN).cur_logic_snapshot = s.cur_logic_snapshot ∧
    (data_feed_in s device Packet.FRAME_BEGIN).cur_analog_snapshots =
      s.cur_analog_snapshots ∧
    (data_feed_in s device Packet.FRAME_BEGIN).logic_data = s.logic_data ∧
    (data_feed_in s device Packet.FRAME_BEGIN).signals = s.signals ∧
    (data_feed_in s device Packet.FRAME_BEGIN).logic_snapshots = s.logic_snapshots ∧
    (data_feed_in s device Packet.FRAME_BEGIN).analog_snapshots = s.analog_snapshots := by
  by_cases hc : (s.cur_logic_snapshot.isSome || !s.cur_analog_snapshots.isEmpty) = true
  · have e : data_feed_in s device Packet.FRAME_BEGIN = s.emit Event.frame_began := by
      simp [data_feed_in, feed_in_frame_begin, ha, hc]
    have h1 : (s.cur_logic_snapshot.isSome || !s.cur_analog_snapshots.isEmpty) = false →
        data_feed_in s device Packet.FRAME_BEGIN = s := by
      intro h; rw [hc] at h; cases h
    have h2 : s.cur_logic_snapshot ≠ none ∨ s.cur_analog_snapshots ≠ [] := by
      simp only [Bool.or_eq_true, Bool.not_eq_true', Option.isSome_iff_ne_none] at hc
      rcases hc with h | h
      · exact Or.inl h
      · right; intro h3; rw [h3] at h; simp at h
    refine ⟨fun _ => e, h1, ?_, ?_⟩
    · rw [e]
      simp [SigSession.emit, h2]
    · rw [e]
      simp [SigSession.emit]
  · simp only [Bool.not_eq_true] at hc
    have e : data_feed_in s device Packet.FRAME_BEGIN = s := by
      simp [data_feed_in, feed_in_frame_begin, ha, hc]
    have h1 : (s.cur_logic_snapshot.isSome || !s.cur_analog_snapshots.isEmpty) = true →
        data_feed_in s device Packet.FRAME_BEGIN = s.emit Event.frame_began := by
      intro h; rw [hc] at h; cases h
    have h2 : ¬ (s.cur_logic_snapshot ≠ none ∨ s.cur_analog_snapshots ≠ []) := by
      simp only [Bool.or_eq_false_iff, Bool.not_eq_false'] at hc
      intro h
      rcases h with h | h
      · cases hx : s.cur_logic_snapshot with
        | none => exact h hx
        | some x => rw [hx] at hc; simp at hc
      · cases hx : s.cur_analog_snapshots with
        | nil => exact h hx
        | cons x xs => rw [hx] at hc; simp at hc
    refine ⟨h1, fun _ => e, ?_, ?_⟩
    · rw [e]
      constructor
      · intro h; omega
      · intro h; exact absurd h h2
    · rw [e]
      simp

/-- Witness for C13: a FRAME_BEGIN packet while the logic snapshot of the capture
on `logic_device` is open. -/
theorem data_feed_in_frame_begin_witness :
    (worker_step capturing_session).cur_logic_snapshot = some 0 ∧
    data_feed_in (worker_step capturing_session) logic_device Packet.FRAME_BEGIN =
      (worker_step capturing_session).emit Event.frame_began ∧
    data_feed_in capturing_session logic_device Packet.FRAME_BEGIN = capturing_session :=
  ⟨rfl, (data_feed_in_frame_begin (worker_step capturing_session) logic_device rfl).1 rfl,
    (data_feed_in_frame_begin capturing_session logic_device rfl).2.1 rfl⟩

/-- C14: dispatching a META packet, whatever configuration entries it carries,
fails no assertion and reports no error: it emits `signals_changed` and leaves
the capture state, the device, the signals list, the data objects and all
snapshots unchanged. -/
theorem data_feed_in_meta (s : SigSession) (device : Device) (config : List (Nat × Nat))
    (ha : s.aborted = false) :
    data_feed_in s device (Packet.META config) = s.emit Event.signals_changed ∧
    (data_feed_in s device (Packet.META config)).aborted = false ∧
    (data_feed_in s device (Packet.META config)).log = s.log ++ [Event.signals_changed] ∧
    (data_feed_in s device (Packet.META config)).capture_state = s.capture_state ∧
    (data_feed_in s device (Packet.META config)).device = s.device ∧
    (data_feed_in s device (Packet.META config)).signals = s.signals ∧
    (data_feed_in s device (Packet.META config)).logic_data = s.logic_data ∧
    (data_feed_in s device (Packet.META config)).cur_logic_snapshot = s.cur_logic_snapshot ∧
    (data_feed_in s device (Packet.META config)).cur_analog_snapshots =
      s.cur_analog_snapshots ∧
    (data_feed_in s device (Packet.META config)).logic_snapshots = s.logic_snapshots ∧
    (data_feed_in s device (Packet.META config)).analog_snapshots = s.analog_snapshots := by
  have e : data_feed_in s device (Packet.META config) = s.emit Event.signals_changed := by
    simp [data_feed_in, feed_in_meta, ha]
  rw [e]
  simp [SigSession.emit, ha]

/-- Witness for C14: a META packet with a sample-rate entry and an unknown key,
during the capture on `logic_device`. -/
theorem data_feed_in_meta_witness :
    data_feed_in capturing_session logic_device (Packet.META [(30000, 1000), (99999, 7)]) =
      capturing_session.emit Event.signals_changed ∧
    (data_feed_in capturing_session logic_device
      (Packet.META [(30000, 1000), (99999, 7)])).capture_state = .Running :=
  ⟨(data_feed_in_meta capturing_session logic_device [(30000, 1000), (99999, 7)] rfl).1,
    (data_feed_in_meta capturing_session logic_device [(30000, 1000), (99999, 7)] rfl).2.2.2.1⟩

/-- C15: for an ANALOG packet carrying `k >= 1` distinct channels, each of which
has an analog signal in the session, dispatched in a live session with a
device and a valid snapshot map.  The dispatch fails no assertion.  A channel
with an open snapshot keeps its reference and nothing is pushed onto its
Analog data; a channel without one gets a new snapshot, sized to the device's
sample limit, whose reference is recorded in the map and appended to the
channel's own Analog data.  The store grows by exactly one snapshot per
channel that had none.  Afterwards every channel of the packet is a key of
the map, and the snapshot of the i-th channel has received
`append_interleaved_samples` with offset `i`, `num_samples / k` samples and
stride `k`.  `data_received` is emitted once. -/
theorem feed_in_analog_spec (s : SigSession) (device d : Device) (analog : AnalogPayload)
    (ha : s.aborted = false) (hd : s.device = some d) (hk : analog.channels ≠ [])
    (hnd : (analog.channels.map (fun c => c.id)).Nodup)
    (hsig : ∀ c ∈ analog.channels, (analog_data_of s.signals c.id).isSome = true)
    (hv : s.analog_map_valid) :
    (data_feed_in s device (Packet.ANALOG analog)).aborted = false ∧
    (data_feed_in s device (Packet.ANALOG analog)).analog_map_valid ∧
    (data_feed_in s device (Packet.ANALOG analog)).analog_snapshots.length =
      s.analog_snapshots.length +
        (analog.channels.filter
          (fun c => (map_find s.cur_analog_snapshots c.id).isNone)).length ∧
    (∀ c ∈ analog.channels, ∃ ref,
      map_find (data_feed_in s device (Packet.ANALOG analog)).cur_analog_snapshots c.id =
        some ref) ∧
    (∀ i c ref, analog.channels[i]? = some c →
      map_find s.cur_analog_snapshots c.id = some ref →
      map_find (data_feed_in s device (Packet.ANALOG analog)).cur_analog_snapshots c.id =
        some ref ∧
      (data_feed_in s device (Packet.ANALOG analog)).analog_snapshots[ref]? =
        (s.analog_snapshots[ref]?).map
          (fun snap => snap.append_interleaved_samples analog.data i
            (analog.data.length / analog.channels.length) analog.channels.length) ∧
      analog_data_of (data_feed_in s device (Packet.ANALOG analog)).signals c.id =
        analog_data_of s.signals c.id) ∧
    (∀ i c, analog.channels[i]? = some c →
      map_find s.cur_analog_snapshots c.id = none →
      ∃ ref, s.analog_snapshots.length ≤ ref ∧
        map_find (data_feed_in s device (Packet.ANALOG analog)).cur_analog_snapshots c.id =
          some ref ∧
        (data_feed_in s device (Packet.ANALOG analog)).analog_snapshots[ref]? =
          some (AnalogSnapshot.append_interleaved_samples
            { capacity := d.limit_samples, samples := [] } analog.data i
            (analog.data.length / analog.channels.length) analog.channels.length) ∧
        analog_data_of (data_feed_in s device (Packet.ANALOG analog)).signals c.id =
          (analog_data_of s.signals c.id).map (fun a => a.push_snapshot ref)) ∧
    (data_feed_in s device (Packet.ANALOG analog)).log.count Event.data_received =
      s.log.count Event.data_received + 1 := by
  obtain ⟨i1, i2, i3, _, _, i6, i7, i8⟩ := feed_in_analog_channels_spec analog.data
    (analog.data.length / analog.channels.length) analog.channels.length d analog.channels 0 s
    false ha hd hnd hsig hv
  obtain ⟨f1, f2, f3, f4, f5⟩ := feed_in_analog_fields s analog ha hk i1
  have e : data_feed_in s device (Packet.ANALOG analog) = feed_in_analog s analog := by
    rw [data_feed_in_live s device _ ha]
  rw [e]
  have hopen : ∀ i c ref, analog.channels[i]? = some c →
      map_find s.cur_analog_snapshots c.id = some ref →
      map_find (feed_in_analog s analog).cur_analog_snapshots c.id = some ref ∧
      (feed_in_analog s analog).analog_snapshots[ref]? =
        (s.analog_snapshots[ref]?).map
          (fun snap => snap.append_interleaved_samples analog.data i
            (analog.data.length / analog.channels.length) analog.channels.length) ∧
      analog_data_of (feed_in_analog s analog).signals c.id =
        analog_data_of s.signals c.id := by
    intro i c ref hi hm
    have h := i6 i c ref hi hm
    rw [Nat.zero_add] at h
    rw [f2, f3, f4]
    exact h
  have hnew : ∀ i c, analog.channels[i]? = some c →
      map_find s.cur_analog_snapshots c.id = none →
      ∃ ref, s.analog_snapshots.length ≤ ref ∧
        map_find (feed_in_analog s analog).cur_analog_snapshots c.id = some ref ∧
        (feed_in_analog s analog).analog_snapshots[ref]? =
          some (AnalogSnapshot.append_interleaved_samples
            { capacity := d.limit_samples, samples := [] } analog.data i
            (analog.data.length / analog.channels.length) analog.channels.length) ∧
        analog_data_of (feed_in_analog s analog).signals c.id =
          (analog_data_of s.signals c.id).map (fun a => a.push_snapshot ref) := by
    intro i c hi hm
    obtain ⟨ref, h1, h2, h3, h4⟩ := i7 i c hi hm
    rw [Nat.zero_add] at h3
    rw [f2, f3, f4]
    exact ⟨ref, h1, h2, h3, h4⟩
  refine ⟨f1, ?_, by rw [f3]; exact i3, ?_, hopen, hnew, by rw [f5, i8]⟩
  · unfold SigSession.analog_map_valid at i2 ⊢
    rw [f2, f3]
    exact i2
  · intro c hc
    obtain ⟨i, hi⟩ := List.mem_iff_getElem?.mp hc
    cases hm : map_find s.cur_analog_snapshots c.id with
    | some ref => exact ⟨ref, (hopen i c ref hi hm).1⟩
    | none =>
      obtain ⟨ref, _, h2, _⟩ := hnew i c hi hm
      exact ⟨ref, h2⟩

/-- Witness for C15: in `half_open_session` the channel "A0" has an open
snapshot holding `[1, 2]` and "A1" has none; a packet for both channels with
the interleaved data `[10, 20, 11, 21]` appends `[10, 11]` to the snapshot of
"A0" and creates the snapshot `[20, 21]` for "A1". -/
theorem feed_in_analog_spec_witness :
    half_open_session.cur_analog_snapshots = [(0, 0)] ∧
    half_open_session.analog_snapshots = [{ capacity := 1000, samples := [1, 2] }] ∧
    (data_feed_in half_open_session two_analog_device
      (Packet.ANALOG { channels := two_analog_device.channels,
                       data := [10, 20, 11, 21] })).aborted = false ∧
    (data_feed_in half_open_session two_analog_device
      (Packet.ANALOG { channels := two_analog_device.channels,
                       data := [10, 20, 11, 21] })).analog_snapshots.length = 2 ∧
    (data_feed_in half_open_session two_analog_device
      (Packet.ANALOG { channels := two_analog_device.channels,
                       data := [10, 20, 11, 21] })).analog_snapshots =
      [{ capacity := 1000, samples := [1, 2, 10, 11] },
        { capacity := 1000, samples := [20, 21] }] ∧
    (data_feed_in half_open_session two_analog_device
      (Packet.ANALOG { channels := two_analog_device.channels,
                       data := [10, 20, 11, 21] })).cur_analog_snapshots = [(0, 0), (1, 1)] := by
  have h := feed_in_analog_spec half_open_session two_analog_device two_analog_device
    { channels := two_analog_device.channels, data := [10, 20, 11, 21] } rfl rfl (by decide)
    (by decide) (by decide)
    ⟨by decide, by decide⟩
  exact ⟨by decide, by decide, h.1, h.2.2.1, by decide, by decide⟩

/-- C16, as stated, fails: after a capture on `analog_device` whose run ended
without an end packet, `set_device` with `logic_device` returns with the old
channel still mapped to its open analog snapshot. -/
theorem set_device_keeps_open_snapshot :
    analog_unended_session.aborted = false ∧
    analog_unended_session.capture_state = .Stopped ∧
    analog_unended_session.sampling_thread = none ∧
    analog_unended_session.cur_analog_snapshots = [(0, 0)] ∧
    (set_device analog_unended_session (some logic_device)).aborted = false ∧
    (set_device analog_unended_session (some logic_device)).device = some logic_device ∧
    (set_device analog_unended_session (some logic_device)).cur_analog_snapshots =
      [(0, 0)] := by
  decide

/-- C16, amended: after `set_device(d)` with a non-null device returns, from
every consistent session: the capture state is `Stopped`, the previous device
(if any) was closed, the decode-trace list is empty, the device is `d`, and the
signals list has one signal per channel of `d`, in channel order, each holding
its channel.  The current snapshot references are not touched by `set_device`:
they are what the implicit `stop_capture` left, so none remains exactly when
none was open then. -/
theorem set_device_result (s : SigSession) (d : Device) (hc : s.consistent)
    (hb : (stop_capture s).aborted = false) :
    (set_device s (some d)).aborted = false ∧
    (set_device s (some d)).capture_state = .Stopped ∧
    (set_device s (some d)).log =
      (stop_capture s).log ++
        (match s.device with
          | some old =>
            [Event.device_close old.id, Event.sr_session_remove_devices,
              Event.sr_session_remove_datafeed_callbacks]
          | none => []) ++
        [Event.sr_session_add_device d.id, Event.sr_session_add_datafeed_callback,
          Event.signals_changed] ∧
    (set_device s (some d)).device = some d ∧
    (set_device s (some d)).decode_traces = [] ∧
    (set_device s (some d)).signals.map Signal.channel = d.channels ∧
    (set_device s (some d)).signals.length = d.channels.length ∧
    (set_device s (some d)).cur_logic_snapshot = (stop_capture s).cur_logic_snapshot ∧
    (set_device s (some d)).cur_analog_snapshots = (stop_capture s).cur_analog_snapshots ∧
    (s.capture_state = .Stopped → s.sampling_thread = none →
      (set_device s (some d)).cur_logic_snapshot = s.cur_logic_snapshot ∧
      (set_device s (some d)).cur_analog_snapshots = s.cur_analog_snapshots) := by
  have ha : s.aborted = false := by
    cases hx : s.aborted with
    | false => rfl
    | true => rw [stop_capture_of_aborted s hx, hx] at hb; cases hb
  have hs := stop_capture_stopped s hc hb
  have hdv := stop_capture_device s
  have hmap : ∀ l : List Channel,
      List.map Signal.channel
        (List.map (fun channel =>
          match channel.type with
          | .LOGIC => Signal.logic channel
          | .ANALOG => Signal.analog channel { samplerate := 0, snapshots := [] }) l) = l := by
    intro l
    induction l with
    | nil => rfl
    | cons c cs ih =>
      simp only [List.map_cons, ih]
      cases hct : c.type <;> simp [Signal.channel]
  have key : (set_device s (some d)).cur_logic_snapshot = (stop_capture s).cur_logic_snapshot ∧
      (set_device s (some d)).cur_analog_snapshots = (stop_capture s).cur_analog_snapshots := by
    cases hd : s.device <;> rw [hd] at hdv <;>
      simp [set_device, update_signals, ha, hb, hs, hdv, SigSession.emit]
  refine ⟨?_, ?_, ?_, ?_, ?_, ?_, ?_, key.1, key.2, ?_⟩
  · cases hd : s.device <;> rw [hd] at hdv <;>
      simp [set_device, update_signals, ha, hb, hs, hdv, SigSession.emit]
  · cases hd : s.device <;> rw [hd] at hdv <;>
      simp [set_device, update_signals, ha, hb, hs, hdv, SigSession.emit]
  · cases hd : s.device <;> rw [hd] at hdv <;>
      simp [set_device, update_signals, ha, hb, hs, hdv, SigSession.emit]
  · cases hd : s.device <;> rw [hd] at hdv <;>
      simp [set_device, update_signals, ha, hb, hs, hdv, SigSession.emit]
  · cases hd : s.device <;> rw [hd] at hdv <;>
      simp [set_device, update_signals, ha, hb, hs, hdv, SigSession.emit]
  · cases hd : s.device <;> rw [hd] at hdv <;>
      simp only [set_device, update_signals, ha, hb, hs, hdv, SigSession.emit] <;>
      simp [hmap]
  · cases hd : s.device <;> rw [hd] at hdv <;>
      simp [set_device, update_signals, ha, hb, hs, hdv, SigSession.emit]
  · intro hst hth
    rw [key.1, key.2, stop_capture_quiescent s hst hth]
    exact ⟨rfl, rfl⟩

/-- Witness for C16: switching from `logic_device` to `analog_device` while the
capture on `logic_device` is in progress. -/
theorem set_device_result_witness :
    capturing_session.consistent ∧
    (set_device capturing_session (some analog_device)).aborted = false ∧
    (set_device capturing_session (some analog_device)).capture_state = .Stopped ∧
    (set_device capturing_session (some analog_device)).device = some analog_device ∧
    (set_device capturing_session (some analog_device)).decode_traces = [] ∧
    (set_device capturing_session (some analog_device)).signals.map Signal.channel =
      analog_device.channels ∧
    (set_device capturing_session (some analog_device)).cur_logic_snapshot = none := by
  have h := set_device_result capturing_session analog_device (fun _ _ => ⟨_, _, rfl⟩)
    (by decide)
  exact ⟨fun _ _ => ⟨_, _, rfl⟩, h.1, h.2.1, h.2.2.2.1, h.2.2.2.2.1, h.2.2.2.2.2.1, by decide⟩

/-- C17: `Decoder::have_required_channels` is a total function (the loop
ends when the list does).  It returns true exactly when every channel of the
decoder definition's required list is a key of the channel map; its result
does not change with the optional-channel list nor with a binding added for
a key that is no required channel; and when exactly one required channel is
missing the result is false, and true once a binding for it is added. -/
theorem have_required_channels_spec (d : Decoder) :
    (d.have_required_channels = true ↔
      ∀ pdch ∈ d.decoder.channels, ∃ sig, map_find d.channels pdch.ptr = some sig) ∧
    (∀ opt : List srd_channel,
      ({ d with decoder := { d.decoder with opt_channels := opt } }
        : Decoder).have_required_channels = d.have_required_channels) ∧
    (∀ key sig, (∀ pdch ∈ d.decoder.channels, pdch.ptr ≠ key) →
      (d.set_channels (map_set d.channels key sig)).have_required_channels =
        d.have_required_channels) ∧
    (∀ missing sig, missing ∈ d.decoder.channels →
      map_find d.channels missing.ptr = none →
      (∀ pdch ∈ d.decoder.channels, pdch.ptr ≠ missing.ptr →
        ∃ bound, map_find d.channels pdch.ptr = some bound) →
      d.have_required_channels = false ∧
      (d.set_channels (map_set d.channels missing.ptr sig)).have_required_channels = true) := by
  have hiff : ∀ m : List (Nat × Nat), have_required_channels_from m d.decoder.channels = true ↔
      ∀ pdch ∈ d.decoder.channels, ∃ sig, map_find m pdch.ptr = some sig := by
    intro m
    rw [have_required_channels_from_iff]
    simp only [Option.isSome_iff_exists]
  refine ⟨hiff d.channels, fun _ => rfl, ?_, ?_⟩
  · intro key sig hkey
    have h1 := hiff d.channels
    have h2 := hiff (map_set d.channels key sig)
    have h3 : (∀ pdch ∈ d.decoder.channels,
        ∃ b, map_find (map_set d.channels key sig) pdch.ptr = some b) ↔
        (∀ pdch ∈ d.decoder.channels, ∃ b, map_find d.channels pdch.ptr = some b) := by
      constructor
      · intro h pdch hp
        obtain ⟨b, hb⟩ := h pdch hp
        rw [map_find_set] at hb
        simp only [hkey pdch hp, if_false] at hb
        exact ⟨b, hb⟩
      · intro h pdch hp
        obtain ⟨b, hb⟩ := h pdch hp
        refine ⟨b, ?_⟩
        rw [map_find_set]
        simp only [hkey pdch hp, if_false]
        exact hb
    show have_required_channels_from (map_set d.channels key sig) d.decoder.channels =
      have_required_channels_from d.channels d.decoder.channels
    cases hx : have_required_channels_from d.channels d.decoder.channels with
    | true => exact h2.mpr (h3.mpr (h1.mp hx))
    | false =>
      cases hy : have_required_channels_from (map_set d.channels key sig)
          d.decoder.channels with
      | false => rfl
      | true => rw [h1.mpr (h3.mp (h2.mp hy))] at hx; cases hx
  · intro missing sig hmem hnone hothers
    constructor
    · cases hx : d.have_required_channels with
      | false => rfl
      | true =>
        obtain ⟨b, hb⟩ := (hiff d.channels).mp hx missing hmem
        rw [hnone] at hb; cases hb
    · apply (hiff (map_set d.channels missing.ptr sig)).mpr
      intro pdch hp
      rw [map_find_set]
      by_cases he : pdch.ptr = missing.ptr
      · exact ⟨sig, by simp [he]⟩
      · obtain ⟨b, hb⟩ := hothers pdch hp he
        exact ⟨b, by simp [he, hb]⟩

/-- Witness for C17: the decoder attached to `bus_session` lacks its clock
channel; binding it makes the required channels complete. -/
theorem have_required_channels_spec_witness :
    (((Decoder.create i2c_decoder).set_channels [(101, 1)]).have_required_channels = false) ∧
    ((((Decoder.create i2c_decoder).set_channels [(101, 1)]).set_channels
      (map_set [(101, 1)] 100 0)).have_required_channels = true) :=
  (have_required_channels_spec ((Decoder.create i2c_decoder).set_channels [(101, 1)])).2.2.2
    scl_channel 0 (by decide) (by decide)
    (by
      intro pdch hp hne
      simp only [Decoder.set_channels, Decoder.create, i2c_decoder, List.mem_cons,
        List.mem_singleton, List.not_mem_nil, or_false] at hp
      rcases hp with hp | hp
      · rw [hp] at hne; exact absurd rfl hne
      · rw [hp]; exact ⟨1, by decide⟩)

/-- C18, as stated, fails: in `bus_session` the logic signals "SDA" (position
0) and "A" (position 1) both match the decoder channel "SDA"; `add_decoder`
binds the channel to position 1, the last match, not to the first. -/
theorem add_decoder_binds_last_signal :
    bus_session.signals[0]?.map (probe_matches sda_channel) = some true ∧
    bus_session.signals[1]?.map (probe_matches sda_channel) = some true ∧
    (add_decoder bus_session i2c_decoder 500 false).1.decode_traces =
      [{ id := 500, index := 0,
         decoder_stack :=
          [{ decoder := i2c_decoder, shown := true, channels := [(101, 1)],
             options := [] }] }] ∧
    map_find [(101, 1)] sda_channel.ptr = some 1 := by
  decide

/-- C18, amended: `add_decoder` gives the decoder the map computed by the
auto-selection loops.  For every decoder channel (required or optional) for
which some signal matches, that is a logic signal whose lower-cased name is
contained in the lower-cased channel name, the channel is bound to the last
such signal in the session's signal order.  Replacing signal names or decoder
channel names by names with the same lower-case form gives the same map. -/
theorem add_decoder_binds_last_match (s : SigSession) (dec : srd_decoder) (trace_ptr : Nat)
    (ha : s.aborted = false)
    (hwf : ∀ a ∈ dec.channels ++ dec.opt_channels, ∀ b ∈ dec.channels ++ dec.opt_channels,
      a.ptr = b.ptr → a.name = b.name) :
    (add_decoder s dec trace_ptr false).2 = true ∧
    (add_decoder s dec trace_ptr false).1.decode_traces =
      s.decode_traces ++
        [{ id := trace_ptr, index := s.decode_traces.length,
           decoder_stack :=
            [(Decoder.create dec).set_channels
              (auto_select_probes s.signals (dec.channels ++ dec.opt_channels) [])] }] ∧
    (∀ pdch ∈ dec.channels ++ dec.opt_channels, ∀ pre sig post,
      s.signals = pre ++ sig :: post → probe_matches pdch sig = true →
      (∀ later ∈ post, probe_matches pdch later = false) →
      map_find (auto_select_probes s.signals (dec.channels ++ dec.opt_channels) []) pdch.ptr =
        some pre.length) ∧
    (∀ pdch ∈ dec.channels ++ dec.opt_channels,
      (∃ sig ∈ s.signals, probe_matches pdch sig = true) →
      ∃ pre sig post, s.signals = pre ++ sig :: post ∧ probe_matches pdch sig = true ∧
        (∀ later ∈ post, probe_matches pdch later = false) ∧
        map_find (auto_select_probes s.signals (dec.channels ++ dec.opt_channels) [])
          pdch.ptr = some pre.length) ∧
    (∀ (signals : List Signal) (channels : List srd_channel),
      List.Forall₂ (fun x y : Signal => x.is_logic = y.is_logic ∧
        qstring_toLower x.get_name = qstring_toLower y.get_name) s.signals signals →
      List.Forall₂ (fun a b : srd_channel => a.ptr = b.ptr ∧
        qstring_toLower a.name = qstring_toLower b.name)
        (dec.channels ++ dec.opt_channels) channels →
      auto_select_probes signals channels [] =
        auto_select_probes s.signals (dec.channels ++ dec.opt_channels) []) := by
  have e := add_decoder_live s dec trace_ptr ha
  have hlast : ∀ pdch ∈ dec.channels ++ dec.opt_channels, ∀ pre sig post,
      s.signals = pre ++ sig :: post → probe_matches pdch sig = true →
      (∀ later ∈ post, probe_matches pdch later = false) →
      map_find (auto_select_probes s.signals (dec.channels ++ dec.opt_channels) []) pdch.ptr =
        some pre.length := by
    intro pdch hp pre sig post hs hm hpost
    exact auto_select_probes_matched s.signals _ [] pdch pre sig post hs hm hpost
      (fun a ha1 hptr => hwf a ha1 pdch hp hptr) (Or.inl hp)
  refine ⟨by rw [e], by rw [e]; rfl, hlast, ?_, ?_⟩
  · intro pdch hp hex
    obtain ⟨pre, sig, post, hs, hm, hpost⟩ := exists_last_match (probe_matches pdch) s.signals hex
    exact ⟨pre, sig, post, hs, hm, hpost, hlast pdch hp pre sig post hs hm hpost⟩
  · intro signals channels hs hc
    exact (auto_select_probes_case _ _ _ _ [] hc hs).symm

/-- Witness for C18: attaching `i2c_decoder` to `bus_session` binds "SDA" to
the signal at position 1. -/
theorem add_decoder_binds_last_match_witness :
    (add_decoder bus_session i2c_decoder 500 false).2 = true ∧
    map_find
      (auto_select_probes bus_session.signals (i2c_decoder.channels ++ i2c_decoder.opt_channels)
        []) sda_channel.ptr = some 1 := by
  have h := add_decoder_binds_last_match bus_session i2c_decoder 500 rfl (by decide)
  exact ⟨h.1, h.2.2.1 sda_channel (by decide)
    [Signal.logic { id := 0, name := "SDA", type := .LOGIC, enabled := true }]
    (Signal.logic { id := 1, name := "A", type := .LOGIC, enabled := true })
    [Signal.analog { id := 2, name := "DA", type := .ANALOG, enabled := true }
      { samplerate := 0, snapshots := [] }]
    (by decide) (by decide) (by decide)⟩

/-- C19: after `add_decoder` has attached a decoder, every decoder channel
that no signal matches is absent from the map given to the decoder; so if some
required channel has no matching signal, `have_required_channels` of the
attached decoder is false; and every entry of the map names a logic signal of
the session, never an analog one. -/
theorem add_decoder_unmatched_unbound (s : SigSession) (dec : srd_decoder) (trace_ptr : Nat)
    (ha : s.aborted = false)
    (hwf : ∀ a ∈ dec.channels ++ dec.opt_channels, ∀ b ∈ dec.channels ++ dec.opt_channels,
      a.ptr = b.ptr → a.name = b.name) :
    (add_decoder s dec trace_ptr false).1.decode_traces =
      s.decode_traces ++
        [{ id := trace_ptr, index := s.decode_traces.length,
           decoder_stack :=
            [(Decoder.create dec).set_channels
              (auto_select_probes s.signals (dec.channels ++ dec.opt_channels) [])] }] ∧
    (∀ pdch ∈ dec.channels ++ dec.opt_channels,
      (∀ sig ∈ s.signals, probe_matches pdch sig = false) →
      map_find (auto_select_probes s.signals (dec.channels ++ dec.opt_channels) []) pdch.ptr =
        none) ∧
    ((∃ pdch ∈ dec.channels, ∀ sig ∈ s.signals, probe_matches pdch sig = false) →
      ((Decoder.create dec).set_channels
        (auto_select_probes s.signals (dec.channels ++ dec.opt_channels)
          [])).have_required_channels = false) ∧
    (∀ e ∈ auto_select_probes s.signals (dec.channels ++ dec.opt_channels) [],
      ∃ sig, s.signals[e.2]? = some sig ∧ sig.is_logic = true) := by
  have e := add_decoder_live s dec trace_ptr ha
  have hun : ∀ pdch ∈ dec.channels ++ dec.opt_channels,
      (∀ sig ∈ s.signals, probe_matches pdch sig = false) →
      map_find (auto_select_probes s.signals (dec.channels ++ dec.opt_channels) []) pdch.ptr =
        none := by
    intro pdch hp hno
    rw [auto_select_probes_unmatched s.signals _ [] pdch
      (fun a ha1 hptr => hwf a ha1 pdch hp hptr) hno]
    rfl
  refine ⟨by rw [e]; rfl, hun, ?_, ?_⟩
  · intro hex
    obtain ⟨pdch, hp, hno⟩ := hex
    have hnone := hun pdch (List.mem_append_left _ hp) hno
    cases hx : ((Decoder.create dec).set_channels
        (auto_select_probes s.signals (dec.channels ++ dec.opt_channels)
          [])).have_required_channels with
    | false => rfl
    | true =>
      have h1 := (have_required_channels_from_iff _ _).mp hx pdch hp
      simp only [Decoder.set_channels, Decoder.create] at h1
      rw [hnone] at h1
      cases h1
  · exact auto_select_probes_logic s.signals _ [] (fun e he => by cases he)

/-- Witness for C19: in `bus_session` no signal matches "SCL", so the decoder
attached by `add_decoder` lacks a required channel. -/
theorem add_decoder_unmatched_unbound_witness :
    map_find
      (auto_select_probes bus_session.signals (i2c_decoder.channels ++ i2c_decoder.opt_channels)
        []) scl_channel.ptr = none ∧
    ((Decoder.create i2c_decoder).set_channels
      (auto_select_probes bus_session.signals
        (i2c_decoder.channels ++ i2c_decoder.opt_channels) [])).have_required_channels =
      false := by
  have h := add_decoder_unmatched_unbound bus_session i2c_decoder 500 rfl (by decide)
  exact ⟨h.2.1 scl_channel (by decide) (by decide),
    h.2.2.1 ⟨scl_channel, by decide, by decide⟩⟩

/-- C20: `remove_decode_signal(t)` removes the first trace whose address is
`t` and no other, keeps the remaining traces in their order, and leaves the
signals list, the Logic and Analog data, the snapshots, the device and the
capture state unchanged; `signals_changed` is emitted once when a trace was
removed; if no trace has the address `t` the session is unchanged, so nothing
is emitted. -/
theorem remove_decode_signal_spec (s : SigSession) (t : Nat) (ha : s.aborted = false) :
    ((∀ tr ∈ s.decode_traces, tr.id ≠ t) → remove_decode_signal s t = s) ∧
    (∀ pre tr post, s.decode_traces = pre ++ tr :: post → tr.id = t →
      (∀ x ∈ pre, x.id ≠ t) →
      remove_decode_signal s t =
        ({ s with decode_traces := pre ++ post } : SigSession).emit Event.signals_changed) ∧
    List.Sublist (remove_decode_signal s t).decode_traces s.decode_traces ∧
    s.decode_traces.length ≤ (remove_decode_signal s t).decode_traces.length + 1 ∧
    (remove_decode_signal s t).signals = s.signals ∧
    (remove_decode_signal s t).logic_data = s.logic_data ∧
    (remove_decode_signal s t).logic_snapshots = s.logic_snapshots ∧
    (remove_decode_signal s t).analog_snapshots = s.analog_snapshots ∧
    (remove_decode_signal s t).cur_logic_snapshot = s.cur_logic_snapshot ∧
    (remove_decode_signal s t).cur_analog_snapshots = s.cur_analog_snapshots ∧
    (remove_decode_signal s t).device = s.device ∧
    (remove_decode_signal s t).capture_state = s.capture_state := by
  refine ⟨?_, ?_, ?_⟩
  · intro h
    simp [remove_decode_signal, ha, erase_trace_none t s.decode_traces h]
  · intro pre tr post hs ht hpre
    simp [remove_decode_signal, ha, hs, erase_trace_first t pre tr post ht hpre]
  · cases he : erase_trace t s.decode_traces with
    | none =>
      have e : remove_decode_signal s t = s := by simp [remove_decode_signal, ha, he]
      rw [e]
      simp
    | some result =>
      have e : remove_decode_signal s t =
          ({ s with decode_traces := result } : SigSession).emit Event.signals_changed := by
        simp [remove_decode_signal, ha, he]
      have h1 := erase_trace_sublist t s.decode_traces result he
      rw [e]
      refine ⟨h1.1, ?_, ?_⟩
      · simp only [SigSession.emit]; omega
      · simp [SigSession.emit]

/-- Witness for C20: removing the first of the two traces of
`decoding_session`, and removing an address no trace has. -/
theorem remove_decode_signal_spec_witness :
    (remove_decode_signal decoding_session 500).decode_traces.map (fun tr => tr.id) = [501] ∧
    (remove_decode_signal decoding_session 500).log =
      decoding_session.log ++ [Event.signals_changed] ∧
    (remove_decode_signal decoding_session 500).signals = decoding_session.signals ∧
    remove_decode_signal decoding_session 777 = decoding_session := by
  have h := remove_decode_signal_spec decoding_session 500 rfl
  have h2 := remove_decode_signal_spec decoding_session 777 rfl
  exact ⟨by decide, by decide, h.2.2.2.2.1, h2.1 (by decide)⟩

/-- C21: for every loaded session that exposes at least one device, `set_file`
returns exactly when the capture state is `Stopped` (otherwise the assertion
of `update_signals` fails); when it returns, the active device is the first
device of the loaded session, the decode-trace list is empty and the signals
list has one signal per channel of that device, in channel order. -/
theorem set_file_result (s : SigSession) (d : Device) (more : List Device)
    (ha : s.aborted = false) :
    ((set_file s (some (d :: more))).aborted = false ↔ s.capture_state = .Stopped) ∧
    ((set_file s (some (d :: more))).aborted = false →
      (set_file s (some (d :: more))).device = some d ∧
      (set_file s (some (d :: more))).decode_traces = [] ∧
      (set_file s (some (d :: more))).signals.map Signal.channel = d.channels ∧
      (set_file s (some (d :: more))).signals.length = d.channels.length) := by
  by_cases hs : s.capture_state = .Stopped
  · have e : set_file s (some (d :: more)) =
        update_signals
          (({ s.emit Event.load_session with device := some d, decode_traces := [] }
            : SigSession).emit Event.sr_session_add_datafeed_callback) d := by
      simp [set_file, ha]
    rw [e, update_signals_live _ d (by simpa [SigSession.emit] using ha)
      (by simpa [SigSession.emit] using hs)]
    refine ⟨⟨fun _ => hs, fun _ => by simpa [SigSession.emit] using ha⟩, fun _ => ?_⟩
    refine ⟨by simp [SigSession.emit], by simp [SigSession.emit], ?_, ?_⟩
    · simp only [SigSession.emit]
      exact signals_of_channels d.channels
    · simp [SigSession.emit]
  · have e : set_file s (some (d :: more)) =
        update_signals
          (({ s.emit Event.load_session with device := some d, decode_traces := [] }
            : SigSession).emit Event.sr_session_add_datafeed_callback) d := by
      simp [set_file, ha]
    have hab : (set_file s (some (d :: more))).aborted = true := by
      rw [e, update_signals_assert _ d (by simpa [SigSession.emit] using ha)
        (by simpa [SigSession.emit] using hs)]
      simp [SigSession.abort]
    have hno : (set_file s (some (d :: more))).aborted = false → False := by
      intro h
      rw [hab] at h
      cases h
    exact ⟨⟨fun h => (hno h).elim, fun h => absurd h hs⟩, fun h => (hno h).elim⟩

/-- Witness for C21: loading a session file whose first device is
`analog_device` into the idle session on `logic_device`. -/
theorem set_file_result_witness :
    (set_file logic_session (some [analog_device, logic_device])).aborted = false ∧
    (set_file logic_session (some [analog_device, logic_device])).device =
      some analog_device ∧
    (set_file logic_session (some [analog_device, logic_device])).decode_traces = [] ∧
    (set_file logic_session (some [analog_device, logic_device])).signals.map Signal.channel =
      analog_device.channels := by
  have h := set_file_result logic_session analog_device [logic_device] rfl
  have hr := h.1.mpr rfl
  exact ⟨hr, (h.2 hr).1, (h.2 hr).2.1, (h.2 hr).2.2.1⟩

/-- C22: in the constructor of `DeviceOptions` a key that is not a recognised
option identifier, a key whose listing fails and the sample-rate key bind no
property (a failed listing only prints a debug message); a recognised key
whose listing succeeds binds exactly one property, appended behind those
bound before, and for the capture ratio this is an integer property with the
suffix "%" and the range 0..100.  So the properties of the binding are those
of the recognised keys whose listing succeeds, in key order. -/
theorem DeviceOptions_create_spec (keys : List ListedKey) :
    (∀ o k, recognised_option k.key.id = false →
      (DeviceOptions.bind_key o k).properties = o.properties) ∧
    (∀ o k, k.list = none →
      (DeviceOptions.bind_key o k).properties = o.properties ∧
      (DeviceOptions.bind_key o k).debug = o.debug ++ [k.key.name]) ∧
    (∀ o k, k.key.id = ConfigId.SR_CONF_SAMPLERATE →
      (DeviceOptions.bind_key o k).properties = o.properties) ∧
    (∀ o k, binds_property k = true →
      ∃ p, (DeviceOptions.bind_key o k).properties = o.properties ++ [p] ∧
        p.key = k.key ∧
        (k.key.id = ConfigId.SR_CONF_CAPTURE_RATIO →
          p = Property.Int k.key.description "%" (some (0, 100)) k.key)) ∧
    (DeviceOptions.create keys).properties.map Property.key =
      (keys.filter binds_property).map (fun k => k.key) ∧
    (DeviceOptions.create keys).properties.length = (keys.filter binds_property).length := by
  have hkeys : (DeviceOptions.create keys).properties.map Property.key =
      (keys.filter binds_property).map (fun k => k.key) := by
    unfold DeviceOptions.create
    rw [foldl_bind_key_keys]
    rfl
  refine ⟨?_, ?_, ?_, bind_key_bind, hkeys, ?_⟩
  · intro o k h
    exact bind_key_skip o k (by simp [binds_property, h])
  · intro o k h
    refine ⟨bind_key_skip o k (by simp [binds_property, h]), ?_⟩
    simp [DeviceOptions.bind_key, h]
  · intro o k h
    exact bind_key_skip o k (by simp [binds_property, recognised_option, h])
  · have := congrArg List.length hkeys
    simpa using this

/-- C23: for all valid `(start, end, resolution)` with `end >= start`,
`get_subsampled_edges` returns at least two entries; the first entry carries
the position `start` and the level of the sample stored there, the last entry
the position `end` and the level of the sample stored there.  So the
assertion `edges.size() >= 2` of `paint_mid` holds, and `edges.size() - 2`
does not underflow: it is the size less two. -/
theorem get_subsampled_edges_ends (snap : LogicSnapshot)
    (start end_sample resolution channel : Nat)
    (hse : start ≤ end_sample) (hv : end_sample < snap.samples.length) :
    ∃ ws we,
      snap.samples[start]? = some ws ∧ snap.samples[end_sample]? = some we ∧
      (get_subsampled_edges snap start end_sample resolution channel).head? =
        some ((start : Int), ws.testBit channel) ∧
      (get_subsampled_edges snap start end_sample resolution channel).getLast? =
        some ((end_sample : Int), we.testBit channel) ∧
      2 ≤ (get_subsampled_edges snap start end_sample resolution channel).length ∧
      ((get_subsampled_edges snap start end_sample resolution channel).length < 2 ^ 64 →
        paint_mid_edge_count (get_subsampled_edges snap start end_sample resolution channel) =
          some (((get_subsampled_edges snap start end_sample resolution channel).length
            - 2) % 2 ^ 32)) ∧
      (get_subsampled_edges snap start end_sample resolution channel).length - 2 + 2 =
        (get_subsampled_edges snap start end_sample resolution channel).length := by
  have hs : start < snap.samples.length := by omega
  have hlen : 2 ≤ (get_subsampled_edges snap start end_sample resolution channel).length := by
    simp [get_subsampled_edges]
  refine ⟨snap.samples[start], snap.samples[end_sample], ?_, ?_, ?_, ?_, hlen, ?_, by omega⟩
  · exact List.getElem?_eq_getElem hs
  · exact List.getElem?_eq_getElem hv
  · simp [get_subsampled_edges, LogicSnapshot.get_level, List.getD_eq_getElem?_getD,
      List.getElem?_eq_getElem hs]
  · rw [get_subsampled_edges, subsampled_edges_getLast]
    simp [LogicSnapshot.get_level, List.getD_eq_getElem?_getD, List.getElem?_eq_getElem hv]
  · intro hbig
    exact paint_mid_edge_count_eq _ hlen hbig

/-- Witness for C23: the edges of channel 0 of `edge_snapshot` over the
samples 0 to 7. -/
theorem get_subsampled_edges_ends_witness :
    ∃ ws we,
      edge_snapshot.samples[0]? = some ws ∧ edge_snapshot.samples[7]? = some we ∧
      (get_subsampled_edges edge_snapshot 0 7 1 0).head? =
        some ((0 : Int), ws.testBit 0) ∧
      (get_subsampled_edges edge_snapshot 0 7 1 0).getLast? =
        some ((7 : Int), we.testBit 0) ∧
      2 ≤ (get_subsampled_edges edge_snapshot 0 7 1 0).length ∧
      ((get_subsampled_edges edge_snapshot 0 7 1 0).length < 2 ^ 64 →
        paint_mid_edge_count (get_subsampled_edges edge_snapshot 0 7 1 0) =
          some (((get_subsampled_edges edge_snapshot 0 7 1 0).length - 2) % 2 ^ 32)) ∧
      (get_subsampled_edges edge_snapshot 0 7 1 0).length - 2 + 2 =
        (get_subsampled_edges edge_snapshot 0 7 1 0).length :=
  get_subsampled_edges_ends edge_snapshot 0 7 1 0 (by decide) (by decide)

/-- C24, as stated, fails: when the worker of `capturing_session` dispatches
the first logic packet of a sweep, `feed_in_logic` takes the data mutex and,
still holding it, calls `set_capture_state`, which takes the sampling-state
mutex. -/
theorem sampling_mutex_taken_under_data_mutex :
    data_feed_in_locks capturing_session logic_device first_logic_packet =
      [LockEvent.lock .data_mutex, LockEvent.lock .sampling_mutex,
        LockEvent.unlock .sampling_mutex, LockEvent.unlock .data_mutex] ∧
    acquires_while_held .data_mutex .sampling_mutex
      (data_feed_in_locks capturing_session logic_device first_logic_packet) false = true := by
  decide

/-- C24, amended: the data mutex is never taken while the sampling-state
mutex is held, neither in the worker body with its whole packet dispatch nor
in a single dispatch nor in `set_device`.  The sampling-state mutex is taken
while the data mutex is held exactly when `feed_in_logic` opens a sweep (logic
data present, no current snapshot) and when `feed_in_analog` opened a snapshot
for some channel of the packet. -/
theorem lock_order (s : SigSession) (device : Device) (error_handler : Nat)
    (acq : Acquisition) (packet : Packet) (selected : Option Device)
    (logic : LogicPayload) (analog : AnalogPayload) :
    acquires_while_held .sampling_mutex .data_mutex
      (sample_thread_proc_locks s device error_handler acq) false = false ∧
    acquires_while_held .sampling_mutex .data_mutex
      (data_feed_in_locks s device packet) false = false ∧
    acquires_while_held .sampling_mutex .data_mutex
      (set_device_locks s selected) false = false ∧
    (acquires_while_held .data_mutex .sampling_mutex (feed_in_logic_locks s logic) false = true ↔
      (s.aborted = false ∧ s.logic_data.isSome = true ∧ s.cur_logic_snapshot = none)) ∧
    (acquires_while_held .data_mutex .sampling_mutex (feed_in_analog_locks s analog) false
        = true ↔
      (s.aborted = false ∧ analog.channels.length ≠ 0 ∧
        (feed_in_analog_channels analog.data (analog.data.length / analog.channels.length)
          analog.channels.length analog.channels 0 (s, false)).1.aborted = false ∧
        (feed_in_analog_channels analog.data (analog.data.length / analog.channels.length)
          analog.channels.length analog.channels 0 (s, false)).2 = true)) :=
  ⟨(sample_thread_proc_locks_clean s device error_handler acq).1,
    (data_feed_in_locks_clean s device packet).1,
    (set_device_locks_clean s selected).1,
    feed_in_logic_locks_nest s logic,
    feed_in_analog_locks_nest s analog⟩

/-- C25: in `capturing_session` a capture is running (state `Running`, worker
inside `run()`).  `set_file` does not stop it before it calls
`update_signals`, so the assertion `_capture_state == Stopped` fails; through
`set_device`, which stops the capture first, the same session passes it. -/
theorem set_file_assertion_fails :
    capturing_session.aborted = false ∧
    capturing_session.capture_state = .Running ∧
    (set_file capturing_session (some [analog_device])).aborted = true ∧
    (set_file capturing_session (some [analog_device])).log =
      capturing_session.log ++
        [Event.load_session, Event.sr_session_add_datafeed_callback,
          Event.assert_failed "_capture_state == Stopped"] ∧
    (set_device capturing_session (some analog_device)).aborted = false ∧
    (set_device capturing_session (some analog_device)).capture_state = .Stopped := by
  decide

/-- C26, as stated, fails: in `reattached_session` two decoders were attached,
the first trace was removed and a third decoder was attached; the two traces
in the list both have index 1. -/
theorem decode_trace_index_reused :
    reattached_session.decode_traces.map (fun tr => tr.id) = [501, 502] ∧
    reattached_session.decode_traces.map (fun tr => tr.index) = [1, 1] := by
  decide

/-- C26, amended: `add_decoder` gives the new trace the current size of the
list as its index.  So for every sequence of `add_decoder` calls on a session
without decode traces the indices are 0, 1, ..., n-1 in list order, hence
pairwise distinct.  (Once `remove_decode_signal` has shortened the list, a
later `add_decoder` can assign an index that is still in use.) -/
theorem add_decoders_indices (s : SigSession) (calls : List (srd_decoder × Nat))
    (ha : s.aborted = false) (h0 : s.decode_traces = []) :
    (∀ dec ptr, ((add_decoder s dec ptr false).1.decode_traces.map
      (fun tr => tr.index)) = s.decode_traces.map (fun tr => tr.index) ++
        [s.decode_traces.length]) ∧
    (add_decoders s calls).decode_traces.map (fun tr => tr.index) =
      List.range calls.length ∧
    ((add_decoders s calls).decode_traces.map (fun tr => tr.index)).Nodup := by
  have key : ∀ (calls : List (srd_decoder × Nat)) (t : SigSession), t.aborted = false →
      t.decode_traces.map (fun tr => tr.index) = List.range t.decode_traces.length →
      (add_decoders t calls).decode_traces.map (fun tr => tr.index) =
        List.range (t.decode_traces.length + calls.length) := by
    intro calls
    induction calls with
    | nil => intro t _ ht; simpa [add_decoders] using ht
    | cons c rest ih =>
      intro t hta ht
      obtain ⟨h1, h2, h3⟩ := add_decoder_indices t c.1 c.2 hta ht
      simp only [add_decoders]
      rw [ih _ h1 (by rw [h2]; exact h3), h2]
      simp only [List.length_cons]
      congr 1
      omega
  have hr := key calls s ha (by simp [h0])
  simp only [h0, List.length_nil, Nat.zero_add] at hr
  refine ⟨?_, hr, by rw [hr]; exact List.nodup_range _⟩
  intro dec ptr
  rw [add_decoder_live s dec ptr ha]
  simp [SigSession.emit]

/-- Witness for C26: two decoders attached to `bus_session`. -/
theorem add_decoders_indices_witness :
    (add_decoders bus_session [(i2c_decoder, 500), (i2c_decoder, 501)]).decode_traces.map
      (fun tr => tr.index) = List.range 2 :=
  (add_decoders_indices bus_session [(i2c_decoder, 500), (i2c_decoder, 501)] rfl rfl).2.1

/-- C27: after `driver_scan(driver, opts)` the manager's device list is a
permutation of the devices listed before whose driver is not `driver`
followed by the scanned devices, and it is in non-decreasing order of
description (no device compares less than an earlier one); a device of
`driver` in the new list is one the scan returned; the returned list is the
scanned devices in non-decreasing order of description. -/
theorem driver_scan_spec (m : DeviceManager) (driver : Nat) (scanned : List HardwareDevice) :
    (driver_scan m driver scanned).1.devices.Perm
      (m.devices.filter (fun d => decide (d.driver ≠ driver)) ++ scanned) ∧
    (driver_scan m driver scanned).1.devices.Pairwise
      (fun a b => compare_devices b a = false) ∧
    (∀ d ∈ (driver_scan m driver scanned).1.devices, d.driver = driver → d ∈ scanned) ∧
    (driver_scan m driver scanned).2.Perm scanned ∧
    (driver_scan m driver scanned).2.Pairwise (fun a b => compare_devices b a = false) ∧
    (driver_scan m driver scanned).2 = list_sort compare_devices scanned := by
  have hp : (driver_scan m driver scanned).1.devices.Perm
      (m.devices.filter (fun d => decide (d.driver ≠ driver)) ++ scanned) := by
    simp only [driver_scan, erase_driver_devices_eq]
    exact (list_sort_perm _ _).trans
      (List.Perm.append_left _ (list_sort_perm compare_devices scanned))
  refine ⟨hp, ?_, ?_, ?_, ?_, rfl⟩
  · exact list_sort_sorted compare_devices compare_devices_total compare_devices_trans _
  · intro d hd hdr
    rcases List.mem_append.mp (hp.subset hd) with h | h
    · simp [List.mem_filter, hdr] at h
    · exact h
  · exact list_sort_perm compare_devices scanned
  · exact list_sort_sorted compare_devices compare_devices_total compare_devices_trans _

/-- C28: a decoder on which `set_option` is called twice with the same id
and then destroyed.  It takes one reference on each of the values 7 and 8 but
releases only the one on 8, the value left in the map: the overwritten value
7 keeps its reference.  With two different ids both references are
released. -/
theorem set_option_twice_leaks :
    decoder_lifetime (Decoder.create i2c_decoder)
        [("address_format", 7), ("address_format", 8)] =
      some [RefEvent.g_variant_ref 7, RefEvent.g_variant_ref 8,
        RefEvent.g_variant_unref 8] ∧
    refs_taken 7 [RefEvent.g_variant_ref 7, RefEvent.g_variant_ref 8,
      RefEvent.g_variant_unref 8] = 1 ∧
    refs_released 7 [RefEvent.g_variant_ref 7, RefEvent.g_variant_ref 8,
      RefEvent.g_variant_unref 8] = 0 ∧
    decoder_lifetime (Decoder.create i2c_decoder)
        [("address_format", 7), ("bitrate", 8)] =
      some [RefEvent.g_variant_ref 7, RefEvent.g_variant_ref 8,
        RefEvent.g_variant_unref 7, RefEvent.g_variant_unref 8] := by
  decide

/-- C29, as stated, fails: on `sparse_probes` (indices 0 and 5) and on
`twin_probes` (index 0 twice) both assertions of `set_trigger` pass for the
signal of probe 0; the loop addresses the probe numbers 0 and 1 only, and the
first probe with a number, so the second probe keeps its trigger and two
probes have one afterwards. -/
theorem set_trigger_keeps_unaddressed_trigger :
    set_trigger sparse_probes 0 'f' =
      some [{ index := 0, enabled := true, trigger := some "f" },
            { index := 5, enabled := true, trigger := some "r" }] ∧
    set_trigger twin_probes 0 'f' =
      some [{ index := 0, enabled := true, trigger := some "f" },
            { index := 0, enabled := true, trigger := some "r" }] := by
  decide

/-- C29, amended: `set_trigger(type)` for a signal whose probe index is k < n
on a device with n > 0 probes succeeds and changes nothing but triggers.  It
addresses the probes by the numbers 0 to n-1: a probe whose index is below n
and is not the index of an earlier probe gets the one-character string `type`
(none when `type` is 0) if its index is k and has its trigger cleared
otherwise; every other probe keeps its trigger.  When the indices of the
probes are distinct and below n, the probe with index k therefore has that
trigger, every other probe has none, and at most one probe has a trigger. -/
theorem set_trigger_by_index (probes : List sr_probe) (k : Nat) (type : Char)
    (hn : 0 < probes.length) (hk : k < probes.length) :
    ∃ r, set_trigger probes k type = some r ∧
      r.map (fun p => (p.index, p.enabled)) = probes.map (fun p => (p.index, p.enabled)) ∧
      (∀ (j : Nat) (p : sr_probe), probes[j]? = some p →
        r[j]? = some ({ p with trigger :=
          if p.index < probes.length ∧
              p.index ∉ (probes.take j).map (fun q => q.index) then
            (if p.index = k then
              (if type.toNat ≠ 0 then some (String.singleton type) else none)
            else none)
          else p.trigger } : sr_probe)) ∧
      ((∀ p ∈ probes, p.index < probes.length) →
        (probes.map (fun p => p.index)).Nodup →
        (∀ p ∈ r, p.index = k →
          p.trigger = if type.toNat ≠ 0 then some (String.singleton type) else none) ∧
        (∀ p ∈ r, p.index ≠ k → p.trigger = none) ∧
        (r.filter (fun p => p.trigger.isSome)).length ≤ 1) := by
  have hno1 : ¬ ¬ probes.length > 0 := by omega
  have hno2 : ¬ ¬ k < probes.length := by omega
  have e : set_trigger probes k type =
      some (set_trigger_loop k
        (if type.toNat ≠ 0 then some (String.singleton type) else none)
        (List.range probes.length) probes) := by
    simp only [set_trigger, hno1, hno2, if_false]
  have hget : ∀ (j : Nat) (p : sr_probe), probes[j]? = some p →
      (set_trigger_loop k (if type.toNat ≠ 0 then some (String.singleton type) else none)
        (List.range probes.length) probes)[j]? =
      some ({ p with trigger :=
        if p.index < probes.length ∧
            p.index ∉ (probes.take j).map (fun q => q.index) then
          (if p.index = k then
            (if type.toNat ≠ 0 then some (String.singleton type) else none)
          else none)
        else p.trigger } : sr_probe) := by
    intro j p hj
    rw [set_trigger_loop_get k _ probes _ j p hj]
    simp only [List.mem_range]
  refine ⟨_, e, ?_, hget, ?_⟩
  · apply List.ext_getElem?
    intro j
    simp only [List.getElem?_map]
    cases hj : probes[j]? with
    | none =>
      have hlen : probes.length ≤ j := List.getElem?_eq_none_iff.mp hj
      have hl2 : (set_trigger_loop k
          (if type.toNat ≠ 0 then some (String.singleton type) else none)
          (List.range probes.length) probes).length = probes.length :=
        set_trigger_loop_length _ _ _ _
      rw [List.getElem?_eq_none_iff.mpr (by rw [hl2]; exact hlen)]
    | some p =>
      rw [hget j p hj]
      rfl
  · intro hidx hnd
    obtain ⟨r2, e2, _, h1, h2, h3⟩ := set_trigger_distinct probes k type hn hk hidx hnd
    have hr : r2 = set_trigger_loop k
        (if type.toNat ≠ 0 then some (String.singleton type) else none)
        (List.range probes.length) probes := by
      rw [e] at e2
      exact (Option.some.inj e2).symm
    subst hr
    exact ⟨h1, h2, h3⟩

/-- Witness for C29: a trigger on the falling edge for the third of
`three_probes`, whose indices are 0, 1 and 2. -/
theorem set_trigger_by_index_witness :
    ∃ r, set_trigger three_probes 2 'f' = some r ∧
      (∀ p ∈ r, p.index = 2 →
        p.trigger = if ('f').toNat ≠ 0 then some (String.singleton 'f') else none) ∧
      (∀ p ∈ r, p.index ≠ 2 → p.trigger = none) ∧
      (r.filter (fun p => p.trigger.isSome)).length ≤ 1 := by
  obtain ⟨r, h1, _, _, h4⟩ := set_trigger_by_index three_probes 2 'f' (by decide) (by decide)
  exact ⟨r, h1, h4 (by decide) (by decide)⟩

/-- C30: for every edge list of n >= 2 entries, `paint_caps` writes for a
level one cap line per index i in [0, n-2] whose entry has that level, in
index order, from the position of entry i to the position of entry i+1; the
number written never exceeds the n-1 slots of the buffer of `paint_mid`; the
counts for the high and the low level sum to n-1. -/
theorem paint_caps_count {R : Type} (to_x : Int → R) (y : R) (level : Bool)
    (edges : List (Int × Bool)) (hn : 2 ≤ edges.length) :
    paint_caps to_x y level edges =
      ((List.range (edges.length - 1)).filter
        (fun i => decide ((edges.getD i (0, false)).2 = level))).map
        (fun i => { x1 := to_x (edges.getD i (0, false)).1, y1 := y,
                    x2 := to_x (edges.getD (i + 1) (0, false)).1, y2 := y }) ∧
    (paint_caps to_x y level edges).length =
      ((List.range (edges.length - 1)).filter
        (fun i => decide ((edges.getD i (0, false)).2 = level))).length ∧
    (paint_caps to_x y level edges).length ≤ max_cap_line_count edges ∧
    max_cap_line_count edges = edges.length - 1 ∧
    0 < max_cap_line_count edges ∧
    (paint_caps to_x y true edges).length + (paint_caps to_x y false edges).length =
      edges.length - 1 := by
  have hsum := paint_caps_sum to_x y edges
  have heq := paint_caps_eq to_x y level edges
  refine ⟨heq, by rw [heq, List.length_map], ?_, rfl, ?_, hsum⟩
  · simp only [max_cap_line_count]
    cases level <;> omega
  · simp only [max_cap_line_count]
    omega

/-- Witness for C30: the high caps of channel 0 of `edge_snapshot`. -/
theorem paint_caps_count_witness :
    (paint_caps (fun x => x) (0 : Int) true
      (get_subsampled_edges edge_snapshot 0 7 1 0)).length ≤
      max_cap_line_count (get_subsampled_edges edge_snapshot 0 7 1 0) ∧
    (paint_caps (fun x => x) (0 : Int) true
      (get_subsampled_edges edge_snapshot 0 7 1 0)).length +
    (paint_caps (fun x => x) (0 : Int) false
      (get_subsampled_edges edge_snapshot 0 7 1 0)).length = 3 := by
  have h := paint_caps_count (fun x => x) (0 : Int) true
    (get_subsampled_edges edge_snapshot 0 7 1 0) (by decide)
  exact ⟨h.2.2.1, h.2.2.2.2.2⟩

end pv
